import Mathlib

/-!
# scnorion agent: delivery queue, command handlers and profile reconciliation

A shallow embedding of the agent's control core:

* `internal/agent/agent.go`: `SendDeployResult`, `ReadDeploymentNotACK`,
  `SaveDeploymentsNotACK`, `SaveDeploymentNotACK`, `PendingACKTask`, the
  install / update / uninstall package handlers, `startReportJob`,
  `RescheduleReportRunTask`, `GetRemoteConfig`, `ReportTask`, the enable,
  disable and report handlers and `JetStreamAgentHandler`;
* `internal/agent/config.go`: `ReadConfig` and `WriteConfig`;
* `internal/commands/deploy/winget.go`: `GetExplicitelyDeletedPackages`,
  `RemovePackagesFromCfg`, `RemovePowershellScriptsFromCfg`;
* `internal/agent/agent_windows.go`: `Start`, the reconnect job,
  `GetWingetConfigureProfiles`, `NewConfigSubscribe`,
  `SendWinGetCfgExcludedPackage`, `SendWinGetCfgDeploymentReport`,
  `CheckIfCfgPackagesInstalled`, `AgentCertificateHandler` and
  `ApplyConfiguration`;
* `internal/agent/agent_darwin.go`: `GetUnixConfigureProfiles` and
  `ApplyConfiguration`.

Go values are embedded as follows.  A Go `error` is its text, `nil` is `none`.
A `[]byte` / `string` is a `String`; `len(b) > 0` is only ever used as an
emptiness test, which the character count decides the same way.  Calls that
leave the process (the JSON codec, the message bus, the file system, the package
manager) are fields of an explicit environment, so every branch of the source
that depends on their outcome is kept.  For the queue file the JSON codec is
also given as a concrete encoder and decoder (`jsonMarshalIndent`,
`jsonUnmarshal`), which an environment may be required to use
(`Env.jsonCodec`).
-/

namespace ScnorionAgent

/-- Text of a Go `error` value. -/
abbrev GoError := String

/-- Instant of a `time.Time`, in nanoseconds since the epoch. -/
abbrev Time := Int

/-- Modelled from the spec: the record `scnorion_nats.DeployAction` is declared
in the message-bus package, outside the agent sources; the fields are the ones
the agent reads and writes (`AgentId`, `PackageId`, `PackageName`, `When`,
`Action`, `Failed`). -/
structure DeployAction where
  AgentId : String
  PackageId : String
  PackageName : String
  Action : String
  When : Time
  Failed : Bool
  deriving DecidableEq, Repr

/-- The zero value `scnorion_nats.DeployAction{}`. -/
def DeployAction.zero : DeployAction :=
  { AgentId := "", PackageId := "", PackageName := "", Action := "", When := 0, Failed := false }

/-- The wrapper `JSONActions` of `agent.go`: the on-disk shape of the queue. -/
structure JSONActions where
  Actions : List DeployAction
  deriving DecidableEq, Repr

/-- What the delivery code calls outside the process.

* `marshal`: `json.Marshal` of one action;
* `marshalIndent`: `json.MarshalIndent(jActions, "", " ")`;
* `unmarshal`: `json.Unmarshal(bytes, &jActions)` into a zero `JSONActions`;
* `request`: `NATSConnection.Request(subject, data, timeout)`, giving the reply
  payload or the request error;
* `getwd`, `openFile`, `readAll`, `create`, `write`: the error, if any, of the
  file-system call of that name on `pending_acks.json`. -/
structure Env where
  marshal : DeployAction → Except GoError String
  marshalIndent : JSONActions → Except GoError String
  unmarshal : String → Except GoError JSONActions
  request : String → String → Except GoError String
  getwd : Option GoError
  openFile : Option GoError
  readAll : Option GoError
  create : Option GoError
  write : Option GoError

/-- All file-system calls on the queue file succeed. -/
def Env.diskHealthy (env : Env) : Prop :=
  env.getwd = none ∧ env.openFile = none ∧ env.readAll = none ∧
    env.create = none ∧ env.write = none

/-- Go `len` used as an emptiness test on a byte string. -/
def len (s : String) : Nat := s.length

/-- `(*Agent).SendDeployResult`: marshal the action, request `deployresult`,
and turn a non-empty reply into an error carrying the reply text. -/
def SendDeployResult (env : Env) (r : DeployAction) : Option GoError :=
  match env.marshal r with
  | .error err => some err
  | .ok data =>
    match env.request "deployresult" data with
    | .error err => some err
    | .ok responseData =>
      if len responseData > 0 then some responseData else none

/-- `ReadDeploymentNotACK`: the queue held by `pending_acks.json` whose content
is `disk` (a missing file is created empty by `O_CREATE`). -/
def ReadDeploymentNotACK (env : Env) (disk : String) : Except GoError (List DeployAction) :=
  match env.getwd with
  | some err => .error err
  | none =>
    match env.openFile with
    | some err => .error err
    | none =>
      match env.readAll with
      | some err => .error err
      | none =>
        if len disk > 0 then
          match env.unmarshal disk with
          | .error err => .error err
          | .ok jActions => .ok jActions.Actions
        else .ok []

/-- `SaveDeploymentsNotACK`: truncate the file with `os.Create`, then write the
indented JSON of the whole list.  Returns the error and the new file content. -/
def SaveDeploymentsNotACK (env : Env) (actions : List DeployAction) (disk : String) :
    Option GoError × String :=
  match env.getwd with
  | some err => (some err, disk)
  | none =>
    match env.create with
    | some err => (some err, disk)
    | none =>
      match env.marshalIndent { Actions := actions } with
      | .error err => (some err, "")
      | .ok byteValue =>
        match env.write with
        | some err => (some err, "")
        | none => (none, byteValue)

/-- `SaveDeploymentNotACK`: read the current queue, append one action, save. -/
def SaveDeploymentNotACK (env : Env) (action : DeployAction) (disk : String) :
    Option GoError × String :=
  match env.getwd with
  | some err => (some err, disk)
  | none =>
    match env.openFile with
    | some err => (some err, disk)
    | none =>
      match env.readAll with
      | some err => (some err, disk)
      | none =>
        if len disk > 0 then
          match env.unmarshal disk with
          | .error err => (some err, disk)
          | .ok jActions => SaveDeploymentsNotACK env (jActions.Actions ++ [action]) disk
        else SaveDeploymentsNotACK env ([] ++ [action]) disk

/-- Go `slices.Delete(s, i, j)`: the slice without the elements `s[i:j]`. -/
def slicesDelete {α : Type} (s : List α) (i j : Nat) : List α :=
  s.take i ++ s.drop j

/-- State of the sweep loop of `PendingACKTask`: the slice `actions`, the write
index `j`, and the actions passed to `SendDeployResult` so far. -/
structure SweepState where
  actions : List DeployAction
  j : Nat
  sent : List DeployAction
  deriving DecidableEq, Repr

/-- The loop `for i := 0; i < len(actions); i++` of `PendingACKTask`, from
index `i`: a failed send advances `j`, a successful one deletes `actions[j]`. -/
def PendingACKTask.loop (env : Env) (i : Nat) (st : SweepState) : SweepState :=
  if h : i < st.actions.length then
    let a := st.actions.get ⟨i, h⟩
    match SendDeployResult env a with
    | some _ =>
      PendingACKTask.loop env (i + 1) { st with j := st.j + 1, sent := st.sent ++ [a] }
    | none =>
      PendingACKTask.loop env (i + 1)
        { st with actions := slicesDelete st.actions st.j (st.j + 1), sent := st.sent ++ [a] }
  else st
termination_by st.actions.length - i
decreasing_by
  all_goals simp_wf
  · omega
  · simp only [slicesDelete, List.length_append, List.length_take, List.length_drop]
    omega

/-- Outcome of one `PendingACKTask` run: the file afterwards, the actions it
tried to resend, and the list handed to `SaveDeploymentsNotACK` (if reached). -/
structure SweepResult where
  disk : String
  sent : List DeployAction
  saved : Option (List DeployAction)
  deriving DecidableEq, Repr

/-- `(*Agent).PendingACKTask`: load the queue, run the sweep loop, save. -/
def PendingACKTask (env : Env) (disk : String) : SweepResult :=
  match ReadDeploymentNotACK env disk with
  | .error _ => { disk := disk, sent := [], saved := none }
  | .ok actions =>
    let st := PendingACKTask.loop env 0 { actions := actions, j := 0, sent := [] }
    { disk := (SaveDeploymentsNotACK env st.actions disk).2, sent := st.sent,
      saved := some st.actions }

/-! ## Package command handlers (`agent.go`) -/

/-- Whether `sub` occurs as a contiguous block of the character list. -/
def containsChars (sub : List Char) : List Char → Bool
  | [] => sub.isPrefixOf []
  | c :: cs => sub.isPrefixOf (c :: cs) || containsChars sub cs

/-- Go `strings.Contains(s, substr)`. -/
def stringsContains (s substr : String) : Bool :=
  containsChars substr.data s.data

/-- Go `strings.ToLower(s)` on the ASCII range. -/
def stringsToLower (s : String) : String :=
  String.mk (s.data.map Char.toLower)

/-- Collaborators of the package command handlers: the decoder of the inbound
message (`json.Unmarshal(msg.Data, &action)` into a zero action), the three
package-manager operations of `internal/commands/deploy`, and `time.Now()`. -/
structure Collaborators where
  unmarshalAction : String → Except GoError DeployAction
  InstallPackage : String → Option GoError
  UpdatePackage : String → Option GoError
  UninstallPackage : String → Option GoError
  now : Time

/-- An outward effect of a command handler, in program order. -/
inductive Effect where
  | sendDeployResult (action : DeployAction) (err : Option GoError)
  | saveDeploymentNotACK (action : DeployAction) (err : Option GoError)
  | runReport
  deriving DecidableEq, Repr

/-- Result of one handler invocation: its effects and the queue file after. -/
structure HandlerResult where
  effects : List Effect
  disk : String
  deriving DecidableEq, Repr

/-- Callback of `InstallPackageSubscribe`. -/
def InstallPackageSubscribe (env : Env) (c : Collaborators) (msgData : String)
    (disk : String) : HandlerResult :=
  match c.unmarshalAction msgData with
  | .error _ => { effects := [], disk := disk }
  | .ok action =>
    match c.InstallPackage action.PackageId with
    | some _ =>
      let action := { action with Failed := true }
      match SendDeployResult env action with
      | some err =>
        let r := SaveDeploymentNotACK env action disk
        { effects := [.sendDeployResult action (some err), .saveDeploymentNotACK action r.1],
          disk := r.2 }
      | none => { effects := [.sendDeployResult action none], disk := disk }
    | none =>
      let action := { action with When := c.now, Failed := false }
      match SendDeployResult env action with
      | some err =>
        let r := SaveDeploymentNotACK env action disk
        { effects := [.sendDeployResult action (some err), .saveDeploymentNotACK action r.1,
            .runReport],
          disk := r.2 }
      | none => { effects := [.sendDeployResult action none, .runReport], disk := disk }

/-- Callback of `UpdatePackageSubscribe`. -/
def UpdatePackageSubscribe (env : Env) (c : Collaborators) (msgData : String)
    (disk : String) : HandlerResult :=
  match c.unmarshalAction msgData with
  | .error _ => { effects := [], disk := disk }
  | .ok action =>
    match c.UpdatePackage action.PackageId with
    | some perr =>
      if stringsContains perr (stringsToLower "0x8A15002B") then
        { effects := [], disk := disk }
      else
        let action := { action with Failed := true }
        { effects := [.sendDeployResult action (SendDeployResult env action)], disk := disk }
    | none =>
      let action := { action with When := c.now, Failed := false }
      match SendDeployResult env action with
      | some err =>
        let r := SaveDeploymentNotACK env action disk
        { effects := [.sendDeployResult action (some err), .saveDeploymentNotACK action r.1,
            .runReport],
          disk := r.2 }
      | none => { effects := [.sendDeployResult action none, .runReport], disk := disk }

/-- Callback of `UninstallPackageSubscribe`. -/
def UninstallPackageSubscribe (env : Env) (c : Collaborators) (msgData : String)
    (disk : String) : HandlerResult :=
  match c.unmarshalAction msgData with
  | .error _ => { effects := [], disk := disk }
  | .ok action =>
    match c.UninstallPackage action.PackageId with
    | some _ =>
      let action := { action with Failed := false }
      { effects := [.sendDeployResult action (SendDeployResult env action)], disk := disk }
    | none =>
      let action := { action with When := c.now }
      match SendDeployResult env action with
      | some err =>
        let r := SaveDeploymentNotACK env action disk
        { effects := [.sendDeployResult action (some err), .saveDeploymentNotACK action r.1,
            .runReport],
          disk := r.2 }
      | none => { effects := [.sendDeployResult action none, .runReport], disk := disk }

/-! ## WinGet configuration filtering (`winget.go`, `agent_windows.go`) -/

/-- A Go `any` held in a settings map: a string, or a value of another type. -/
inductive AnyValue where
  | str (s : String)
  | other
  deriving DecidableEq, Repr

/-- Modelled from the spec: `wingetcfg.WinGetResource` is declared in the
configuration package, outside the agent sources; the fields are the ones the
agent reads: the resource kind, the settings map and the description. -/
structure WinGetResource where
  Resource : String
  Settings : List (String × AnyValue)
  Description : String
  deriving DecidableEq, Repr

/-- Map index `m[key]`: the value, or the nil interface when the key is absent. -/
def mapIndex (m : List (String × AnyValue)) (key : String) : Option AnyValue :=
  m.lookup key

/-- Type assertion `v.(string)`: `none` is the run-time panic on a nil
interface or a non-string value. -/
def assertString : Option AnyValue → Option String
  | some (.str s) => some s
  | _ => none

/-- The condition of `RemovePackagesFromCfg` on a package resource,
`!Contains(E, id) || (Contains(E, id) && Ensure == "Absent")`, evaluated left
to right with short-circuit; `none` is a panic of a type assertion. -/
def keepPackage (exclusions : List String) (r : WinGetResource) : Option Bool :=
  match assertString (mapIndex r.Settings "id") with
  | none => none
  | some id =>
    if !exclusions.contains id then some true
    else
      match assertString (mapIndex r.Settings "id") with
      | none => none
      | some id2 =>
        if exclusions.contains id2 then
          match assertString (mapIndex r.Settings "Ensure") with
          | none => none
          | some ensure => some (ensure == "Absent")
        else some false

/-- The `for _, r := range cfg.Properties.Resources` loop of
`RemovePackagesFromCfg`, with `validResources` as accumulator. -/
def RemovePackagesFromCfg.loop (WinGetPackageResource : String) (exclusions : List String) :
    List WinGetResource → List WinGetResource → Option (List WinGetResource)
  | [], validResources => some validResources
  | r :: rest, validResources =>
    if r.Resource = WinGetPackageResource then
      match keepPackage exclusions r with
      | none => none
      | some true =>
        RemovePackagesFromCfg.loop WinGetPackageResource exclusions rest (validResources ++ [r])
      | some false =>
        RemovePackagesFromCfg.loop WinGetPackageResource exclusions rest validResources
    else
      RemovePackagesFromCfg.loop WinGetPackageResource exclusions rest (validResources ++ [r])

/-- `RemovePackagesFromCfg`: the new `cfg.Properties.Resources`, or `none` when
a type assertion panics.  `WinGetPackageResource` is the kind constant of the
configuration package. -/
def RemovePackagesFromCfg (WinGetPackageResource : String) (resources : List WinGetResource)
    (exclusions : List String) : Option (List WinGetResource) :=
  if exclusions.length = 0 then some resources
  else RemovePackagesFromCfg.loop WinGetPackageResource exclusions resources []

/-- The loop of `GetExplicitelyDeletedPackages`, with `deleted` as accumulator;
`IsWinGetPackageInstalled` is the installed-state oracle. -/
def GetExplicitelyDeletedPackages.loop (IsWinGetPackageInstalled : String → Bool) :
    List String → List String → List String
  | [], deleted => deleted
  | d :: rest, deleted =>
    if !IsWinGetPackageInstalled d then
      GetExplicitelyDeletedPackages.loop IsWinGetPackageInstalled rest (deleted ++ [d])
    else GetExplicitelyDeletedPackages.loop IsWinGetPackageInstalled rest deleted

/-- `GetExplicitelyDeletedPackages`. -/
def GetExplicitelyDeletedPackages (IsWinGetPackageInstalled : String → Bool)
    (deployments : List String) : List String :=
  GetExplicitelyDeletedPackages.loop IsWinGetPackageInstalled deployments []

/-- `SendWinGetCfgExcludedPackage`: the `(subject, data)` requests made, in
order.  A marshal error returns from the function; a request error is only
logged. -/
def SendWinGetCfgExcludedPackage (env : Env) (uuid : String) :
    List String → List (String × String)
  | [] => []
  | id :: rest =>
    match env.marshal { DeployAction.zero with AgentId := uuid, PackageId := id } with
    | .error _ => []
    | .ok data => ("wingetcfg.exclude", data) :: SendWinGetCfgExcludedPackage env uuid rest

/-- What the filtering stage of `ApplyConfiguration` produced. -/
structure FilterStage where
  explicitelyDeleted : List String
  excludeRequests : List (String × String)
  resources : List WinGetResource
  deriving DecidableEq, Repr

/-- The filtering stage of `ApplyConfiguration` (from "Check if packages were
explicitely deleted" to "Remove exclusions"): compute the deleted packages,
drop them from the configuration, notify the backend, drop the exclusions.
`none` is a panic inside `RemovePackagesFromCfg`. -/
def ApplyConfiguration.filterStage (env : Env) (uuid : String)
    (WinGetPackageResource : String) (IsWinGetPackageInstalled : String → Bool)
    (resources : List WinGetResource) (exclusions deployments : List String) :
    Option FilterStage :=
  let explicitelyDeleted := GetExplicitelyDeletedPackages IsWinGetPackageInstalled deployments
  match RemovePackagesFromCfg WinGetPackageResource resources explicitelyDeleted with
  | none => none
  | some resources1 =>
    let requests := SendWinGetCfgExcludedPackage env uuid explicitelyDeleted
    match RemovePackagesFromCfg WinGetPackageResource resources1 exclusions with
    | none => none
    | some resources2 =>
      some { explicitelyDeleted := explicitelyDeleted, excludeRequests := requests,
             resources := resources2 }

/-! ## Run-once scripts (`agent_windows.go`, `config.go`) -/

/-- Pieces of a character list between occurrences of `sep`. -/
def splitChars (sep : Char) : List Char → List (List Char)
  | [] => [[]]
  | c :: cs =>
    if c = sep then [] :: splitChars sep cs
    else
      match splitChars sep cs with
      | [] => [[c]]
      | piece :: pieces => (c :: piece) :: pieces

/-- Character lists joined with `sep` between consecutive elements. -/
def joinChars (sep : Char) : List (List Char) → List Char
  | [] => []
  | [x] => x
  | x :: y :: rest => x ++ sep :: joinChars sep (y :: rest)

/-- Go `strings.Split(s, sep)` for a one-character separator. -/
def stringsSplit (s : String) (sep : Char) : List String :=
  (splitChars sep s.data).map String.mk

/-- Go `strings.Join(elems, sep)` for a one-character separator. -/
def stringsJoin (elems : List String) (sep : Char) : String :=
  String.mk (joinChars sep (elems.map String.data))

/-- `deploy.PowerShellTask`. -/
structure PowerShellTask where
  ID : String
  Script : String
  RunConfig : String
  deriving DecidableEq, Repr

/-- How `(*Config).WriteConfig` ended: the INI file was saved, `ini.Load`
failed and the error was returned, or `SaveTo` failed and `log.Fatalf` ended
the process. -/
inductive WriteOutcome where
  | saved
  | loadError (err : GoError)
  | fatal
  deriving DecidableEq, Repr

/-- Outcomes of the outside calls of one iteration of the script loop: the
error of `ReadConfig`, the error of `ExecutePowerShellScript`, and how
`WriteConfig` ended. -/
structure ScriptCalls where
  readConfig : Option GoError
  execute : Option GoError
  writeConfig : WriteOutcome
  deriving DecidableEq, Repr

/-- State threaded through the script loop of `ApplyConfiguration`:
`a.Config.ScriptsRun`, the `ScriptsRun` key of the INI file (`none` when the
key is absent), the local `errData`, the tasks handed to
`ExecutePowerShellScript` so far, and whether `log.Fatalf` has ended the
process. -/
structure ScriptState where
  ScriptsRun : String
  iniScriptsRun : Option String
  errData : String
  ran : List PowerShellTask
  exited : Bool
  deriving DecidableEq, Repr

/-- The error accumulation repeated in `ApplyConfiguration`:
`errData += ", " + name + ": " + err` or, when empty, `name + ": " + err`. -/
def appendErr (errData name err : String) : String :=
  if errData ≠ "" then errData ++ (", " ++ name ++ ": " ++ err) else name ++ ": " ++ err

/-- The last step of a successful `ReadConfig`: `a.Config.ScriptsRun` takes the
value of the key when the key exists. -/
def ReadConfig.scriptsRun (st : ScriptState) : ScriptState :=
  match st.iniScriptsRun with
  | some v => { st with ScriptsRun := v }
  | none => st

/-- `(*Config).WriteConfig` as seen through the `ScriptsRun` key. -/
def WriteConfig (outcome : WriteOutcome) (name : String) (st : ScriptState) : ScriptState :=
  match outcome with
  | .loadError err => { st with errData := appendErr st.errData name err }
  | .saved => { st with iniScriptsRun := some st.ScriptsRun }
  | .fatal => { st with exited := true }

/-- `ExecutePowerShellScript` called from the script loop: the task is
recorded as run and an error is accumulated into `errData`. -/
def executeScript (outcome : Option GoError) (name : String) (taskConfig : PowerShellTask)
    (st : ScriptState) : ScriptState :=
  match outcome with
  | some err =>
    { st with errData := appendErr st.errData name err, ran := st.ran ++ [taskConfig] }
  | none => { st with ran := st.ran ++ [taskConfig] }

/-- Body of `for name, taskConfig := range scripts` in `ApplyConfiguration`. -/
def scriptIteration (name : String) (taskConfig : PowerShellTask) (calls : ScriptCalls)
    (st : ScriptState) : ScriptState :=
  match calls.readConfig with
  | some err => { st with errData := appendErr st.errData name err }
  | none =>
    let st := ReadConfig.scriptsRun st
    if taskConfig.RunConfig = "once" then
      let scriptsRun := stringsSplit st.ScriptsRun ','
      if !scriptsRun.contains taskConfig.ID then
        let st := executeScript calls.execute name taskConfig st
        let tasksRun := stringsSplit st.ScriptsRun ',' ++ [taskConfig.ID]
        let st := { st with ScriptsRun := stringsJoin tasksRun ',' }
        WriteConfig calls.writeConfig name st
      else st
    else executeScript calls.execute name taskConfig st

/-- What happens to the script state over the agent's life: the process is
(re)started (`New` builds a zero `Config` and calls `ReadConfig`), a
reconciliation cycle begins (`errData := ""`), or the loop body runs for one
script of the cycle. -/
inductive ScriptEvent where
  | restart
  | cycle
  | script (name : String) (taskConfig : PowerShellTask) (calls : ScriptCalls)
  deriving DecidableEq, Repr

/-- One event applied to the script state.  After `log.Fatalf` nothing runs
until the next restart. -/
def scriptEvent (st : ScriptState) : ScriptEvent → ScriptState
  | .restart =>
    ReadConfig.scriptsRun { st with ScriptsRun := "", errData := "", exited := false }
  | .cycle => if st.exited then st else { st with errData := "" }
  | .script name taskConfig calls =>
    if st.exited then st else scriptIteration name taskConfig calls st

/-- A sequence of events applied in order. -/
def runScriptEvents (st : ScriptState) (events : List ScriptEvent) : ScriptState :=
  events.foldl scriptEvent st

/-- Number of run-once executions of the script with the given ID. -/
def onceRuns (id : String) (ran : List PowerShellTask) : Nat :=
  (ran.filter fun t => t.RunConfig = "once" ∧ t.ID = id).length

/-- Every `WriteConfig` of the event sequence saved the INI file. -/
def writesSaved (events : List ScriptEvent) : Prop :=
  ∀ name taskConfig calls, ScriptEvent.script name taskConfig calls ∈ events →
    calls.writeConfig = WriteOutcome.saved

/-! ## Scripts, apply, report and verify stages (`winget.go`, `agent_windows.go`) -/

/-- Go map assignment `scripts[name] = task` on a map kept as a list of
entries with distinct keys. -/
def mapSet (scripts : List (String × PowerShellTask)) (name : String) (task : PowerShellTask) :
    List (String × PowerShellTask) :=
  if scripts.any (fun e => e.1 == name) then
    scripts.map fun e => if e.1 = name then (name, task) else e
  else scripts ++ [(name, task)]

/-- What `RemovePowershellScriptsFromCfg` does with one script resource: the
comma-ok lookups of `Script`, `Name`, `ID` and `ScriptRun`, then the map
assignment with its `.(string)` assertions.  `none` is a panic of an
assertion; a resource lacking `Script`, `Name` or `ID` adds nothing. -/
def addScript (scripts : List (String × PowerShellTask)) (r : WinGetResource) :
    Option (List (String × PowerShellTask)) :=
  match mapIndex r.Settings "Script" with
  | none => some scripts
  | some script =>
    match mapIndex r.Settings "Name" with
    | none => some scripts
    | some name =>
      match mapIndex r.Settings "ID" with
      | none => some scripts
      | some id =>
        match mapIndex r.Settings "ScriptRun" with
        | some scriptRun =>
          match assertString (some name), assertString (some script),
              assertString (some scriptRun), assertString (some id) with
          | some n, some sc, some run, some i =>
            some (mapSet scripts n { Script := sc, RunConfig := run, ID := i })
          | _, _, _, _ => none
        | none =>
          match assertString (some name), assertString (some script),
              assertString (some id) with
          | some n, some sc, some i =>
            some (mapSet scripts n { Script := sc, RunConfig := "once", ID := i })
          | _, _, _ => none

/-- The loop of `RemovePowershellScriptsFromCfg`, with the map `scripts` and
`validResources` as accumulators.  `scnorionPowershell` is the kind constant of
the configuration package. -/
def RemovePowershellScriptsFromCfg.loop (scnorionPowershell : String) :
    List WinGetResource → List (String × PowerShellTask) → List WinGetResource →
      Option (List (String × PowerShellTask) × List WinGetResource)
  | [], scripts, validResources => some (scripts, validResources)
  | r :: rest, scripts, validResources =>
    if r.Resource = scnorionPowershell then
      match addScript scripts r with
      | none => none
      | some scripts1 =>
        RemovePowershellScriptsFromCfg.loop scnorionPowershell rest scripts1 validResources
    else
      RemovePowershellScriptsFromCfg.loop scnorionPowershell rest scripts (validResources ++ [r])

/-- `RemovePowershellScriptsFromCfg`: the returned map and the new
`cfg.Properties.Resources`, or `none` when a type assertion panics. -/
def RemovePowershellScriptsFromCfg (scnorionPowershell : String)
    (resources : List WinGetResource) :
    Option (List (String × PowerShellTask) × List WinGetResource) :=
  RemovePowershellScriptsFromCfg.loop scnorionPowershell resources [] []

/-- An observable step of the second half of `ApplyConfiguration`, in program
order: the declarative executor was run, the profile outcome was reported
(`SendWinGetCfgProfileApplicationReport`), the installed state of a package
was verified (`IsWinGetPackageInstalled`), a deployment report was sent
(`SendWinGetCfgDeploymentReport`, with its error). -/
inductive CycleEvent where
  | executorRun (err : Option GoError)
  | profileReport (profileID : Int) (agentID : String) (success : Bool) (errData : String)
  | verify (packageID : String) (installed : Bool)
  | deploymentReport (packageID packageName action : String) (err : Option GoError)
  deriving DecidableEq, Repr

/-- `SendWinGetCfgDeploymentReport`: marshal the deployment record and request
`wingetcfg.deploy`; the reply is not inspected. -/
def SendWinGetCfgDeploymentReport (env : Env) (uuid : String) (now : Time)
    (packageID packageName action : String) : Option GoError :=
  let deployment : DeployAction :=
    { AgentId := uuid, PackageId := packageID, PackageName := packageName, Action := action,
      When := now, Failed := false }
  match env.marshal deployment with
  | .error err => some err
  | .ok data =>
    match env.request "wingetcfg.deploy" data with
    | .error err => some err
    | .ok _ => none

/-- Events of a verification pass and whether it ended in a panic. -/
structure Verification where
  events : List CycleEvent
  panicked : Bool
  deriving DecidableEq, Repr

/-- Events put in front of the rest of a verification pass. -/
def Verification.after (events : List CycleEvent) (rest : Verification) : Verification :=
  { events := events ++ rest.events, panicked := rest.panicked }

/-- `CheckIfCfgPackagesInstalled`: for every package resource, verify the
installed state and send an `install` report when `Ensure` is `"Present"` and
the package is installed, an `uninstall` report when `Ensure` is anything else
and the package is not installed.  A failing `.(string)` assertion panics. -/
def CheckIfCfgPackagesInstalled (env : Env) (uuid : String) (now : Time)
    (WinGetPackageResource : String) (IsWinGetPackageInstalled : String → Bool) :
    List WinGetResource → Verification
  | [] => { events := [], panicked := false }
  | r :: rest =>
    if r.Resource = WinGetPackageResource then
      match assertString (mapIndex r.Settings "id") with
      | none => { events := [], panicked := true }
      | some packageID =>
        let packageName := r.Description
        match assertString (mapIndex r.Settings "Ensure") with
        | none => { events := [], panicked := true }
        | some ensure =>
          if ensure = "Present" then
            if IsWinGetPackageInstalled packageID then
              Verification.after
                [.verify packageID true,
                 .deploymentReport packageID packageName "install"
                   (SendWinGetCfgDeploymentReport env uuid now packageID packageName "install")]
                (CheckIfCfgPackagesInstalled env uuid now WinGetPackageResource
                  IsWinGetPackageInstalled rest)
            else
              Verification.after [.verify packageID false]
                (CheckIfCfgPackagesInstalled env uuid now WinGetPackageResource
                  IsWinGetPackageInstalled rest)
          else
            if !IsWinGetPackageInstalled packageID then
              Verification.after
                [.verify packageID false,
                 .deploymentReport packageID packageName "uninstall"
                   (SendWinGetCfgDeploymentReport env uuid now packageID packageName
                     "uninstall")]
                (CheckIfCfgPackagesInstalled env uuid now WinGetPackageResource
                  IsWinGetPackageInstalled rest)
            else
              Verification.after [.verify packageID true]
                (CheckIfCfgPackagesInstalled env uuid now WinGetPackageResource
                  IsWinGetPackageInstalled rest)
    else
      CheckIfCfgPackagesInstalled env uuid now WinGetPackageResource
        IsWinGetPackageInstalled rest

/-- The loop `for name, taskConfig := range scripts` of `ApplyConfiguration`
over the map entries in the order the runtime presents them; `calls` gives the
outcomes of the outside calls of the iteration for each script name.  After
`log.Fatalf` no further iteration runs. -/
def scriptLoop (calls : String → ScriptCalls) :
    List (String × PowerShellTask) → ScriptState → ScriptState
  | [], st => st
  | (name, taskConfig) :: rest, st =>
    if st.exited then st
    else scriptLoop calls rest (scriptIteration name taskConfig (calls name) st)

/-- Outcomes of the outside calls of the apply step: the error of
`cfg.WriteConfigFile`, the error of running `configure.ps1`, and the content
of `wingetcfg.txt` as read after a failed run (empty when it cannot be
read). -/
structure ExecutorCalls where
  writeConfigFile : Option GoError
  run : Option GoError
  logData : String
  deriving DecidableEq, Repr

/-- How a modelled function ended: it returned, `log.Fatalf` ended the
process, or a run-time panic unwound it. -/
inductive Ending where
  | returned
  | fatal
  | panicked
  deriving DecidableEq, Repr

/-- What the second half of `ApplyConfiguration` did: the script state after
the script loop, the error text handed to the profile report, the observable
steps in order, the returned error and how the function ended. -/
structure ApplyOutcome where
  scripts : ScriptState
  errData : String
  events : List CycleEvent
  result : Option GoError
  ending : Ending
  deriving DecidableEq, Repr

/-- The update of `errData` after a failed executor run, as written in
`ApplyConfiguration`: `errData = ", " + string(data)` when `errData` is not
empty, `errData = string(data)` otherwise. -/
def executorErrData (errData logData : String) : String :=
  if errData ≠ "" then ", " ++ logData else logData

/-- `ApplyConfiguration` from `errData := ""` to its end: take the scripts out
of the configuration and run them, write the configuration file, run the
executor, report the profile outcome, verify the packages.  `rangeOrder` is
the order in which `range` presents the entries of the script map; `st` holds
`a.Config.ScriptsRun` and the INI key on entry. -/
def ApplyConfiguration.applyStage (env : Env) (uuid : String) (now : Time) (profileID : Int)
    (WinGetPackageResource scnorionPowershell : String)
    (IsWinGetPackageInstalled : String → Bool)
    (rangeOrder : List (String × PowerShellTask) → List (String × PowerShellTask))
    (scriptCalls : String → ScriptCalls) (executor : ExecutorCalls)
    (resources : List WinGetResource) (st : ScriptState) : ApplyOutcome :=
  match RemovePowershellScriptsFromCfg scnorionPowershell resources with
  | none =>
    { scripts := st, errData := "", events := [], result := none, ending := .panicked }
  | some (scripts, resources1) =>
    let st1 := scriptLoop scriptCalls (rangeOrder scripts) { st with errData := "" }
    if st1.exited then
      { scripts := st1, errData := st1.errData, events := [], result := none,
        ending := .fatal }
    else
      match executor.writeConfigFile with
      | some err =>
        { scripts := st1, errData := st1.errData, events := [], result := some err,
          ending := .returned }
      | none =>
        let errData :=
          match executor.run with
          | some _ => executorErrData st1.errData executor.logData
          | none => st1.errData
        let success := executor.run.isNone && errData == ""
        let verification := CheckIfCfgPackagesInstalled env uuid now WinGetPackageResource
          IsWinGetPackageInstalled resources1
        { scripts := st1, errData := errData,
          events := [.executorRun executor.run,
            .profileReport profileID uuid success errData] ++ verification.events,
          result := none,
          ending := if verification.panicked then .panicked else .returned }

/-! ## Agent configuration (`config.go`) -/

/-- `SCHEDULETIME_5MIN` of `config.go`. -/
def SCHEDULETIME_5MIN : Int := 5

/-- `SCHEDULETIME_30MIN` of `config.go`. -/
def SCHEDULETIME_30MIN : Int := 30

/-- The struct `Config` of `config.go`. -/
structure Config where
  NATSServers : String
  UUID : String
  ExecuteTaskEveryXMinutes : Int
  Enabled : Bool
  Debug : Bool
  DefaultFrequency : Int
  VNCProxyPort : String
  SFTPPort : String
  CACert : String
  AgentCert : String
  AgentKey : String
  SFTPCert : String
  WingetConfigureFrequency : Int
  IPAddress : String
  SFTPDisabled : Bool
  RemoteAssistanceDisabled : Bool
  SiteID : String
  TenantID : String
  ScriptsRun : String
  deriving DecidableEq, Repr

/-- The keys of the INI file that the agent reads or writes, with the values
as `ReadConfig` parses them.  The keys that `ReadConfig` requires are plain
values (a file without them is not read without error); the keys it treats as
optional are `none` when absent. -/
structure IniFile where
  UUID : String
  Enabled : Bool
  ExecuteTaskEveryXMinutes : Int
  NATSServers : String
  Debug : Bool
  DefaultFrequency : Int
  SFTPPort : String
  VNCProxyPort : String
  AgentCert : Option String
  AgentKey : Option String
  CACert : Option String
  SFTPCert : Option String
  WingetConfigureFrequency : Option Int
  IPAddress : Option String
  SFTPDisabled : Option Bool
  RemoteAssistanceDisabled : Option Bool
  TenantID : Option String
  SiteID : Option String
  ScriptsRun : Option String
  RestartRequired : Option String
  deriving DecidableEq, Repr

/-- Value of a run of decimal digits read after `acc`, `none` when a character
is not a digit. -/
def parseDigits : List Char → Nat → Option Nat
  | [], acc => some acc
  | c :: cs, acc =>
    if c.isDigit then parseDigits cs (10 * acc + (c.toNat - '0'.toNat)) else none

/-- Go `strconv.Atoi`: an optional sign followed by at least one decimal digit,
within the range of a 64-bit `int`; `none` is the error. -/
def strconvAtoi (s : String) : Option Int :=
  let digits : List Char → Option Nat := fun ds =>
    if ds = [] then none else parseDigits ds 0
  let value : Option Int :=
    match s.data with
    | '+' :: ds => (digits ds).map fun n => (n : Int)
    | '-' :: ds => (digits ds).map fun n => -(n : Int)
    | ds => (digits ds).map fun n => (n : Int)
  match value with
  | some v => if -9223372036854775808 ≤ v ∧ v ≤ 9223372036854775807 then some v else none
  | none => none

/-- The port check of `ReadConfig`: the string is kept when `strconv.Atoi`
accepts it with a value in `0..65535`, and replaced by `""` otherwise. -/
def readPort (s : String) : String :=
  match strconvAtoi s with
  | some val => if val < 0 ∨ val > 65535 then "" else s
  | none => ""

/-- Go `filepath.Join(cwd, "certificates", name)`, the separator written `/`. -/
def certificateFile (cwd name : String) : String :=
  cwd ++ "/certificates/" ++ name

/-- How `(*Agent).ReadConfig` ended: it returned nil (with the working
directory it found and whether the SFTP certificate could be read), it
returned an error after the assignments made so far left the in-memory
configuration as `left`, or `log.Fatalf` ended the process. -/
inductive ReadOutcome where
  | ok (cwd : String) (sftpCertReadable : Bool)
  | error (err : GoError) (left : Config)
  | fatal
  deriving DecidableEq, Repr

/-- The in-memory configuration after a `ReadConfig` that returned nil: every
field is taken from the INI file, with the defaults of the source for absent
optional keys; `IPAddress`, `TenantID`, `SiteID` and `ScriptsRun` keep their
value when the key is absent. -/
def ReadConfig.values (cwd : String) (sftpCertReadable : Bool) (ini : IniFile) (c : Config) :
    Config :=
  { NATSServers := ini.NATSServers
    UUID := ini.UUID
    ExecuteTaskEveryXMinutes := ini.ExecuteTaskEveryXMinutes
    Enabled := ini.Enabled
    Debug := ini.Debug
    DefaultFrequency := ini.DefaultFrequency
    VNCProxyPort := readPort ini.VNCProxyPort
    SFTPPort := readPort ini.SFTPPort
    CACert :=
      match ini.CACert with
      | some v => v
      | none => certificateFile cwd "ca.cer"
    AgentCert :=
      match ini.AgentCert with
      | some v => v
      | none => certificateFile cwd "agent.cer"
    AgentKey :=
      match ini.AgentKey with
      | some v => v
      | none => certificateFile cwd "agent.key"
    SFTPCert :=
      if sftpCertReadable then
        match ini.SFTPCert with
        | some v => v
        | none => certificateFile cwd "sftp.cer"
      else ""
    WingetConfigureFrequency :=
      match ini.WingetConfigureFrequency with
      | some v => v
      | none => SCHEDULETIME_30MIN
    IPAddress :=
      match ini.IPAddress with
      | some ip => if ip ≠ "" then ip else c.IPAddress
      | none => c.IPAddress
    SFTPDisabled :=
      match ini.SFTPDisabled with
      | some v => v
      | none => false
    RemoteAssistanceDisabled :=
      match ini.RemoteAssistanceDisabled with
      | some v => v
      | none => false
    SiteID :=
      match ini.SiteID with
      | some v => v
      | none => c.SiteID
    TenantID :=
      match ini.TenantID with
      | some v => v
      | none => c.TenantID
    ScriptsRun :=
      match ini.ScriptsRun with
      | some v => v
      | none => c.ScriptsRun }

/-- The INI file after a `(*Config).WriteConfig` that saved it: the eleven keys
set by `WriteConfig` take the in-memory values, the other keys are kept. -/
def Config.WriteConfig (c : Config) (ini : IniFile) : IniFile :=
  { ini with
    UUID := c.UUID
    Enabled := c.Enabled
    DefaultFrequency := c.DefaultFrequency
    ExecuteTaskEveryXMinutes := c.ExecuteTaskEveryXMinutes
    WingetConfigureFrequency := some c.WingetConfigureFrequency
    Debug := c.Debug
    SFTPPort := c.SFTPPort
    VNCProxyPort := c.VNCProxyPort
    SFTPDisabled := some c.SFTPDisabled
    RemoteAssistanceDisabled := some c.RemoteAssistanceDisabled
    ScriptsRun := some c.ScriptsRun }

/-! ## Scheduler and agent state (`agent.go`) -/

/-- The task a scheduled job runs. -/
inductive JobKind where
  | report
  | pendingACK
  | configure
  | natsConnect
  deriving DecidableEq, Repr

/-- Go `time.Duration(minutes) * time.Minute`: a number of nanoseconds held in
an `int64`; the product wraps around outside the `int64` range. -/
def timeDuration (minutes : Int) : Int :=
  (minutes * 60000000000 + 9223372036854775808) % 18446744073709551616 - 9223372036854775808

/-- A job held by the `gocron` scheduler: its identifier, its task, the number
of minutes its interval is computed from, and the interval itself: the
`time.Duration` handed to `gocron.DurationJob`, in nanoseconds. -/
structure Job where
  id : Nat
  kind : JobKind
  minutes : Int
  duration : Int := timeDuration minutes
  deriving DecidableEq, Repr

/-- The part of the struct `Agent` that the lifecycle code reads and writes,
with the INI file and the content of `TaskScheduler`.  A job field is `none`
while the Go field is the nil interface; `nextJobID` is the identifier the
scheduler gives to the next job. -/
structure Agent where
  Config : Config
  ini : IniFile
  jobs : List Job
  ReportJob : Option Nat
  NATSConnectJob : Option Nat
  WingetConfigureJob : Option Nat
  nextJobID : Nat
  deriving DecidableEq, Repr

/-- What `(*Agent).RunReport` returned: a report, nil after a failed
collection, or nil because the host has no IP address (then the
`RestartRequired` flag is raised in the INI file, when it can be saved). -/
inductive ReportOutcome where
  | report
  | failed
  | noAddress (flagSaved : Bool)
  deriving DecidableEq, Repr

/-- Whether `RunReport` returned a non-nil report. -/
def ReportOutcome.generated : ReportOutcome → Bool
  | .report => true
  | _ => false

/-- What `GetRemoteConfig` obtained: an error on the way, or a decoded
`scnorion_nats.Config` with its `Ok` flag and fields, together with the
outcome of the `WriteConfig` made when `Ok` is set. -/
inductive RemoteConfigOutcome where
  | failed (err : GoError)
  | received (Ok : Bool) (AgentFrequency WinGetFrequency : Int)
      (SFTPDisabled RemoteAssistanceDisabled : Bool) (write : WriteOutcome)
  deriving DecidableEq, Repr

/-- An observable step of the lifecycle code, in program order. -/
inductive AgentEvent where
  | runReport (outcome : ReportOutcome)
  | sendReport (err : Option GoError)
  | getRemoteConfig
  | writeConfig
  | removeJob (id : Nat) (err : Option GoError)
  | newJob (kind : JobKind) (minutes : Int)
  | ack
  | goReport
  | handler (name : String)
  | savePrivateKey
  | saveCertificate
  | connect (err : Option GoError)
  | subscribe
  deriving DecidableEq, Repr

/-- Result of running a piece of lifecycle code: the agent afterwards, the
observable steps, and how it ended. -/
structure Run where
  agent : Agent
  trace : List AgentEvent
  ending : Ending
  deriving DecidableEq, Repr

/-- Sequencing: the next piece of code runs only when the previous one
returned. -/
def Run.andThen (r : Run) (next : Agent → Run) : Run :=
  match r.ending with
  | .returned =>
    { agent := (next r.agent).agent, trace := r.trace ++ (next r.agent).trace,
      ending := (next r.agent).ending }
  | _ => r

/-- `(*Agent).ReadConfig`: the agent after the call. -/
def Agent.ReadConfig (outcome : ReadOutcome) (a : Agent) : Agent :=
  match outcome with
  | .ok cwd sftpCertReadable =>
    { a with Config := ReadConfig.values cwd sftpCertReadable a.ini a.Config }
  | .error _ left => { a with Config := left }
  | .fatal => a

/-- `(*Agent).RunReport` as far as the agent state goes: the `RestartRequired`
flag is raised when the host has no address and the file can be saved. -/
def RunReport (outcome : ReportOutcome) (a : Agent) : Agent :=
  match outcome with
  | .noAddress true => { a with ini := { a.ini with RestartRequired := some "true" } }
  | _ => a

/-- Scheduler `RemoveJob(id)`: the jobs afterwards and the error returned when
no job has that identifier. -/
def removeJob (jobs : List Job) (id : Nat) : List Job × Option GoError :=
  if jobs.any (fun j => j.id == id) then (jobs.filter fun j => j.id != id, none)
  else (jobs, some "job not found")

/-- `(*Agent).startReportJob`: a zero interval becomes five minutes, then the
report job is created with the duration
`time.Duration(ExecuteTaskEveryXMinutes) * time.Minute`; `newJob` is the error
of `TaskScheduler.NewJob`, on which `log.Fatalf` ends the process. -/
def startReportJob (newJob : Option GoError) (a : Agent) : Run :=
  let a1 : Agent :=
    if a.Config.ExecuteTaskEveryXMinutes = 0 then
      { a with Config := { a.Config with ExecuteTaskEveryXMinutes := SCHEDULETIME_5MIN } }
    else a
  match newJob with
  | some _ => { agent := { a1 with ReportJob := none }, trace := [], ending := .fatal }
  | none =>
    { agent :=
        { a1 with
          jobs := a1.jobs ++
            [{ id := a1.nextJobID, kind := .report,
               minutes := a1.Config.ExecuteTaskEveryXMinutes,
               duration := timeDuration a1.Config.ExecuteTaskEveryXMinutes }]
          ReportJob := some a1.nextJobID
          nextJobID := a1.nextJobID + 1 }
      trace := [.newJob .report a1.Config.ExecuteTaskEveryXMinutes]
      ending := .returned }

/-- `(*Agent).RescheduleReportRunTask`: remove the job `a.ReportJob.ID()` (a
nil `ReportJob` panics, the error of `RemoveJob` is dropped) and start the
report job again. -/
def RescheduleReportRunTask (newJob : Option GoError) (a : Agent) : Run :=
  match a.ReportJob with
  | none => { agent := a, trace := [], ending := .panicked }
  | some id =>
    Run.andThen
      { agent := { a with jobs := (removeJob a.jobs id).1 },
        trace := [.removeJob id (removeJob a.jobs id).2], ending := .returned }
      (startReportJob newJob)

/-- `(*Agent).GetRemoteConfig`: when a configuration with `Ok` set is
received, four fields are taken from it and the configuration is written;
a failed write ends the process. -/
def GetRemoteConfig (outcome : RemoteConfigOutcome) (a : Agent) : Run :=
  match outcome with
  | .failed _ => { agent := a, trace := [.getRemoteConfig], ending := .returned }
  | .received false _ _ _ _ _ =>
    { agent := a, trace := [.getRemoteConfig], ending := .returned }
  | .received true agentFrequency winGetFrequency sftpDisabled remoteAssistanceDisabled write =>
    let a1 : Agent :=
      { a with
        Config :=
          { a.Config with
            DefaultFrequency := agentFrequency
            WingetConfigureFrequency := winGetFrequency
            SFTPDisabled := sftpDisabled
            RemoteAssistanceDisabled := remoteAssistanceDisabled } }
    match write with
    | .saved =>
      { agent := { a1 with ini := a1.Config.WriteConfig a1.ini },
        trace := [.getRemoteConfig, .writeConfig], ending := .returned }
    | _ => { agent := a1, trace := [.getRemoteConfig], ending := .fatal }

/-- Outcomes of the outside calls of one `ReportTask`. -/
structure ReportCalls where
  runReport : ReportOutcome
  sendReport : Option GoError
  getRemoteConfig : RemoteConfigOutcome
  writeConfig : WriteOutcome
  newJob : Option GoError
  deriving DecidableEq, Repr

/-- `(*Agent).ReportTask`. -/
def ReportTask (calls : ReportCalls) (a : Agent) : Run :=
  let a0 := RunReport calls.runReport a
  if !calls.runReport.generated then
    { agent := a0, trace := [.runReport calls.runReport], ending := .returned }
  else
    match calls.sendReport with
    | some err =>
      let a1 : Agent :=
        { a0 with Config := { a0.Config with ExecuteTaskEveryXMinutes := SCHEDULETIME_5MIN } }
      match calls.writeConfig with
      | .saved =>
        Run.andThen
          { agent := { a1 with ini := a1.Config.WriteConfig a1.ini },
            trace := [.runReport calls.runReport, .sendReport (some err), .writeConfig],
            ending := .returned }
          (RescheduleReportRunTask calls.newJob)
      | _ =>
        { agent := a1, trace := [.runReport calls.runReport, .sendReport (some err)],
          ending := .fatal }
    | none =>
      Run.andThen
        (Run.andThen
          { agent := a0, trace := [.runReport calls.runReport, .sendReport none],
            ending := .returned }
          (GetRemoteConfig calls.getRemoteConfig))
        fun a2 =>
          let a3 : Agent :=
            { a2 with
              Config :=
                { a2.Config with ExecuteTaskEveryXMinutes := a2.Config.DefaultFrequency } }
          match calls.writeConfig with
          | .saved =>
            Run.andThen
              { agent := { a3 with ini := a3.Config.WriteConfig a3.ini },
                trace := [.writeConfig], ending := .returned }
              (RescheduleReportRunTask calls.newJob)
          | _ => { agent := a3, trace := [], ending := .fatal }

/-! ## Durable command handlers (`agent.go`, `agent_windows.go`, `agent_darwin.go`) -/

/-- Outcomes of `ReadConfig` and `WriteConfig` in the enable and disable
handlers. -/
structure ConfigCalls where
  readConfig : ReadOutcome
  writeConfig : WriteOutcome
  deriving DecidableEq, Repr

/-- `(*Agent).EnableAgentHandler`, up to the start of the goroutine that runs
the first report (its body is `EnableAgentHandler.goReport`). -/
def EnableAgentHandler (calls : ConfigCalls) (a : Agent) : Run :=
  let a1 := a.ReadConfig calls.readConfig
  match calls.readConfig with
  | .fatal => { agent := a1, trace := [], ending := .fatal }
  | .error _ _ => { agent := a1, trace := [.ack], ending := .returned }
  | .ok _ _ =>
    if !a1.Config.Enabled then
      let a2 : Agent := { a1 with Config := { a1.Config with Enabled := true } }
      match calls.writeConfig with
      | .loadError _ => { agent := a2, trace := [.ack], ending := .returned }
      | .fatal => { agent := a2, trace := [], ending := .fatal }
      | .saved =>
        { agent := { a2 with ini := a2.Config.WriteConfig a2.ini },
          trace := [.writeConfig, .goReport, .ack], ending := .returned }
    else { agent := a1, trace := [.ack], ending := .returned }

/-- Outcomes of the outside calls of the goroutine of `EnableAgentHandler`. -/
structure GoReportCalls where
  runReport : ReportOutcome
  sendReport : Option GoError
  newJob : Option GoError
  deriving DecidableEq, Repr

/-- Body of the `go func()` of `EnableAgentHandler`: run and send a report,
pick the interval, start the report job. -/
def EnableAgentHandler.goReport (calls : GoReportCalls) (a : Agent) : Run :=
  let a0 := RunReport calls.runReport a
  if !calls.runReport.generated then
    { agent := a0, trace := [.runReport calls.runReport], ending := .returned }
  else
    let a1 : Agent :=
      match calls.sendReport with
      | some _ =>
        { a0 with Config := { a0.Config with ExecuteTaskEveryXMinutes := SCHEDULETIME_5MIN } }
      | none =>
        { a0 with
          Config := { a0.Config with ExecuteTaskEveryXMinutes := a0.Config.DefaultFrequency } }
    Run.andThen
      { agent := a1, trace := [.runReport calls.runReport, .sendReport calls.sendReport],
        ending := .returned }
      (startReportJob calls.newJob)

/-- `(*Agent).DisableAgentHandler`.  `a.ReportJob.ID()` on a nil `ReportJob`
is a nil dereference. -/
def DisableAgentHandler (calls : ConfigCalls) (a : Agent) : Run :=
  let a1 := a.ReadConfig calls.readConfig
  match calls.readConfig with
  | .fatal => { agent := a1, trace := [], ending := .fatal }
  | .error _ _ => { agent := a1, trace := [.ack], ending := .returned }
  | .ok _ _ =>
    if a1.Config.Enabled then
      match a1.ReportJob with
      | none => { agent := a1, trace := [], ending := .panicked }
      | some id =>
        let a2 : Agent :=
          { a1 with
            jobs := (removeJob a1.jobs id).1
            Config := { a1.Config with Enabled := false } }
        match calls.writeConfig with
        | .loadError _ =>
          { agent := a2, trace := [.removeJob id (removeJob a1.jobs id).2, .ack],
            ending := .returned }
        | .fatal =>
          { agent := a2, trace := [.removeJob id (removeJob a1.jobs id).2],
            ending := .fatal }
        | .saved =>
          { agent := { a2 with ini := a2.Config.WriteConfig a2.ini },
            trace := [.removeJob id (removeJob a1.jobs id).2, .writeConfig, .ack],
            ending := .returned }
    else { agent := a1, trace := [.ack], ending := .returned }

/-- Outcomes of the outside calls of `RunReportHandler`. -/
structure RunReportCalls where
  readConfig : ReadOutcome
  runReport : ReportOutcome
  sendReport : Option GoError
  deriving DecidableEq, Repr

/-- `(*Agent).RunReportHandler`: the result of `ReadConfig` is not checked. -/
def RunReportHandler (calls : RunReportCalls) (a : Agent) : Run :=
  let a1 := a.ReadConfig calls.readConfig
  match calls.readConfig with
  | .fatal => { agent := a1, trace := [], ending := .fatal }
  | _ =>
    let a2 := RunReport calls.runReport a1
    if !calls.runReport.generated then
      { agent := a2, trace := [.runReport calls.runReport, .ack], ending := .returned }
    else
      match calls.sendReport with
      | some err =>
        { agent := a2, trace := [.runReport calls.runReport, .sendReport (some err), .ack],
          ending := .returned }
      | none =>
        { agent := a2, trace := [.runReport calls.runReport, .sendReport none, .ack],
          ending := .returned }

/-- Errors of the outside calls of `AgentCertificateHandler`, in program
order, and the outcome of the final `RunReport`.  On macOS the directory is a
constant and `getWd` is `none`. -/
structure CertificateCalls where
  unmarshal : Option GoError
  getWd : Option GoError
  mkdirAll : Option GoError
  parsePrivateKey : Option GoError
  savePrivateKey : Option GoError
  saveCertificate : Option GoError
  runReport : ReportOutcome
  deriving DecidableEq, Repr

/-- `(*Agent).AgentCertificateHandler`: every failing step acknowledges the
message and returns; after the key and the certificate are saved the message
is acknowledged and `RunReport` is called, whose result is only tested for
nil. -/
def AgentCertificateHandler (calls : CertificateCalls) (a : Agent) : Run :=
  match calls.unmarshal with
  | some _ => { agent := a, trace := [.ack], ending := .returned }
  | none =>
    match calls.getWd with
    | some _ => { agent := a, trace := [.ack], ending := .returned }
    | none =>
      match calls.mkdirAll with
      | some _ => { agent := a, trace := [.ack], ending := .returned }
      | none =>
        match calls.parsePrivateKey with
        | some _ => { agent := a, trace := [.ack], ending := .returned }
        | none =>
          match calls.savePrivateKey with
          | some _ => { agent := a, trace := [.ack], ending := .returned }
          | none =>
            match calls.saveCertificate with
            | some _ => { agent := a, trace := [.savePrivateKey, .ack], ending := .returned }
            | none =>
              { agent := RunReport calls.runReport a,
                trace := [.savePrivateKey, .saveCertificate, .ack,
                  .runReport calls.runReport],
                ending := .returned }

/-- The `FilterSubjects` of the durable consumer created by
`CreateAgentJetStreamConsumer`. -/
def FilterSubjects (uuid : String) : List String :=
  ["agent.certificate." ++ uuid, "agent.enable." ++ uuid, "agent.disable." ++ uuid,
   "agent.report." ++ uuid, "agent.update.updater." ++ uuid,
   "agent.rollback.updater." ++ uuid]

/-- Outcomes of the outside calls of the four handlers behind
`JetStreamAgentHandler`. -/
structure DispatchCalls where
  enable : ConfigCalls
  disable : ConfigCalls
  report : RunReportCalls
  certificate : CertificateCalls
  deriving DecidableEq, Repr

/-- `(*Agent).JetStreamAgentHandler`: four `if` statements in sequence, each
comparing the subject with a prefix followed by the current `a.Config.UUID`;
each handler entered is recorded by name. -/
def JetStreamAgentHandler (calls : DispatchCalls) (subject : String) (a : Agent) : Run :=
  let start : Run := { agent := a, trace := [], ending := .returned }
  let afterEnable := start.andThen fun a =>
    if subject = "agent.enable." ++ a.Config.UUID then
      Run.andThen { agent := a, trace := [.handler "EnableAgentHandler"], ending := .returned }
        (EnableAgentHandler calls.enable)
    else { agent := a, trace := [], ending := .returned }
  let afterDisable := afterEnable.andThen fun a =>
    if subject = "agent.disable." ++ a.Config.UUID then
      Run.andThen { agent := a, trace := [.handler "DisableAgentHandler"], ending := .returned }
        (DisableAgentHandler calls.disable)
    else { agent := a, trace := [], ending := .returned }
  let afterReport := afterDisable.andThen fun a =>
    if subject = "agent.report." ++ a.Config.UUID then
      Run.andThen { agent := a, trace := [.handler "RunReportHandler"], ending := .returned }
        (RunReportHandler calls.report)
    else { agent := a, trace := [], ending := .returned }
  afterReport.andThen fun a =>
    if subject = "agent.certificate." ++ a.Config.UUID then
      Run.andThen
        { agent := a, trace := [.handler "AgentCertificateHandler"], ending := .returned }
        (AgentCertificateHandler calls.certificate)
    else { agent := a, trace := [], ending := .returned }

/-! ## Settings and new configuration messages (`agent.go`, `agent_windows.go`) -/

/-- Modelled from the spec: `scnorion_nats.AgentSetting` is declared in the
messaging package, outside the agent sources; the fields are the ones
`AgentSettingsSubscribe` reads. -/
structure AgentSetting where
  DebugMode : Bool
  SFTPService : Bool
  RemoteAssistance : Bool
  SFTPPort : String
  VNCProxyPort : String
  deriving DecidableEq, Repr

/-- Outcomes of the outside calls of the settings callback: `json.Unmarshal` of
the message, `WriteConfig` and `SetRestartRequiredFlag`. -/
structure SettingsCalls where
  unmarshal : Except GoError AgentSetting
  writeConfig : WriteOutcome
  setRestartRequired : Option GoError

/-- The check applied to a non-empty port in `AgentSettingsSubscribe`:
`strconv.Atoi` fails, or the number is below 0 or above 65535. -/
def portRejected (port : String) : Bool :=
  match strconvAtoi port with
  | none => true
  | some n => n < 0 || n > 65535

/-- Callback of `AgentSettingsSubscribe`, statement by statement: the three
flags are assigned, the SFTP port is checked and assigned, the VNC proxy port
is checked and assigned, the configuration is written and the restart flag is
raised. -/
def AgentSettingsSubscribe (calls : SettingsCalls) (a : Agent) : Run :=
  match calls.unmarshal with
  | .error _ => { agent := a, trace := [], ending := .returned }
  | .ok data =>
    let a1 : Agent :=
      { a with
        Config :=
          { a.Config with
            Debug := data.DebugMode
            SFTPDisabled := !data.SFTPService
            RemoteAssistanceDisabled := !data.RemoteAssistance } }
    if data.SFTPPort ≠ "" ∧ portRejected data.SFTPPort = true then
      { agent := a1, trace := [], ending := .returned }
    else
      let a2 : Agent := { a1 with Config := { a1.Config with SFTPPort := data.SFTPPort } }
      if data.VNCProxyPort ≠ "" ∧ portRejected data.VNCProxyPort = true then
        { agent := a2, trace := [], ending := .returned }
      else
        let a3 : Agent :=
          { a2 with Config := { a2.Config with VNCProxyPort := data.VNCProxyPort } }
        match calls.writeConfig with
        | .loadError _ => { agent := a3, trace := [], ending := .returned }
        | .fatal => { agent := a3, trace := [], ending := .fatal }
        | .saved =>
          let a4 : Agent := { a3 with ini := a3.Config.WriteConfig a3.ini }
          match calls.setRestartRequired with
          | some _ => { agent := a4, trace := [.writeConfig], ending := .returned }
          | none =>
            { agent := { a4 with ini := { a4.ini with RestartRequired := some "true" } },
              trace := [.writeConfig], ending := .returned }

/-! ## Start and reconnection (`agent.go`, `agent_windows.go`, `agent_darwin.go`) -/

/-- `(*Agent).startPendingACKJob`: a job every five minutes whose handle is
discarded; `newJob` is the error of `TaskScheduler.NewJob`, on which
`log.Fatalf` ends the process. -/
def startPendingACKJob (newJob : Option GoError) (a : Agent) : Run :=
  match newJob with
  | some _ => { agent := a, trace := [], ending := .fatal }
  | none =>
    { agent :=
        { a with
          jobs := a.jobs ++ [{ id := a.nextJobID, kind := .pendingACK,
                               minutes := SCHEDULETIME_5MIN,
                               duration := timeDuration SCHEDULETIME_5MIN }]
          nextJobID := a.nextJobID + 1 }
      trace := [.newJob .pendingACK SCHEDULETIME_5MIN]
      ending := .returned }

/-- `(*Agent).startCheckForWinGetProfilesJob` (on macOS
`startCheckForAnsibleProfilesJob`, with the same body): a zero frequency
becomes thirty minutes, then the reconciliation job is created. -/
def startCheckForWinGetProfilesJob (newJob : Option GoError) (a : Agent) : Run :=
  let a1 : Agent :=
    if a.Config.WingetConfigureFrequency = 0 then
      { a with Config := { a.Config with WingetConfigureFrequency := SCHEDULETIME_30MIN } }
    else a
  match newJob with
  | some _ => { agent := { a1 with WingetConfigureJob := none }, trace := [], ending := .fatal }
  | none =>
    { agent :=
        { a1 with
          jobs := a1.jobs ++
            [{ id := a1.nextJobID, kind := .configure,
               minutes := a1.Config.WingetConfigureFrequency,
               duration := timeDuration a1.Config.WingetConfigureFrequency }]
          WingetConfigureJob := some a1.nextJobID
          nextJobID := a1.nextJobID + 1 }
      trace := [.newJob .configure a1.Config.WingetConfigureFrequency]
      ending := .returned }

/-- `(*Agent).RescheduleWingetConfigureTask`: remove the job
`a.WingetConfigureJob.ID()` (a nil job panics) and start the reconciliation
job again. -/
def RescheduleWingetConfigureTask (newJob : Option GoError) (a : Agent) : Run :=
  match a.WingetConfigureJob with
  | none => { agent := a, trace := [], ending := .panicked }
  | some id =>
    Run.andThen
      { agent := { a with jobs := (removeJob a.jobs id).1 },
        trace := [.removeJob id (removeJob a.jobs id).2], ending := .returned }
      (startCheckForWinGetProfilesJob newJob)

/-- `(*Agent).startNATSConnectJob`: a zero interval becomes five minutes, then
the reconnect job is created. -/
def startNATSConnectJob (newJob : Option GoError) (a : Agent) : Run :=
  let a1 : Agent :=
    if a.Config.ExecuteTaskEveryXMinutes = 0 then
      { a with Config := { a.Config with ExecuteTaskEveryXMinutes := SCHEDULETIME_5MIN } }
    else a
  match newJob with
  | some _ => { agent := { a1 with NATSConnectJob := none }, trace := [], ending := .fatal }
  | none =>
    { agent :=
        { a1 with
          jobs := a1.jobs ++
            [{ id := a1.nextJobID, kind := .natsConnect,
               minutes := a1.Config.ExecuteTaskEveryXMinutes,
               duration := timeDuration a1.Config.ExecuteTaskEveryXMinutes }]
          NATSConnectJob := some a1.nextJobID
          nextJobID := a1.nextJobID + 1 }
      trace := [.newJob .natsConnect a1.Config.ExecuteTaskEveryXMinutes]
      ending := .returned }

/-- Outcomes of the outside calls of one run of the reconnect task. -/
structure ConnectCalls where
  connect : Option GoError
  newReportJob : Option GoError
  newPendingACKJob : Option GoError
  newConfigureJob : Option GoError
  deriving DecidableEq, Repr

/-- The task of the reconnect job (the closure of `startNATSConnectJob`): when
the connection succeeds the reconnect job is removed, the subjects are
subscribed and the report, pending-ack and reconciliation jobs are started. -/
def startNATSConnectJob.task (calls : ConnectCalls) (a : Agent) : Run :=
  match calls.connect with
  | some err => { agent := a, trace := [.connect (some err)], ending := .returned }
  | none =>
    match a.NATSConnectJob with
    | none => { agent := a, trace := [.connect none], ending := .panicked }
    | some id =>
      Run.andThen
        (Run.andThen
          (Run.andThen
            { agent := { a with jobs := (removeJob a.jobs id).1 },
              trace := [.connect none, .removeJob id (removeJob a.jobs id).2, .subscribe],
              ending := .returned }
            (startReportJob calls.newReportJob))
          (startPendingACKJob calls.newPendingACKJob))
        (startCheckForWinGetProfilesJob calls.newConfigureJob)

/-- Outcomes of the outside calls of `Start`, in program order:
`user.Current`, the first `WriteConfig`, `ResetRestartRequiredFlag`, the
preparation of the SFTP folder (`Getwd`, `RemoveAll`, `MkdirAll`),
`ConnectWithNATS`, the first report and the creation of the jobs. -/
structure StartCalls where
  currentUser : Option GoError
  writeConfig : WriteOutcome
  resetRestartRequired : Option GoError
  sftpFolder : Option GoError
  connect : Option GoError
  runReport : ReportOutcome
  sendReport : Option GoError
  getRemoteConfig : RemoteConfigOutcome
  writeConfigAfterReport : WriteOutcome
  newConnectJob : Option GoError
  newReportJob : Option GoError
  newPendingACKJob : Option GoError
  newConfigureJob : Option GoError
  deriving DecidableEq, Repr

/-- The part of `Start` between a first report that was generated and
`startReportJob`: send the report, pick the interval, write the
configuration (`log.Fatalf` on any error). -/
def Start.firstReport (calls : StartCalls) (a : Agent) : Run :=
  match calls.sendReport with
  | some err =>
    let a1 : Agent :=
      { a with Config := { a.Config with ExecuteTaskEveryXMinutes := SCHEDULETIME_5MIN } }
    match calls.writeConfigAfterReport with
    | .saved =>
      { agent := { a1 with ini := a1.Config.WriteConfig a1.ini },
        trace := [.sendReport (some err), .writeConfig], ending := .returned }
    | _ => { agent := a1, trace := [.sendReport (some err)], ending := .fatal }
  | none =>
    Run.andThen
      (Run.andThen { agent := a, trace := [.sendReport none], ending := .returned }
        (GetRemoteConfig calls.getRemoteConfig))
      fun a2 =>
        let a3 : Agent :=
          { a2 with
            Config := { a2.Config with ExecuteTaskEveryXMinutes := a2.Config.DefaultFrequency } }
        match calls.writeConfigAfterReport with
        | .saved =>
          { agent := { a3 with ini := a3.Config.WriteConfig a3.ini },
            trace := [.writeConfig], ending := .returned }
        | _ => { agent := a3, trace := [], ending := .fatal }

/-- The part of `Start` after the connection to the message bus succeeded. -/
def Start.connected (calls : StartCalls) (a : Agent) : Run :=
  if a.Config.Enabled then
    let a1 := RunReport calls.runReport a
    if !calls.runReport.generated then
      { agent := a1, trace := [.subscribe, .runReport calls.runReport], ending := .returned }
    else
      Run.andThen
        (Run.andThen
          (Run.andThen
            (Run.andThen
              { agent := a1, trace := [.subscribe, .runReport calls.runReport],
                ending := .returned }
              (Start.firstReport calls))
            (startReportJob calls.newReportJob))
          (startPendingACKJob calls.newPendingACKJob))
        (startCheckForWinGetProfilesJob calls.newConfigureJob)
  else
    Run.andThen
      (Run.andThen { agent := a, trace := [.subscribe], ending := .returned }
        (startPendingACKJob calls.newPendingACKJob))
      (startCheckForWinGetProfilesJob calls.newConfigureJob)

/-- `(*Agent).Start` of `agent_windows.go`; the one of `agent_darwin.go` has
the same statements with `startCheckForAnsibleProfilesJob`.  A failing
`user.Current` leaves `currentUser` nil, whose `Username` is then read. -/
def Start (calls : StartCalls) (a : Agent) : Run :=
  match calls.currentUser with
  | some _ => { agent := a, trace := [], ending := .panicked }
  | none =>
    let a1 : Agent :=
      { a with Config := { a.Config with ExecuteTaskEveryXMinutes := SCHEDULETIME_5MIN } }
    match calls.writeConfig with
    | .saved =>
      let a2 : Agent := { a1 with ini := a1.Config.WriteConfig a1.ini }
      match calls.resetRestartRequired with
      | some _ => { agent := a2, trace := [.writeConfig], ending := .fatal }
      | none =>
        let a3 : Agent := { a2 with ini := { a2.ini with RestartRequired := some "false" } }
        if a3.Config.SFTPPort ≠ "" ∧ a3.Config.SFTPDisabled = false ∧
            calls.sftpFolder ≠ none then
          { agent := a3, trace := [.writeConfig], ending := .returned }
        else
          match calls.connect with
          | some err =>
            Run.andThen
              { agent := a3, trace := [.writeConfig, .connect (some err)], ending := .returned }
              (startNATSConnectJob calls.newConnectJob)
          | none =>
            Run.andThen
              { agent := a3, trace := [.writeConfig, .connect none], ending := .returned }
              (Start.connected calls)
    | _ => { agent := a1, trace := [], ending := .fatal }

/-- Modelled from the spec: `scnorion_nats.Config` is declared in the messaging
package, outside the agent sources; the fields are the ones
`NewConfigSubscribe` reads. -/
structure RemoteConfig where
  AgentFrequency : Int
  WinGetFrequency : Int
  SFTPDisabled : Bool
  RemoteAssistanceDisabled : Bool
  deriving DecidableEq, Repr

/-- Outcomes of the outside calls of the new-configuration callback. -/
structure NewConfigCalls where
  unmarshal : Except GoError RemoteConfig
  setRestartRequired : Option GoError
  newReportJob : Option GoError
  newConfigureJob : Option GoError
  writeConfig : WriteOutcome

/-- Callback of `NewConfigSubscribe` of `agent_windows.go`. -/
def NewConfigSubscribe (calls : NewConfigCalls) (a : Agent) : Run :=
  match calls.unmarshal with
  | .error _ => { agent := a, trace := [], ending := .returned }
  | .ok config =>
    let a1 : Agent :=
      { a with Config := { a.Config with DefaultFrequency := config.AgentFrequency } }
    if a1.Config.SFTPDisabled ≠ config.SFTPDisabled ∧ calls.setRestartRequired ≠ none then
      { agent := a1, trace := [], ending := .returned }
    else
      let a2 : Agent :=
        { a1 with
          ini :=
            if a1.Config.SFTPDisabled ≠ config.SFTPDisabled then
              { a1.ini with RestartRequired := some "true" }
            else a1.ini
          Config :=
            { a1.Config with
              SFTPDisabled := config.SFTPDisabled
              RemoteAssistanceDisabled := config.RemoteAssistanceDisabled } }
      let report : Run :=
        if a2.Config.ExecuteTaskEveryXMinutes ≠ SCHEDULETIME_5MIN then
          RescheduleReportRunTask calls.newReportJob
            { a2 with
              Config :=
                { a2.Config with ExecuteTaskEveryXMinutes := a2.Config.DefaultFrequency } }
        else { agent := a2, trace := [], ending := .returned }
      Run.andThen
        (Run.andThen report fun a3 =>
          if config.WinGetFrequency ≠ 0 then
            RescheduleWingetConfigureTask calls.newConfigureJob
              { a3 with
                Config := { a3.Config with WingetConfigureFrequency := config.WinGetFrequency } }
          else { agent := a3, trace := [], ending := .returned })
        fun a4 =>
          match calls.writeConfig with
          | .saved =>
            { agent := { a4 with ini := a4.Config.WriteConfig a4.ini }, trace := [.writeConfig],
              ending := .returned }
          | _ => { agent := a4, trace := [], ending := .fatal }

/-! ## The sweep loop with its index operations checked (`agent.go`) -/

/-- Go `slices.Delete(s, i, j)` with its bounds check: `none` is the panic
raised unless `i ≤ j ≤ len(s)`. -/
def slicesDeleteChecked {α : Type} (s : List α) (i j : Nat) : Option (List α) :=
  if i ≤ j ∧ j ≤ s.length then some (slicesDelete s i j) else none

/-- The loop of `PendingACKTask` from index `i`, with the index expression
`actions[i]` and the call `slices.Delete(actions, j, j+1)` checked against the
current slice, and with the number of iterations made so far.  `none` is an
index out of range. -/
def PendingACKTask.checkedLoop (env : Env) (i : Nat) (st : SweepState) (iterations : Nat) :
    Option (SweepState × Nat) :=
  if i < st.actions.length then
    match st.actions[i]? with
    | none => none
    | some a =>
      match SendDeployResult env a with
      | some _ =>
        PendingACKTask.checkedLoop env (i + 1)
          { st with j := st.j + 1, sent := st.sent ++ [a] } (iterations + 1)
      | none =>
        if st.j ≤ st.j + 1 ∧ st.j + 1 ≤ st.actions.length then
          PendingACKTask.checkedLoop env (i + 1)
            { st with actions := slicesDelete st.actions st.j (st.j + 1),
                      sent := st.sent ++ [a] } (iterations + 1)
        else none
  else some (st, iterations)
termination_by st.actions.length - i
decreasing_by
  all_goals simp_wf
  · omega
  · simp only [slicesDelete, List.length_append, List.length_take, List.length_drop]
    omega

/-! ## The PowerShell prerequisite of `ApplyConfiguration` (`agent_windows.go`) -/

/-- White space in the sense of Go `strings.TrimSpace`, on the ASCII range. -/
def isSpace (c : Char) : Bool :=
  c = ' ' || c = '\t' || c = '\n' || c = '\r' || c = Char.ofNat 11 || c = Char.ofNat 12

/-- Go `strings.TrimSpace(s)` on the ASCII range. -/
def stringsTrimSpace (s : String) : String :=
  String.mk ((s.data.dropWhile isSpace).reverse.dropWhile isSpace).reverse

/-- Outside calls of the prerequisite stage of `ApplyConfiguration`, in program
order: `yaml.Unmarshal` of the profile, `GetWd`, whether the first
`os.Stat(powershellPath)` reports `os.ErrNotExist`, `deploy.InstallPackage`,
the output of the version query run with `pwsh.exe`, whether the second
`os.Stat(powershellPath)` reports `os.ErrNotExist`, `deploy.UpdatePackage`. -/
structure PrerequisiteCalls where
  unmarshal : Option GoError
  getWd : Option GoError
  missingAtStart : Bool
  installPackage : Option GoError
  version : Except GoError String
  missingAfterQuery : Bool
  updatePackage : Option GoError

/-- A step of the prerequisite stage that reaches the package manager, the
PowerShell binary or the backend. -/
inductive PrerequisiteEvent where
  | installPackage (packageID : String) (err : Option GoError)
  | updatePackage (packageID : String) (err : Option GoError)
  | queryVersion
  | deploymentReport (packageID packageName action : String) (err : Option GoError)
  deriving DecidableEq, Repr

/-- The steps of the prerequisite stage and the error with which
`ApplyConfiguration` returns from it; `err = none` means the function goes on
to filter and apply the configuration. -/
structure Prerequisites where
  events : List PrerequisiteEvent
  err : Option GoError
  deriving DecidableEq, Repr

/-- The first block of the prerequisite stage: install PowerShell 7 with the
package manager when `pwsh.exe` does not exist, and report the deployment. -/
def ApplyConfiguration.installPowerShell (env : Env) (uuid : String) (now : Time)
    (calls : PrerequisiteCalls) : Prerequisites :=
  if calls.missingAtStart then
    match calls.installPackage with
    | some err => { events := [.installPackage "Microsoft.PowerShell" (some err)], err := some err }
    | none =>
      let sent := SendWinGetCfgDeploymentReport env uuid now "Microsoft.PowerShell"
        "PowerShell 7-x64" "install"
      { events := [.installPackage "Microsoft.PowerShell" none,
          .deploymentReport "Microsoft.PowerShell" "PowerShell 7-x64" "install" sent],
        err := sent }
  else { events := [], err := none }

/-- The second block of the prerequisite stage, after the version query gave
`out`: when the version compares lower than `v7.4.6`, and `os.Stat` reports
that `pwsh.exe` does not exist, update PowerShell with the package manager and
report the deployment.  `semverCompare` is `semver.Compare`. -/
def ApplyConfiguration.upgradePowerShell (env : Env) (uuid : String) (now : Time)
    (semverCompare : String → String → Int) (calls : PrerequisiteCalls) (out : String) :
    Prerequisites :=
  if semverCompare ("v" ++ stringsTrimSpace out) "v7.4.6" < 0 then
    if calls.missingAfterQuery then
      match calls.updatePackage with
      | some err => { events := [.updatePackage "Microsoft.PowerShell" (some err)], err := some err }
      | none =>
        let sent := SendWinGetCfgDeploymentReport env uuid now "Microsoft.PowerShell"
          "PowerShell 7-x64" "install"
        { events := [.updatePackage "Microsoft.PowerShell" none,
            .deploymentReport "Microsoft.PowerShell" "PowerShell 7-x64" "install" sent],
          err := sent }
    else { events := [], err := none }
  else { events := [], err := none }

/-- The prerequisite stage of `ApplyConfiguration`, from the decoding of the
profile to the comparison of the PowerShell version. -/
def ApplyConfiguration.prerequisites (env : Env) (uuid : String) (now : Time)
    (semverCompare : String → String → Int) (calls : PrerequisiteCalls) : Prerequisites :=
  match calls.unmarshal with
  | some err => { events := [], err := some err }
  | none =>
    match calls.getWd with
    | some err => { events := [], err := some err }
    | none =>
      let installed := ApplyConfiguration.installPowerShell env uuid now calls
      match installed.err with
      | some err => { events := installed.events, err := some err }
      | none =>
        match calls.version with
        | .error err => { events := installed.events ++ [.queryVersion], err := some err }
        | .ok out =>
          let upgraded := ApplyConfiguration.upgradePowerShell env uuid now semverCompare calls out
          { events := installed.events ++ [.queryVersion] ++ upgraded.events,
            err := upgraded.err }

/-- How the first half of `ApplyConfiguration` ended: it returned the error of
a prerequisite, it panicked inside `RemovePackagesFromCfg`, or it goes on to
the scripts with the filtered resource list. -/
inductive PrepareOutcome where
  | returned (err : GoError)
  | panicked
  | filtered (resources : List WinGetResource)
  deriving DecidableEq, Repr

/-- The steps of the first half of `ApplyConfiguration`: the events of the
prerequisite stage, the `(subject, data)` exclude requests made, and how it
ended. -/
structure Prepared where
  events : List PrerequisiteEvent
  excludeRequests : List (String × String)
  outcome : PrepareOutcome
  deriving DecidableEq, Repr

/-- `ApplyConfiguration` from its first statement to "Remove exclusions": the
prerequisite stage with its early returns, then
`GetExplicitelyDeletedPackages`, `RemovePackagesFromCfg` with the deleted
packages, `SendWinGetCfgExcludedPackage`, and `RemovePackagesFromCfg` with the
exclusions.  `resources` is the resource list of the decoded profile. -/
def ApplyConfiguration.prepare (env : Env) (uuid : String) (now : Time)
    (semverCompare : String → String → Int) (calls : PrerequisiteCalls)
    (WinGetPackageResource : String) (IsWinGetPackageInstalled : String → Bool)
    (resources : List WinGetResource) (exclusions deployments : List String) : Prepared :=
  let pre := ApplyConfiguration.prerequisites env uuid now semverCompare calls
  match pre.err with
  | some err => { events := pre.events, excludeRequests := [], outcome := .returned err }
  | none =>
    let explicitelyDeleted := GetExplicitelyDeletedPackages IsWinGetPackageInstalled deployments
    match RemovePackagesFromCfg WinGetPackageResource resources explicitelyDeleted with
    | none => { events := pre.events, excludeRequests := [], outcome := .panicked }
    | some resources1 =>
      let requests := SendWinGetCfgExcludedPackage env uuid explicitelyDeleted
      match RemovePackagesFromCfg WinGetPackageResource resources1 exclusions with
      | none => { events := pre.events, excludeRequests := requests, outcome := .panicked }
      | some resources2 =>
        { events := pre.events, excludeRequests := requests, outcome := .filtered resources2 }

/-! ## The reconciliation cycle (`agent_windows.go`, `agent_darwin.go`) -/

/-- Modelled from the spec: `ansiblecfg.AnsiblePlaybook` is declared in the
Ansible configuration package, outside the agent sources.  The agent never
looks inside a playbook, it only hands the list to `yaml.Marshal`; a playbook
is kept as the YAML text it stands for. -/
structure AnsiblePlaybook where
  yaml : String
  deriving DecidableEq, Repr

/-- `ProfileConfig` of `agent.go`.  `WinGetConfig` is a pointer to the
configuration, kept as its resource list (`none` is the nil pointer). -/
structure ProfileConfig where
  ProfileID : Int
  Exclusions : List String
  Deployments : List String
  WinGetConfig : Option (List WinGetResource)
  AnsibleConfig : List AnsiblePlaybook
  deriving DecidableEq, Repr

/-- Outside calls of a reconciliation cycle: `json.Marshal` of the profile
request, `NATSConnection.Request` (subject, data; the reply is `msg.Data`),
the profiles left in the slice by `yaml.Unmarshal(msg.Data, &profiles)` (its
error is only logged), `yaml.Marshal` of a WinGet configuration and of a list
of playbooks, how a call of the Windows `ApplyConfiguration` ends, and
`InstallCommunityGeneralCollection`. -/
structure ProfileCalls where
  marshalRequest : Except GoError String
  request : String → String → Except GoError String
  unmarshalProfiles : String → List ProfileConfig
  marshalWinGet : Option (List WinGetResource) → Except GoError String
  marshalAnsible : List AnsiblePlaybook → Except GoError String
  applyConfiguration : Int → String → List String → List String → Ending
  installCollection : Option GoError

/-- A step of a reconciliation cycle, in program order. -/
inductive ReconcileEvent where
  | request (subject data : String)
  | installCollection
  | applyConfiguration (profileID : Int) (config : String) (exclusions deployments : List String)
  | executePlaybook (playbook : String)
  | profileReport (profileID : Int) (agentID : String) (success : Bool) (errData : String)
  deriving DecidableEq, Repr

/-- The steps of a reconciliation cycle and how it ended. -/
structure Reconcile where
  events : List ReconcileEvent
  ending : Ending
  deriving DecidableEq, Repr

/-- The `for _, p := range profiles` loop of `GetWingetConfigureProfiles`: a
profile whose configuration cannot be marshalled is skipped, an error returned
by `ApplyConfiguration` is logged. -/
def GetWingetConfigureProfiles.loop (calls : ProfileCalls) : List ProfileConfig → Reconcile
  | [] => { events := [], ending := .returned }
  | p :: rest =>
    match calls.marshalWinGet p.WinGetConfig with
    | .error _ => GetWingetConfigureProfiles.loop calls rest
    | .ok cfg =>
      match calls.applyConfiguration p.ProfileID cfg p.Exclusions p.Deployments with
      | .returned =>
        let r := GetWingetConfigureProfiles.loop calls rest
        { events := .applyConfiguration p.ProfileID cfg p.Exclusions p.Deployments :: r.events,
          ending := r.ending }
      | ending =>
        { events := [.applyConfiguration p.ProfileID cfg p.Exclusions p.Deployments],
          ending := ending }

/-- The bytes sent as profile request: the result of `json.Marshal`, nil when
it failed (the error is only logged). -/
def profileRequestData (calls : ProfileCalls) : String :=
  match calls.marshalRequest with
  | .ok data => data
  | .error _ => ""

/-- `GetWingetConfigureProfiles`.  The errors of `json.Marshal` and of
`Request` are logged and the function goes on; after a failed request `msg` is
nil and the selector `msg.Data` panics. -/
def GetWingetConfigureProfiles (calls : ProfileCalls) : Reconcile :=
  let data := profileRequestData calls
  match calls.request "wingetcfg.profiles" data with
  | .error _ => { events := [.request "wingetcfg.profiles" data], ending := .panicked }
  | .ok msgData =>
    let r := GetWingetConfigureProfiles.loop calls (calls.unmarshalProfiles msgData)
    { events := .request "wingetcfg.profiles" data :: r.events, ending := r.ending }

/-- Replacement of every non-overlapping occurrence of `old` by `new`, left to
right; `skip` characters of a matched occurrence are still to be dropped. -/
def replaceAllChars (old new : List Char) : List Char → Nat → List Char
  | [], _ => []
  | _ :: cs, skip + 1 => replaceAllChars old new cs skip
  | c :: cs, 0 =>
    if old.isPrefixOf (c :: cs) then new ++ replaceAllChars old new cs (old.length - 1)
    else c :: replaceAllChars old new cs 0

/-- Go `strings.ReplaceAll(s, old, new)` for a non-empty `old`. -/
def stringsReplaceAll (s old new : String) : String :=
  String.mk (replaceAllChars old.data new.data s.data 0)

/-- Outside calls of the macOS `ApplyConfiguration`, in program order:
`yaml.Unmarshal` of the configuration, `CreatePlaybooksFolder`,
`os.CreateTemp`, the write of the header, `GetLoggedInUser`, the write of the
playbook, `Close`, and the run of `ansible-playbook` on the file: its error
and the text of the parsed JSON results (`""` when they cannot be parsed). -/
structure PlaybookCalls where
  unmarshal : String → Option GoError
  createFolder : Option GoError
  createTemp : Option GoError
  writeHeader : Option GoError
  loggedInUser : Except GoError String
  writePlaybook : Option GoError
  close : Option GoError
  execute : String → Option GoError × String

/-- The steps of one macOS `ApplyConfiguration` and the error it returns. -/
structure PlaybookRun where
  events : List ReconcileEvent
  err : Option GoError
  deriving DecidableEq, Repr

/-- The macOS `ApplyConfiguration(profileID, config)`: the playbook file holds
the header `---` and the configuration with `some_user` replaced by the logged
in user; the file is run and the outcome reported. -/
def Darwin.ApplyConfiguration (pc : PlaybookCalls) (uuid : String) (profileID : Int)
    (config : String) : PlaybookRun :=
  match pc.unmarshal config with
  | some err => { events := [], err := some err }
  | none =>
    match pc.createFolder with
    | some err => { events := [], err := some err }
    | none =>
      match pc.createTemp with
      | some err => { events := [], err := some err }
      | none =>
        match pc.writeHeader with
        | some err => { events := [], err := some err }
        | none =>
          match pc.loggedInUser with
          | .error err => { events := [], err := some err }
          | .ok username =>
            match pc.writePlaybook with
            | some err => { events := [], err := some err }
            | none =>
              match pc.close with
              | some err => { events := [], err := some err }
              | none =>
                let playbook := "---\n\n" ++ stringsReplaceAll config "some_user" username
                match pc.execute playbook with
                | (some generalError, results) =>
                  let errData := if results = "" then generalError else results
                  { events := [.executePlaybook playbook,
                      .profileReport profileID uuid (errData = "") errData],
                    err := some errData }
                | (none, _) =>
                  { events := [.executePlaybook playbook, .profileReport profileID uuid true ""],
                    err := none }

/-- The `for _, p := range profiles` loop of `GetUnixConfigureProfiles`. -/
def GetUnixConfigureProfiles.loop (calls : ProfileCalls) (pc : PlaybookCalls) (uuid : String) :
    List ProfileConfig → List ReconcileEvent
  | [] => []
  | p :: rest =>
    match calls.marshalAnsible p.AnsibleConfig with
    | .error _ => GetUnixConfigureProfiles.loop calls pc uuid rest
    | .ok cfg =>
      (Darwin.ApplyConfiguration pc uuid p.ProfileID cfg).events ++
        GetUnixConfigureProfiles.loop calls pc uuid rest

/-- `GetUnixConfigureProfiles`, the reconciliation cycle of macOS.  As on
Windows, the selector `msg.Data` panics after a failed request. -/
def GetUnixConfigureProfiles (calls : ProfileCalls) (pc : PlaybookCalls) (uuid : String) :
    Reconcile :=
  let data := profileRequestData calls
  match calls.request "ansiblecfg.profiles" data with
  | .error _ => { events := [.request "ansiblecfg.profiles" data], ending := .panicked }
  | .ok msgData =>
    let profiles := calls.unmarshalProfiles msgData
    let collection : List ReconcileEvent :=
      if profiles.length > 0 then [.installCollection] else []
    { events := .request "ansiblecfg.profiles" data :: collection ++
        GetUnixConfigureProfiles.loop calls pc uuid profiles,
      ending := .returned }

/-! ## The JSON codec of the queue file (`encoding/json`)

`SaveDeploymentsNotACK` and `ReadDeploymentNotACK` hand a `JSONActions` to
`json.MarshalIndent` and `json.Unmarshal` of the Go standard library.  This
section models the two calls on that type: the text that is written, with its
indentation and its string escapes, and a decoder made of a scanner and a
parser. -/

/-- A token of a JSON text. -/
inductive JSONToken where
  | lbrace
  | rbrace
  | lbracket
  | rbracket
  | colon
  | comma
  | str (s : List Char)
  | true
  | false
  | null
  deriving DecidableEq, Repr

/-- The hexadecimal digit, in lower case, of a number below 16. -/
def hexDigit (d : Nat) : Char :=
  if d < 10 then Char.ofNat (48 + d) else Char.ofNat (87 + d)

/-- The value of a hexadecimal digit of either case. -/
def hexValue (c : Char) : Option Nat :=
  if 48 ≤ c.toNat ∧ c.toNat ≤ 57 then some (c.toNat - 48)
  else if 97 ≤ c.toNat ∧ c.toNat ≤ 102 then some (c.toNat - 87)
  else if 65 ≤ c.toNat ∧ c.toNat ≤ 70 then some (c.toNat - 55)
  else none

/-- Whether `encoding/json` writes the character as a `\u` escape. -/
def unicodeEscaped (c : Char) : Bool :=
  c.toNat < 32 || c = '<' || c = '>' || c = '&' || c.toNat = 8232 || c.toNat = 8233

/-- The text written for one character of a string. -/
def escapeChar (c : Char) : List Char :=
  if c = '\x22' then ['\x5c', '\x22']
  else if c = '\x5c' then ['\x5c', '\x5c']
  else if c = '\n' then ['\x5c', 'n']
  else if c = '\r' then ['\x5c', 'r']
  else if c = '\t' then ['\x5c', 't']
  else if unicodeEscaped c then
    ['\x5c', 'u', hexDigit (c.toNat / 4096 % 16), hexDigit (c.toNat / 256 % 16),
      hexDigit (c.toNat / 16 % 16), hexDigit (c.toNat % 16)]
  else [c]

/-- The JSON text of a string: quoted, with escapes. -/
def jsonQuote (s : List Char) : List Char :=
  '\x22' :: (s.flatMap escapeChar ++ ['\x22'])

/-- The character of a `\u` escape. -/
def unicodeChar (n : Nat) : Char :=
  if 55296 ≤ n ∧ n ≤ 57343 then Char.ofNat 65533 else Char.ofNat n

/-- White space between JSON tokens. -/
def jsonWhite (c : Char) : Bool :=
  c = ' ' || c = '\n' || c = '\r' || c = '\t'

/-- State of the scanner. -/
inductive JSONScanState where
  | start
  | inString (acc : List Char)
  | inEscape (acc : List Char)
  | inUnicode (acc : List Char) (value : Nat) (remaining : Nat)
  | inLiteral (expected : List Char) (tok : JSONToken)

/-- One step of the scanner in the state `start`, on the character `c`; `next`
scans the rest of the text from a given state. -/
def jsonScanStart (next : JSONScanState → Option (List JSONToken)) (c : Char) : Option (List JSONToken) :=
  if jsonWhite c then next .start
  else if c = '\x7b' then (next .start).map (JSONToken.lbrace :: ·)
  else if c = '\x7d' then (next .start).map (JSONToken.rbrace :: ·)
  else if c = '[' then (next .start).map (JSONToken.lbracket :: ·)
  else if c = ']' then (next .start).map (JSONToken.rbracket :: ·)
  else if c = ':' then (next .start).map (JSONToken.colon :: ·)
  else if c = ',' then (next .start).map (JSONToken.comma :: ·)
  else if c = '\x22' then next (.inString [])
  else if c = 't' then next (.inLiteral ['r', 'u', 'e'] .true)
  else if c = 'f' then next (.inLiteral ['a', 'l', 's', 'e'] .false)
  else if c = 'n' then next (.inLiteral ['u', 'l', 'l'] .null)
  else none

/-- One step of the scanner inside a string. -/
def jsonScanString (next : JSONScanState → Option (List JSONToken)) (acc : List Char) (c : Char) :
    Option (List JSONToken) :=
  if c = '\x22' then (next .start).map (JSONToken.str acc :: ·)
  else if c = '\x5c' then next (.inEscape acc)
  else if c.toNat < 32 then none
  else next (.inString (acc ++ [c]))

/-- One step of the scanner after a backslash. -/
def jsonScanEscape (next : JSONScanState → Option (List JSONToken)) (acc : List Char) (c : Char) :
    Option (List JSONToken) :=
  if c = '\x22' then next (.inString (acc ++ ['\x22']))
  else if c = '\x5c' then next (.inString (acc ++ ['\x5c']))
  else if c = '/' then next (.inString (acc ++ ['/']))
  else if c = 'b' then next (.inString (acc ++ [Char.ofNat 8]))
  else if c = 'f' then next (.inString (acc ++ [Char.ofNat 12]))
  else if c = 'n' then next (.inString (acc ++ ['\n']))
  else if c = 'r' then next (.inString (acc ++ ['\r']))
  else if c = 't' then next (.inString (acc ++ ['\t']))
  else if c = 'u' then next (.inUnicode acc 0 4)
  else none

/-- One step of the scanner inside the four digits of a `\u` escape. -/
def jsonScanUnicode (next : JSONScanState → Option (List JSONToken)) (acc : List Char)
    (value remaining : Nat) (c : Char) : Option (List JSONToken) :=
  match hexValue c with
  | none => none
  | some d =>
    if remaining = 0 then none
    else if remaining = 1 then next (.inString (acc ++ [unicodeChar (16 * value + d)]))
    else next (.inUnicode acc (16 * value + d) (remaining - 1))

/-- One step of the scanner inside `true`, `false` or `null`. -/
def jsonScanLiteral (next : JSONScanState → Option (List JSONToken)) (expected : List Char) (tok : JSONToken)
    (c : Char) : Option (List JSONToken) :=
  match expected with
  | [] => none
  | e :: es =>
    if c = e then
      if es = [] then (next .start).map (tok :: ·) else next (.inLiteral es tok)
    else none

/-- The scanner: the tokens of a JSON text read from the given state, `none`
for a text that is not made of tokens. -/
def jsonScan : List Char → JSONScanState → Option (List JSONToken)
  | [], .start => some []
  | [], _ => none
  | c :: cs, .start => jsonScanStart (jsonScan cs) c
  | c :: cs, .inString acc => jsonScanString (jsonScan cs) acc c
  | c :: cs, .inEscape acc => jsonScanEscape (jsonScan cs) acc c
  | c :: cs, .inUnicode acc value remaining => jsonScanUnicode (jsonScan cs) acc value remaining c
  | c :: cs, .inLiteral expected tok => jsonScanLiteral (jsonScan cs) expected tok c


/-! ### The encoder -/

/-- The decimal digit of a number below 10. -/
def digitChar (d : Nat) : Char := Char.ofNat (48 + d)

/-- The decimal digits of `n` put in front of `acc`; `fuel` bounds the number
of digits. -/
def decimalTextAux : Nat → Nat → List Char → List Char
  | 0, _, acc => acc
  | fuel + 1, n, acc =>
    if n < 10 then digitChar n :: acc
    else decimalTextAux fuel (n / 10) (digitChar (n % 10) :: acc)

/-- The decimal text of a natural number. -/
def decimalText (n : Nat) : List Char := decimalTextAux (n + 1) n []

/-- The text of an instant: its number of nanoseconds in decimal. -/
def formatTime (t : Time) : List Char :=
  if t < 0 then '-' :: decimalText t.natAbs else decimalText t.natAbs

/-- The instant of a text written by `formatTime`; `none` for another text. -/
def parseTime : List Char → Option Time
  | [] => none
  | c :: cs =>
    if c = '-' then
      if cs = [] then none else (parseDigits cs 0).map fun n => -(n : Int)
    else (parseDigits (c :: cs) 0).map fun n => (n : Int)

/-- A line break followed by `depth` spaces. -/
def jsonIndent (depth : Nat) : List Char := '\n' :: List.replicate depth ' '

/-- An object member: the quoted key, a colon, a space and the value. -/
def jsonMember (key : String) (value : List Char) : List Char :=
  jsonQuote key.data ++ ':' :: ' ' :: value

/-- The text of a boolean. -/
def encodeBool (b : Bool) : List Char :=
  if b then ['t', 'r', 'u', 'e'] else ['f', 'a', 'l', 's', 'e']

/-- The text of one action at depth 2. -/
def encodeAction (a : DeployAction) : List Char :=
  '\x7b' :: jsonIndent 3 ++ jsonMember "AgentId" (jsonQuote a.AgentId.data) ++
    ',' :: jsonIndent 3 ++ jsonMember "PackageId" (jsonQuote a.PackageId.data) ++
    ',' :: jsonIndent 3 ++ jsonMember "PackageName" (jsonQuote a.PackageName.data) ++
    ',' :: jsonIndent 3 ++ jsonMember "Action" (jsonQuote a.Action.data) ++
    ',' :: jsonIndent 3 ++ jsonMember "When" (jsonQuote (formatTime a.When)) ++
    ',' :: jsonIndent 3 ++ jsonMember "Failed" (encodeBool a.Failed) ++
    jsonIndent 2 ++ ['\x7d']

/-- The elements of the array, each on its own line, separated by commas. -/
def encodeElements : List DeployAction → List Char
  | [] => []
  | a :: rest =>
    jsonIndent 2 ++ encodeAction a ++ (if rest = [] then [] else ',' :: encodeElements rest)

/-- The text of the array of actions. -/
def encodeArray (actions : List DeployAction) : List Char :=
  if actions = [] then ['[', ']'] else '[' :: encodeElements actions ++ jsonIndent 1 ++ [']']

/-- Modelled from the spec: `json.MarshalIndent(jActions, "", " ")` for a
`JSONActions`, whose text is an object with the one member `actions`, an array
with one action per element; every member is on a line of its own, indented by
one space per level.  The member names of an action are its field names, the
tags of `scnorion_nats.DeployAction` being outside the sources, and `When` is
written as the quoted decimal number of nanoseconds: the RFC 3339 text of
`time.Time` is not modelled. -/
def jsonMarshalIndent (j : JSONActions) : String :=
  String.mk ('\x7b' :: jsonIndent 1 ++ jsonMember "actions" (encodeArray j.Actions) ++ jsonIndent 0 ++ ['\x7d'])

/-! ### The decoder -/

/-- State of the parser of the array of actions. -/
inductive JSONParseState where
  | elementOrEnd
  | element
  | memberOrEnd
  | nextMember
  | colon (key : List Char)
  | value (key : List Char)
  | afterMember
  | afterElement

/-- The action after a member with the string value `s` was decoded into it:
a string field takes the string, `When` the instant the string stands for,
`Failed` cannot take a string, and a key that names no field is skipped. -/
def assignString (cur : DeployAction) (key s : List Char) : Option DeployAction :=
  if key = "AgentId".data then some { cur with AgentId := String.mk s }
  else if key = "PackageId".data then some { cur with PackageId := String.mk s }
  else if key = "PackageName".data then some { cur with PackageName := String.mk s }
  else if key = "Action".data then some { cur with Action := String.mk s }
  else if key = "When".data then (parseTime s).map fun t => { cur with When := t }
  else if key = "Failed".data then none
  else some cur

/-- The action after a member with the boolean value `b` was decoded into it. -/
def assignBool (cur : DeployAction) (key : List Char) (b : Bool) : Option DeployAction :=
  if key = "Failed".data then some { cur with Failed := b }
  else if key = "AgentId".data ∨ key = "PackageId".data ∨ key = "PackageName".data ∨
      key = "Action".data ∨ key = "When".data then none
  else some cur

/-- The action after the member `key: v` was decoded into it; `null` leaves
the action as it is. -/
def assignMember (cur : DeployAction) (key : List Char) : JSONToken → Option DeployAction
  | .null => some cur
  | .str s => assignString cur key s
  | .true => assignBool cur key true
  | .false => assignBool cur key false
  | _ => none

/-- One step of the parser of the array, on the token `t`. -/
def parseToken
    (next : JSONParseState → List DeployAction → DeployAction →
      Option (List DeployAction × List JSONToken))
    (rest : List JSONToken) (st : JSONParseState) (done : List DeployAction) (cur : DeployAction)
    (t : JSONToken) : Option (List DeployAction × List JSONToken) :=
  match st, t with
  | .elementOrEnd, .rbracket => some (done, rest)
  | .elementOrEnd, .lbrace => next .memberOrEnd done DeployAction.zero
  | .element, .lbrace => next .memberOrEnd done DeployAction.zero
  | .memberOrEnd, .rbrace => next .afterElement (done ++ [cur]) DeployAction.zero
  | .memberOrEnd, .str key => next (.colon key) done cur
  | .nextMember, .str key => next (.colon key) done cur
  | .colon key, .colon => next (.value key) done cur
  | .value key, v =>
    match assignMember cur key v with
    | none => none
    | some cur1 => next .afterMember done cur1
  | .afterMember, .comma => next .nextMember done cur
  | .afterMember, .rbrace => next .afterElement (done ++ [cur]) DeployAction.zero
  | .afterElement, .comma => next .element done DeployAction.zero
  | .afterElement, .rbracket => some (done, rest)
  | _, _ => none

/-- The parser of the array of actions. -/
def parseActions : List JSONToken → JSONParseState → List DeployAction → DeployAction →
    Option (List DeployAction × List JSONToken)
  | [], _, _, _ => none
  | t :: ts, st, done, cur => parseToken (parseActions ts) ts st done cur t

/-- The queue of a token list. -/
def parseDocument : List JSONToken → Option (List DeployAction)
  | [.lbrace, .rbrace] => some []
  | [.lbrace, .str key, .colon, .null, .rbrace] =>
    if key = "actions".data then some [] else none
  | .lbrace :: .str key :: .colon :: .lbracket :: rest =>
    if key = "actions".data then
      match parseActions rest .elementOrEnd [] DeployAction.zero with
      | some (actions, [.rbrace]) => some actions
      | _ => none
    else none
  | _ => none

/-- Modelled from the spec: `json.Unmarshal(byteValue, &jActions)` into a zero
`JSONActions`.  The text is scanned into tokens and parsed as an object that
is empty or has the one member `actions`, an array of actions or `null`.  The
members of an action come in any order, a later one overrides an earlier one,
`null` leaves a field as it is, and a member that names no field is skipped
when its value is a string or a boolean.  Numbers, nested values under other
names and further members of the outer object, none of which `MarshalIndent`
writes for this type, are reported as errors. -/
def jsonUnmarshal (s : String) : Except GoError JSONActions :=
  match jsonScan s.data .start with
  | none => .error "invalid character in JSON text"
  | some tokens =>
    match parseDocument tokens with
    | none => .error "json: cannot unmarshal into Go value of type agent.JSONActions"
    | some actions => .ok { Actions := actions }

/-! ### The tokens of an encoded queue -/

/-- The token of a boolean. -/
def boolToken (b : Bool) : JSONToken := if b then .true else .false

/-- The tokens of one action. -/
def actionTokens (a : DeployAction) : List JSONToken :=
  [.lbrace, .str "AgentId".data, .colon, .str a.AgentId.data, .comma,
    .str "PackageId".data, .colon, .str a.PackageId.data, .comma,
    .str "PackageName".data, .colon, .str a.PackageName.data, .comma,
    .str "Action".data, .colon, .str a.Action.data, .comma,
    .str "When".data, .colon, .str (formatTime a.When), .comma,
    .str "Failed".data, .colon, boolToken a.Failed, .rbrace]

/-- The tokens of the elements of the array. -/
def elementTokens : List DeployAction → List JSONToken
  | [] => []
  | a :: rest => actionTokens a ++ (if rest = [] then [] else .comma :: elementTokens rest)

/-- The tokens of the queue. -/
def documentTokens (j : JSONActions) : List JSONToken :=
  [.lbrace, .str "actions".data, .colon, .lbracket] ++ elementTokens j.Actions ++
    [.rbracket, .rbrace]

/-! ## Notions used to state the properties -/

/-- The string stored under `key`, when the setting exists and is a string. -/
def settingString (r : WinGetResource) (key : String) : Option String :=
  assertString (mapIndex r.Settings key)

/-- Every package resource of the list carries string `id` and `Ensure`
settings. -/
def packagesWellFormed (WinGetPackageResource : String) (resources : List WinGetResource) :
    Prop :=
  ∀ r ∈ resources, r.Resource = WinGetPackageResource →
    (∃ id, settingString r "id" = some id) ∧ (∃ ensure, settingString r "Ensure" = some ensure)

/-- The retention rule in the words of the specification: a resource stays when
it is not a package resource, or its id is not excluded, or its `Ensure` is
`"Absent"`. -/
def retainedBySpec (WinGetPackageResource : String) (exclusions : List String)
    (r : WinGetResource) : Bool :=
  decide (r.Resource ≠ WinGetPackageResource ∨
    (∀ id ∈ exclusions, settingString r "id" ≠ some id) ∨
    settingString r "Ensure" = some "Absent")

/-- The record marshalled by `SendWinGetCfgExcludedPackage` for one id. -/
def excludeRecord (uuid id : String) : DeployAction :=
  { DeployAction.zero with AgentId := uuid, PackageId := id }

/-- Invariant of the script state for one script ID: the script has not been
run in run-once mode, or it has been run once and the ID is among the comma
separated IDs stored under the `ScriptsRun` key of the INI file. -/
def onceInvariant (id : String) (st : ScriptState) : Prop :=
  onceRuns id st.ran = 0 ∨
    (onceRuns id st.ran = 1 ∧
      ∃ v, st.iniScriptsRun = some v ∧ id ∈ stringsSplit v ',')

/-- The `(packageID, packageName, action)` of the deployment reports among the
events, in order. -/
def deploymentReports : List CycleEvent → List (String × String × String)
  | [] => []
  | .deploymentReport packageID packageName action _ :: rest =>
    (packageID, packageName, action) :: deploymentReports rest
  | _ :: rest => deploymentReports rest

/-- Whether the event belongs to the per-package verification: a check of the
installed state or the deployment report that follows it. -/
def CycleEvent.isVerification : CycleEvent → Bool
  | .verify _ _ => true
  | .deploymentReport _ _ _ _ => true
  | _ => false

/-- The report job of `before` was rescheduled with an interval computed from
`minutes`: in `after` the scheduler holds the jobs of `before` without the old
report job, in their order, followed by one new report job with the duration
`time.Duration(minutes) * time.Minute`, and `ReportJob` is the new job. -/
def reportRescheduled (before after : Agent) (minutes : Int) : Prop :=
  ∃ old, before.ReportJob = some old ∧
    after.ReportJob = some before.nextJobID ∧
    after.nextJobID = before.nextJobID + 1 ∧
    after.jobs = (before.jobs.filter fun j => j.id != old) ++
      [{ id := before.nextJobID, kind := JobKind.report, minutes := minutes,
         duration := timeDuration minutes }]

/-- A `ReportTask` run in which a report is generated, the configuration is
saved and the scheduler accepts the new job. -/
def ReportCalls.regular (calls : ReportCalls) : Prop :=
  calls.runReport = ReportOutcome.report ∧ calls.writeConfig = WriteOutcome.saved ∧
    calls.newJob = none

/-- The interval `startReportJob` schedules for a configured number of
minutes: five minutes stand in for zero. -/
def scheduledMinutes (minutes : Int) : Int :=
  if minutes = 0 then SCHEDULETIME_5MIN else minutes

/-- The deployment report the verification owes for one resource, in the words
of the specification: `install` for a package resource with `Ensure`
`"Present"` that is verified installed, `uninstall` for a package resource
with any other `Ensure` that is verified not installed, nothing otherwise. -/
def expectedReport (WinGetPackageResource : String) (installed : String → Bool)
    (r : WinGetResource) : Option (String × String × String) :=
  if r.Resource = WinGetPackageResource then
    match settingString r "id", settingString r "Ensure" with
    | some id, some ensure =>
      if ensure = "Present" then
        if installed id then some (id, r.Description, "install") else none
      else
        if installed id then none else some (id, r.Description, "uninstall")
    | _, _ => none
  else none

/-- The task a script resource stands for, in the words of the specification:
a resource with `Script`, `Name` and `ID` settings gives a task under its name,
with run mode `"once"` when `ScriptRun` is absent; another resource gives none. -/
def scriptTask (r : WinGetResource) : Option (String × PowerShellTask) :=
  match settingString r "Script", settingString r "Name", settingString r "ID" with
  | some script, some name, some id =>
    some (name, { Script := script, ID := id,
                  RunConfig := (settingString r "ScriptRun").getD "once" })
  | _, _, _ => none

/-- Every `Script`, `Name`, `ID` and `ScriptRun` setting that a script resource
of the list carries is a string. -/
def scriptsWellFormed (scnorionPowershell : String) (resources : List WinGetResource) : Prop :=
  ∀ r ∈ resources, r.Resource = scnorionPowershell →
    ∀ key ∈ ["Script", "Name", "ID", "ScriptRun"],
      mapIndex r.Settings key = none ∨ settingString r key ≠ none

instance (scnorionPowershell : String) (resources : List WinGetResource) :
    Decidable (scriptsWellFormed scnorionPowershell resources) := by
  unfold scriptsWellFormed
  infer_instance

/-- The package manager is asked to upgrade `Microsoft.PowerShell` among the
events. -/
def upgradeRequested (events : List PrerequisiteEvent) : Bool :=
  events.any fun e =>
    match e with
    | .updatePackage "Microsoft.PowerShell" _ => true
    | _ => false

/-- The playbook file of the macOS `ApplyConfiguration` can be created,
written and closed. -/
def PlaybookCalls.fileWritten (pc : PlaybookCalls) : Prop :=
  pc.createFolder = none ∧ pc.createTemp = none ∧ pc.writeHeader = none ∧
    pc.writePlaybook = none ∧ pc.close = none

/-- The profile without its exclusions and its deployments. -/
def ProfileConfig.bare (p : ProfileConfig) : ProfileConfig :=
  { p with Exclusions := [], Deployments := [] }

/-- A report job is in the scheduler. -/
def reportJobScheduled (a : Agent) : Bool :=
  a.jobs.any fun j => j.kind = JobKind.report

/-- A pending-ack job and a reconciliation job are in the scheduler. -/
def retryAndReconcileScheduled (a : Agent) : Bool :=
  (a.jobs.any fun j => j.kind = JobKind.pendingACK) &&
    (a.jobs.any fun j => j.kind = JobKind.configure)

/-- The JSON codec of the environment is the one of `encoding/json`. -/
def Env.jsonCodec (env : Env) : Prop :=
  env.marshalIndent = (fun j => .ok (jsonMarshalIndent j)) ∧ env.unmarshal = jsonUnmarshal

/-- The pending-ack file with content `disk` is empty, and `L` is the empty
queue, or it is not empty and holds the valid queue `L`. -/
def holdsQueue (disk : String) (L : List DeployAction) : Prop :=
  (disk = "" ∧ L = []) ∨ (disk ≠ "" ∧ jsonUnmarshal disk = .ok { Actions := L })

/-! ## Concrete inputs used to evaluate the definitions -/

/-- An action for package `p`, all other fields zero. -/
def sampleAction (p : String) : DeployAction :=
  { DeployAction.zero with PackageId := p }

/-- An environment with a working disk in which the file decodes to `queue`,
an action is marshalled to its package id, a queue to the concatenation of its
package ids, and the backend times out exactly on the payloads in `failing`. -/
def sampleEnv (queue : List DeployAction) (failing : List String) : Env :=
  { marshal := fun a => .ok a.PackageId
    marshalIndent := fun j => .ok (String.join (j.Actions.map fun a => a.PackageId))
    unmarshal := fun _ => .ok { Actions := queue }
    request := fun _ data => if data ∈ failing then .error "timeout" else .ok ""
    getwd := none
    openFile := none
    readAll := none
    create := none
    write := none }

/-- Collaborators whose decoder yields the action for package `p.X` and whose
package-manager operations all fail with `exit status 1`. -/
def failingManager : Collaborators :=
  { unmarshalAction := fun _ => .ok (sampleAction "p.X")
    InstallPackage := fun _ => some "exit status 1"
    UpdatePackage := fun _ => some "exit status 1"
    UninstallPackage := fun _ => some "exit status 1"
    now := 1 }

/-- A package resource with the given id and `Ensure`, of kind `"package"`. -/
def samplePackage (id ensure : String) : WinGetResource :=
  { Resource := "package", Settings := [("id", .str id), ("Ensure", .str ensure)],
    Description := id }

/-- A resource of another kind, without settings. -/
def sampleOther : WinGetResource :=
  { Resource := "script", Settings := [], Description := "" }

/-- A configuration with two packages to install, one to remove and one
resource that is not a package. -/
def sampleResources : List WinGetResource :=
  [samplePackage "pkg.A" "Present", sampleOther, samplePackage "pkg.B" "Present",
   samplePackage "pkg.C" "Absent"]

/-- The script state of a fresh agent whose INI file has an empty `ScriptsRun`
key. -/
def sampleScriptState : ScriptState :=
  { ScriptsRun := "", iniScriptsRun := some "", errData := "", ran := [], exited := false }

/-- A run-once task with the given ID. -/
def sampleOnce (id : String) : PowerShellTask :=
  { ID := id, Script := "Write-Host 1", RunConfig := "once" }

/-- All outside calls of an iteration succeed. -/
def callsOk : ScriptCalls :=
  { readConfig := none, execute := none, writeConfig := .saved }

/-- The script fails to execute; the configuration is read and saved. -/
def callsExecuteFails : ScriptCalls :=
  { readConfig := none, execute := some "could not execute powershell script",
    writeConfig := .saved }

/-- A script resource of kind `"script"` with `Script`, `Name` and `ID`
settings and no `ScriptRun`. -/
def sampleScript (name id : String) : WinGetResource :=
  { Resource := "script",
    Settings := [("Script", .str "exit 1"), ("Name", .str name), ("ID", .str id)],
    Description := "" }

/-- A package resource that has an `Ensure` setting and no `id`. -/
def packageWithoutId : WinGetResource :=
  { Resource := "package", Settings := [("Ensure", .str "Present")], Description := "no id" }

/-- A package resource that has an `id` setting and no `Ensure`. -/
def packageWithoutEnsure : WinGetResource :=
  { Resource := "package", Settings := [("id", .str "pkg.D")], Description := "no ensure" }

/-- The executor fails and `wingetcfg.txt` holds `boom`. -/
def executorFails : ExecutorCalls :=
  { writeConfigFile := none, run := some "exit status 1", logData := "boom" }

/-- The executor succeeds. -/
def executorOk : ExecutorCalls :=
  { writeConfigFile := none, run := none, logData := "" }

/-- The Go zero value of `Config`. -/
def Config.zero : Config :=
  { NATSServers := "", UUID := "", ExecuteTaskEveryXMinutes := 0, Enabled := false,
    Debug := false, DefaultFrequency := 0, VNCProxyPort := "", SFTPPort := "", CACert := "",
    AgentCert := "", AgentKey := "", SFTPCert := "", WingetConfigureFrequency := 0,
    IPAddress := "", SFTPDisabled := false, RemoteAssistanceDisabled := false, SiteID := "",
    TenantID := "", ScriptsRun := "" }

/-- An INI file of an enabled agent `u-1` reporting every 5 minutes, with a
default frequency of 60 minutes. -/
def sampleIni : IniFile :=
  { UUID := "u-1", Enabled := true, ExecuteTaskEveryXMinutes := 5, NATSServers := "nats:4433",
    Debug := false, DefaultFrequency := 60, SFTPPort := "2022", VNCProxyPort := "1443",
    AgentCert := none, AgentKey := none, CACert := none, SFTPCert := none,
    WingetConfigureFrequency := some 30, IPAddress := none, SFTPDisabled := some false,
    RemoteAssistanceDisabled := some false, TenantID := none, SiteID := none,
    ScriptsRun := some "", RestartRequired := none }

/-- `ReadConfig` returns nil, from the working directory `/opt/agent`. -/
def readOk : ReadOutcome := .ok "/opt/agent" true

/-- The in-memory configuration read from `sampleIni`. -/
def sampleConfig : Config :=
  ReadConfig.values "/opt/agent" true sampleIni Config.zero

/-- A connected, enabled agent: report job 0 every 5 minutes, pending-ack job
1, profile-reconciliation job 2 every 30 minutes. -/
def sampleAgent : Agent :=
  { Config := sampleConfig, ini := sampleIni,
    jobs := [{ id := 0, kind := .report, minutes := 5 },
             { id := 1, kind := .pendingACK, minutes := 5 },
             { id := 2, kind := .configure, minutes := 30 }],
    ReportJob := some 0, NATSConnectJob := none, WingetConfigureJob := some 2,
    nextJobID := 3 }

/-- An enabled agent as `Start` leaves it when the first `RunReport` returned
nil: `Start` returned before `startReportJob`, so no job is scheduled and
`ReportJob` is nil. -/
def agentWithoutReportJob : Agent :=
  { Config := sampleConfig, ini := sampleIni, jobs := [], ReportJob := none,
    NATSConnectJob := none, WingetConfigureJob := none, nextJobID := 0 }

/-- A disabled agent: `Enabled` is false in the INI file and in memory, and no
report job is scheduled. -/
def disabledAgent : Agent :=
  { Config := { sampleConfig with Enabled := false }
    ini := { sampleIni with Enabled := false }
    jobs := [{ id := 1, kind := .pendingACK, minutes := 5 },
             { id := 2, kind := .configure, minutes := 30 }]
    ReportJob := none, NATSConnectJob := none, WingetConfigureJob := some 2, nextJobID := 3 }

/-- The report is generated and sent, the remote configuration cannot be
fetched, the configuration is saved and the job is accepted. -/
def reportSent : ReportCalls :=
  { runReport := .report, sendReport := none, getRemoteConfig := .failed "timeout",
    writeConfig := .saved, newJob := none }

/-- The report is generated and sent, and the backend answers the remote
configuration request with `Ok` and an agent frequency of 0. -/
def reportSentZeroFrequency : ReportCalls :=
  { runReport := .report, sendReport := none,
    getRemoteConfig := .received true 0 30 false false .saved,
    writeConfig := .saved, newJob := none }

/-- The report is generated and sent, and the backend answers the remote
configuration request with `Ok` and an agent frequency of 307445735 minutes. -/
def reportSentHugeFrequency : ReportCalls :=
  { runReport := .report, sendReport := none,
    getRemoteConfig := .received true 307445735 30 false false .saved,
    writeConfig := .saved, newJob := none }

/-- The report is generated and cannot be sent; the configuration is saved and
the job is accepted. -/
def reportNotSent : ReportCalls :=
  { runReport := .report, sendReport := some "timeout", getRemoteConfig := .failed "timeout",
    writeConfig := .saved, newJob := none }

/-- The configuration is read and saved. -/
def configOk : ConfigCalls :=
  { readConfig := readOk, writeConfig := .saved }

/-- The configuration is read; saving it fails and `log.Fatalf` ends the
process. -/
def configSaveFatal : ConfigCalls :=
  { readConfig := readOk, writeConfig := .fatal }

/-- Every step of the certificate handler succeeds and a report is
generated. -/
def certificateOk : CertificateCalls :=
  { unmarshal := none, getWd := none, mkdirAll := none, parsePrivateKey := none,
    savePrivateKey := none, saveCertificate := none, runReport := .report }

/-- Outcomes for a dispatch in which every outside call succeeds. -/
def dispatchOk : DispatchCalls :=
  { enable := configOk, disable := configOk,
    report := { readConfig := readOk, runReport := .report, sendReport := none },
    certificate := certificateOk }

/-- Collaborators whose decoder yields the action for package `p.X` and whose
update operation fails with the package manager's "no updates found" code. -/
def noUpdatesManager : Collaborators :=
  { unmarshalAction := fun _ => .ok (sampleAction "p.X")
    InstallPackage := fun _ => none
    UpdatePackage := fun _ => some "exit status 0x8a15002b"
    UninstallPackage := fun _ => none
    now := 1 }

/-- The numbers of a version written `vMAJOR.MINOR.PATCH`. -/
def plainVersion (v : String) : Option (Nat × Nat × Nat) :=
  match v.data with
  | 'v' :: rest =>
    match splitChars '.' rest with
    | [a, b, c] =>
      if a = [] ∨ b = [] ∨ c = [] then none
      else
        match parseDigits a 0, parseDigits b 0, parseDigits c 0 with
        | some x, some y, some z => some (x, y, z)
        | _, _, _ => none
    | _ => none
  | _ => none

/-- A comparison that orders versions written `vMAJOR.MINOR.PATCH` by their
numbers, as `semver.Compare` does for them; any other string counts as
invalid, below every version. -/
def plainSemverCompare (v w : String) : Int :=
  match plainVersion v, plainVersion w with
  | some (a, b, c), some (x, y, z) =>
    if a < x then -1 else if x < a then 1
    else if b < y then -1 else if y < b then 1
    else if c < z then -1 else if z < c then 1 else 0
  | some _, none => 1
  | none, some _ => -1
  | none, none => 0

/-- PowerShell 7 is installed, `pwsh.exe` exists and the version query prints
`7.4.0`. -/
def oldPowerShell : PrerequisiteCalls :=
  { unmarshal := none, getWd := none, missingAtStart := false, installPackage := none,
    version := .ok "7.4.0\r\n", missingAfterQuery := false, updatePackage := none }

/-- A profile that installs `pkg.A`, for Windows and for macOS, and names
`pkg.A` among its exclusions and its deployments. -/
def sampleProfile : ProfileConfig :=
  { ProfileID := 7, Exclusions := ["pkg.A"], Deployments := ["pkg.A"],
    WinGetConfig := some [samplePackage "pkg.A" "Present"],
    AnsibleConfig := [{ yaml := "- homebrew: name=pkg.A state=present user=some_user\n" }] }

/-- Collaborators of a cycle in which the request gets `reply`, the reply
decodes to `profiles`, a WinGet configuration is marshalled to the
descriptions of its resources and playbooks to their texts. -/
def profileCalls (reply : Except GoError String) (profiles : List ProfileConfig) :
    ProfileCalls :=
  { marshalRequest := .ok "agent-1"
    request := fun _ _ => reply
    unmarshalProfiles := fun _ => profiles
    marshalWinGet := fun c =>
      match c with
      | some resources => .ok (String.join (resources.map fun r => r.Description))
      | none => .ok "null"
    marshalAnsible := fun playbooks => .ok (String.join (playbooks.map fun b => b.yaml))
    applyConfiguration := fun _ _ _ _ => .returned
    installCollection := none }

/-- On macOS every file operation works, the logged in user is `alice` and
`ansible-playbook` succeeds. -/
def playbookOk : PlaybookCalls :=
  { unmarshal := fun _ => none, createFolder := none, createTemp := none, writeHeader := none,
    loggedInUser := .ok "alice", writePlaybook := none, close := none,
    execute := fun _ => (none, "") }

/-- A settings message that turns debugging on and both services off, with an
SFTP port above 65535. -/
def settingsBadSFTPPort : AgentSetting :=
  { DebugMode := true, SFTPService := false, RemoteAssistance := false, SFTPPort := "70000",
    VNCProxyPort := "1443" }

/-- A settings message with a new valid SFTP port and a VNC proxy port that is
not a number. -/
def settingsBadVNCPort : AgentSetting :=
  { DebugMode := false, SFTPService := true, RemoteAssistance := true, SFTPPort := "2222",
    VNCProxyPort := "vnc" }

/-- The settings message decodes to `data`; the configuration can be saved. -/
def settingsCalls (data : AgentSetting) : SettingsCalls :=
  { unmarshal := .ok data, writeConfig := .saved, setRestartRequired := none }

/-- The agent handed to `Start`: the configuration read from the INI file
with the given `Enabled` flag, and an empty scheduler. -/
def freshAgent (enabled : Bool) : Agent :=
  { Config := { sampleConfig with Enabled := enabled }
    ini := { sampleIni with Enabled := enabled }
    jobs := [], ReportJob := none, NATSConnectJob := none, WingetConfigureJob := none,
    nextJobID := 0 }

/-- Every outside call of `Start` succeeds, except the request for the remote
configuration, which times out. -/
def startOk : StartCalls :=
  { currentUser := none, writeConfig := .saved, resetRestartRequired := none,
    sftpFolder := none, connect := none, runReport := .report, sendReport := none,
    getRemoteConfig := .failed "timeout", writeConfigAfterReport := .saved,
    newConnectJob := none, newReportJob := none, newPendingACKJob := none,
    newConfigureJob := none }

/-- As `startOk`, but the first report cannot be generated: `RunReport`
returns nil. -/
def startReportFails : StartCalls :=
  { startOk with runReport := .failed }

/-- As `startOk`, but the message bus cannot be reached. -/
def startNotConnected : StartCalls :=
  { startOk with connect := some "nats: no servers available" }

/-- The reconnect task reaches the message bus and the scheduler accepts the
jobs. -/
def reconnectOk : ConnectCalls :=
  { connect := none, newReportJob := none, newPendingACKJob := none, newConfigureJob := none }

/-- A new configuration with an agent frequency of 120 minutes and no change
of the other settings; the configuration can be saved. -/
def newConfigTwoHours : NewConfigCalls :=
  { unmarshal := .ok { AgentFrequency := 120, WinGetFrequency := 0, SFTPDisabled := false,
                       RemoteAssistanceDisabled := false }
    setRestartRequired := none, newReportJob := none, newConfigureJob := none,
    writeConfig := .saved }

/-- PowerShell 7 is installed, `pwsh.exe` exists and the version query prints
`7.5.0`. -/
def currentPowerShell : PrerequisiteCalls :=
  { unmarshal := none, getWd := none, missingAtStart := false, installPackage := none,
    version := .ok "7.5.0\r\n", missingAfterQuery := false, updatePackage := none }

/-- An environment with the JSON codec, a backend that answers, and a disk on
which `os.Create` and `Write` have the given outcomes and every other call
succeeds. -/
def jsonEnv (create write : Option GoError) : Env :=
  { marshal := fun a => .ok a.PackageId
    marshalIndent := fun j => .ok (jsonMarshalIndent j)
    unmarshal := jsonUnmarshal
    request := fun _ _ => .ok ""
    getwd := none
    openFile := none
    readAll := none
    create := create
    write := write }

/-! ## The sweep of `PendingACKTask` -/

theorem PendingACKTask.loop_failed (env : Env) (i : Nat) (st : SweepState)
    (h : i < st.actions.length) (e : GoError)
    (hs : SendDeployResult env (st.actions.get ⟨i, h⟩) = some e) :
    PendingACKTask.loop env i st = PendingACKTask.loop env (i + 1)
      { st with j := st.j + 1, sent := st.sent ++ [st.actions.get ⟨i, h⟩] } := by
  rw [PendingACKTask.loop]
  simp only [h, dite_true]
  simp only [hs]

theorem PendingACKTask.loop_acked (env : Env) (i : Nat) (st : SweepState)
    (h : i < st.actions.length)
    (hs : SendDeployResult env (st.actions.get ⟨i, h⟩) = none) :
    PendingACKTask.loop env i st = PendingACKTask.loop env (i + 1)
      { st with actions := slicesDelete st.actions st.j (st.j + 1),
                sent := st.sent ++ [st.actions.get ⟨i, h⟩] } := by
  rw [PendingACKTask.loop]
  simp only [h, dite_true]
  simp only [hs]

theorem PendingACKTask.loop_done (env : Env) (i : Nat) (st : SweepState)
    (h : ¬ i < st.actions.length) : PendingACKTask.loop env i st = st := by
  rw [PendingACKTask.loop]
  simp only [h, dite_false]

/-- C1: a sweep does not resend each entry exactly once nor save exactly the
failed entries.  On the queue `[a, b, c]` with every send acknowledged, the
sweep sends `a` and `c` only and saves `[c]`: `b` is never resent and is
dropped, `c` was acknowledged and is kept. -/
theorem PendingACKTask_all_acked_saves_last :
    PendingACKTask
        (sampleEnv [sampleAction "a", sampleAction "b", sampleAction "c"] []) "abc" =
      { disk := "c", sent := [sampleAction "a", sampleAction "c"],
        saved := some [sampleAction "c"] } := by
  have hread : ReadDeploymentNotACK
      (sampleEnv [sampleAction "a", sampleAction "b", sampleAction "c"] []) "abc" =
      .ok [sampleAction "a", sampleAction "b", sampleAction "c"] := rfl
  simp only [PendingACKTask, hread]
  rw [PendingACKTask.loop_acked _ _ _ (by decide) (by decide)]
  rw [PendingACKTask.loop_acked _ _ _ (by decide) (by decide)]
  rw [PendingACKTask.loop_done _ _ _ (by decide)]
  decide

/-- C2: an entry that was not acknowledged can be missing from the saved
queue.  On the queue `[a, b, c, d, e]` where only the send of `c` fails, the
sweep sends `a`, `c` and `d` and saves `[b, d, e]`: the failed entry `c` is
not in the saved queue. -/
theorem PendingACKTask_drops_failed_entry :
    PendingACKTask
        (sampleEnv [sampleAction "a", sampleAction "b", sampleAction "c", sampleAction "d",
          sampleAction "e"] ["c"]) "abcde" =
      { disk := "bde", sent := [sampleAction "a", sampleAction "c", sampleAction "d"],
        saved := some [sampleAction "b", sampleAction "d", sampleAction "e"] } := by
  have hread : ReadDeploymentNotACK
      (sampleEnv [sampleAction "a", sampleAction "b", sampleAction "c", sampleAction "d",
        sampleAction "e"] ["c"]) "abcde" =
      .ok [sampleAction "a", sampleAction "b", sampleAction "c", sampleAction "d",
        sampleAction "e"] := rfl
  simp only [PendingACKTask, hread]
  rw [PendingACKTask.loop_acked _ _ _ (by decide) (by decide)]
  rw [PendingACKTask.loop_failed _ _ _ (by decide) "timeout" (by decide)]
  rw [PendingACKTask.loop_acked _ _ _ (by decide) (by decide)]
  rw [PendingACKTask.loop_done _ _ _ (by decide)]
  decide

/-! ## The package command handlers -/

/-- C3: the update and uninstall handlers do not queue an action whose result
could not be sent after the package-manager operation failed.  With the
package manager failing and the backend timing out, each of them makes the one
`SendDeployResult` call, gets its error, and returns without calling
`SaveDeploymentNotACK`, leaving the queue file as it was; the install handler
on the same input does queue the action. -/
theorem update_uninstall_failure_not_queued :
    UpdatePackageSubscribe (sampleEnv [] ["p.X"]) failingManager "msg" "" =
        { effects := [.sendDeployResult { sampleAction "p.X" with Failed := true }
            (some "timeout")],
          disk := "" } ∧
      UninstallPackageSubscribe (sampleEnv [] ["p.X"]) failingManager "msg" "" =
        { effects := [.sendDeployResult (sampleAction "p.X") (some "timeout")],
          disk := "" } ∧
      InstallPackageSubscribe (sampleEnv [] ["p.X"]) failingManager "msg" "" =
        { effects := [.sendDeployResult { sampleAction "p.X" with Failed := true }
            (some "timeout"),
            .saveDeploymentNotACK { sampleAction "p.X" with Failed := true } none],
          disk := "p.X" } := by
  refine ⟨?_, ?_, ?_⟩ <;> decide

/-! ## Filtering of the WinGet configuration -/

theorem keepPackage_eq_retainedBySpec (pkg : String) (exclusions : List String)
    (r : WinGetResource) (hr : r.Resource = pkg)
    (hid : ∃ id, settingString r "id" = some id)
    (hens : ∃ ensure, settingString r "Ensure" = some ensure) :
    keepPackage exclusions r = some (retainedBySpec pkg exclusions r) := by
  obtain ⟨id, hid⟩ := hid
  obtain ⟨ensure, hens⟩ := hens
  have hid2 : assertString (mapIndex r.Settings "id") = some id := hid
  have hens2 : assertString (mapIndex r.Settings "Ensure") = some ensure := hens
  by_cases hmem : id ∈ exclusions
  · have hspec : retainedBySpec pkg exclusions r = (ensure == "Absent") := by
      by_cases he : ensure = "Absent"
      · subst he
        simp [retainedBySpec, hens]
      · have : ¬ ∀ x ∈ exclusions, ¬ id = x := fun h => h id hmem rfl
        simp [retainedBySpec, hr, hid, hens, he, this]
    simp [keepPackage, hid2, hens2, hspec, hmem]
  · have hspec : retainedBySpec pkg exclusions r = true := by
      have : ∀ x ∈ exclusions, ¬ id = x := fun x hx h => hmem (h ▸ hx)
      simp only [retainedBySpec, decide_eq_true_eq, hid]
      exact Or.inr (Or.inl fun x hx hxe => this x hx (Option.some.inj hxe))
    simp [keepPackage, hid2, hspec, hmem]

theorem packagesWellFormed_of_subset (pkg : String) (xs ys : List WinGetResource)
    (hsub : ∀ r ∈ xs, r ∈ ys) (h : packagesWellFormed pkg ys) : packagesWellFormed pkg xs :=
  fun r hr hk => h r (hsub r hr) hk

theorem RemovePackagesFromCfg.loop_eq_filter (pkg : String) (exclusions : List String)
    (resources : List WinGetResource) (h : packagesWellFormed pkg resources)
    (valid : List WinGetResource) :
    RemovePackagesFromCfg.loop pkg exclusions resources valid =
      some (valid ++ resources.filter (retainedBySpec pkg exclusions)) := by
  induction resources generalizing valid with
  | nil => simp [RemovePackagesFromCfg.loop]
  | cons r rest ih =>
    have hrest : packagesWellFormed pkg rest :=
      packagesWellFormed_of_subset pkg rest (r :: rest)
        (fun x hx => List.mem_cons_of_mem r hx) h
    by_cases hk : r.Resource = pkg
    · have hr := h r (List.mem_cons_self r rest) hk
      have hkeep := keepPackage_eq_retainedBySpec pkg exclusions r hk hr.1 hr.2
      cases hb : retainedBySpec pkg exclusions r with
      | true =>
        rw [hb] at hkeep
        simp [RemovePackagesFromCfg.loop, hk, hkeep, ih hrest, List.filter_cons, hb]
      | false =>
        rw [hb] at hkeep
        simp [RemovePackagesFromCfg.loop, hk, hkeep, ih hrest, List.filter_cons, hb]
    · have hb : retainedBySpec pkg exclusions r = true := by
        simp [retainedBySpec, hk]
      simp [RemovePackagesFromCfg.loop, hk, ih hrest, List.filter_cons, hb]

theorem RemovePackagesFromCfg_eq_filter (pkg : String) (resources : List WinGetResource)
    (exclusions : List String) (hne : exclusions ≠ [])
    (h : packagesWellFormed pkg resources) :
    RemovePackagesFromCfg pkg resources exclusions =
      some (resources.filter (retainedBySpec pkg exclusions)) := by
  have hlen : exclusions.length ≠ 0 := by
    intro h0
    exact hne (List.length_eq_zero.mp h0)
  simp [RemovePackagesFromCfg, hlen, RemovePackagesFromCfg.loop_eq_filter pkg exclusions resources h]

/-- C4: for a configuration whose package resources all carry string `id` and
`Ensure` settings and a non-empty exclusion list, `RemovePackagesFromCfg`
leaves exactly the resources that are not package resources, or whose id is not
excluded, or whose `Ensure` is `"Absent"`, in their original order; no package
resource with an excluded id and another `Ensure` remains, and every resource
with `Ensure` `"Absent"` is retained. -/
theorem RemovePackagesFromCfg_keeps_exactly (pkg : String) (resources : List WinGetResource)
    (exclusions : List String) (hne : exclusions ≠ [])
    (h : packagesWellFormed pkg resources) :
    ∃ out, RemovePackagesFromCfg pkg resources exclusions = some out ∧
      out = resources.filter (retainedBySpec pkg exclusions) ∧
      (∀ r ∈ out, ¬ (r.Resource = pkg ∧ (∃ id ∈ exclusions, settingString r "id" = some id) ∧
        settingString r "Ensure" ≠ some "Absent")) ∧
      (∀ r ∈ resources, settingString r "Ensure" = some "Absent" → r ∈ out) := by
  refine ⟨_, RemovePackagesFromCfg_eq_filter pkg resources exclusions hne h, rfl, ?_, ?_⟩
  · intro r hr hbad
    obtain ⟨hk, ⟨id, hid, hset⟩, hens⟩ := hbad
    have hret : retainedBySpec pkg exclusions r = true := (List.mem_filter.mp hr).2
    simp only [retainedBySpec, decide_eq_true_eq] at hret
    rcases hret with h1 | h2 | h3
    · exact h1 hk
    · exact h2 id hid hset
    · exact hens h3
  · intro r hr hens
    refine List.mem_filter.mpr ⟨hr, ?_⟩
    simp [retainedBySpec, hens]

theorem sampleResources_wellFormed : packagesWellFormed "package" sampleResources := by
  intro r hr hk
  simp only [sampleResources, List.mem_cons, List.mem_singleton, List.not_mem_nil,
    or_false] at hr
  rcases hr with rfl | rfl | rfl | rfl
  · exact ⟨⟨"pkg.A", rfl⟩, ⟨"Present", rfl⟩⟩
  · exact absurd hk (by decide)
  · exact ⟨⟨"pkg.B", rfl⟩, ⟨"Present", rfl⟩⟩
  · exact ⟨⟨"pkg.C", rfl⟩, ⟨"Absent", rfl⟩⟩

/-- Witness of C4 on a four-resource configuration with exclusions
`["pkg.A", "pkg.C"]`: the hypotheses hold there and the theorem applies. -/
theorem RemovePackagesFromCfg_keeps_exactly_witness :
    (["pkg.A", "pkg.C"] : List String) ≠ [] ∧ packagesWellFormed "package" sampleResources ∧
      ∃ out, RemovePackagesFromCfg "package" sampleResources ["pkg.A", "pkg.C"] = some out ∧
        out = sampleResources.filter (retainedBySpec "package" ["pkg.A", "pkg.C"]) ∧
        (∀ r ∈ out, ¬ (r.Resource = "package" ∧
          (∃ id ∈ ["pkg.A", "pkg.C"], settingString r "id" = some id) ∧
          settingString r "Ensure" ≠ some "Absent")) ∧
        (∀ r ∈ sampleResources, settingString r "Ensure" = some "Absent" → r ∈ out) :=
  ⟨by decide, sampleResources_wellFormed,
    RemovePackagesFromCfg_keeps_exactly "package" sampleResources ["pkg.A", "pkg.C"]
      (by decide) sampleResources_wellFormed⟩

theorem GetExplicitelyDeletedPackages.loop_eq (installed : String → Bool)
    (deployments deleted : List String) :
    GetExplicitelyDeletedPackages.loop installed deployments deleted =
      deleted ++ deployments.filter (fun d => !installed d) := by
  induction deployments generalizing deleted with
  | nil => simp [GetExplicitelyDeletedPackages.loop]
  | cons d rest ih =>
    cases hd : installed d <;>
      simp [GetExplicitelyDeletedPackages.loop, hd, ih, List.filter_cons]

theorem GetExplicitelyDeletedPackages_eq_filter (installed : String → Bool)
    (deployments : List String) :
    GetExplicitelyDeletedPackages installed deployments =
      deployments.filter (fun d => !installed d) := by
  simp [GetExplicitelyDeletedPackages, GetExplicitelyDeletedPackages.loop_eq]

theorem SendWinGetCfgExcludedPackage_one_each (env : Env) (uuid : String) (ids : List String)
    (hm : ∀ id ∈ ids, ∃ data, env.marshal (excludeRecord uuid id) = .ok data) :
    List.Forall₂
      (fun id req => req.1 = "wingetcfg.exclude" ∧ env.marshal (excludeRecord uuid id) = .ok req.2)
      ids (SendWinGetCfgExcludedPackage env uuid ids) := by
  induction ids with
  | nil => simp [SendWinGetCfgExcludedPackage]
  | cons id rest ih =>
    obtain ⟨data, hdata⟩ := hm id (List.mem_cons_self id rest)
    have hdata2 : env.marshal { DeployAction.zero with AgentId := uuid, PackageId := id } =
        .ok data := hdata
    have hrest := ih (fun x hx => hm x (List.mem_cons_of_mem id hx))
    simp only [SendWinGetCfgExcludedPackage, hdata2]
    exact List.Forall₂.cons ⟨rfl, hdata⟩ hrest

theorem RemovePackagesFromCfg_wellFormed (pkg : String) (resources : List WinGetResource)
    (exclusions : List String) (h : packagesWellFormed pkg resources) :
    ∃ out, RemovePackagesFromCfg pkg resources exclusions = some out ∧
      packagesWellFormed pkg out := by
  by_cases hne : exclusions = []
  · subst hne
    exact ⟨resources, by simp [RemovePackagesFromCfg], h⟩
  · refine ⟨_, RemovePackagesFromCfg_eq_filter pkg resources exclusions hne h, ?_⟩
    exact packagesWellFormed_of_subset pkg _ resources
      (fun r hr => (List.mem_filter.mp hr).1) h

/-- For a configuration whose package resources carry string `id` and `Ensure`
settings, and exclusion records that can be marshalled:
`GetExplicitelyDeletedPackages` returns exactly the deployments that are not
installed, in order, and the filtering stage of `ApplyConfiguration` makes one
`wingetcfg.exclude` request for each of them, in the same order, carrying the
marshalled record of that id. -/
theorem explicitly_deleted_are_notified (env : Env) (uuid pkg : String)
    (installed : String → Bool) (resources : List WinGetResource)
    (exclusions deployments : List String)
    (hwf : packagesWellFormed pkg resources)
    (hm : ∀ id ∈ deployments, ∃ data, env.marshal (excludeRecord uuid id) = .ok data) :
    GetExplicitelyDeletedPackages installed deployments =
        deployments.filter (fun d => !installed d) ∧
      ∃ stage, ApplyConfiguration.filterStage env uuid pkg installed resources exclusions
          deployments = some stage ∧
        stage.explicitelyDeleted = deployments.filter (fun d => !installed d) ∧
        List.Forall₂
          (fun id req => req.1 = "wingetcfg.exclude" ∧
            env.marshal (excludeRecord uuid id) = .ok req.2)
          stage.explicitelyDeleted stage.excludeRequests := by
  have hdel := GetExplicitelyDeletedPackages_eq_filter installed deployments
  refine ⟨hdel, ?_⟩
  obtain ⟨r1, h1, hwf1⟩ := RemovePackagesFromCfg_wellFormed pkg resources
    (GetExplicitelyDeletedPackages installed deployments) hwf
  obtain ⟨r2, h2, _⟩ := RemovePackagesFromCfg_wellFormed pkg r1 exclusions hwf1
  refine ⟨{ explicitelyDeleted := GetExplicitelyDeletedPackages installed deployments,
            excludeRequests := SendWinGetCfgExcludedPackage env uuid
              (GetExplicitelyDeletedPackages installed deployments),
            resources := r2 }, ?_, hdel, ?_⟩
  · simp [ApplyConfiguration.filterStage, h1, h2]
  · apply SendWinGetCfgExcludedPackage_one_each
    intro id hid
    rw [hdel] at hid
    exact hm id (List.mem_filter.mp hid).1

/-- The scenario of the specification in the filtering stage: deployments
`["pkg.A"]` with `pkg.A` removed by hand, no exclusions. -/
theorem explicitly_deleted_are_notified_witness :
    GetExplicitelyDeletedPackages (fun d => d != "pkg.A") ["pkg.A"] = ["pkg.A"] ∧
      ∃ stage, ApplyConfiguration.filterStage (sampleEnv [] []) "agent-1" "package"
          (fun d => d != "pkg.A") sampleResources [] ["pkg.A"] = some stage ∧
        stage.explicitelyDeleted = ["pkg.A"] ∧
        List.Forall₂
          (fun id req => req.1 = "wingetcfg.exclude" ∧
            (sampleEnv [] []).marshal (excludeRecord "agent-1" id) = .ok req.2)
          stage.explicitelyDeleted stage.excludeRequests :=
  explicitly_deleted_are_notified (sampleEnv [] []) "agent-1" "package"
    (fun d => d != "pkg.A") sampleResources [] ["pkg.A"] sampleResources_wellFormed
    (fun id _ => ⟨id, rfl⟩)

/-! ## Run-once scripts -/

theorem splitChars_ne_nil (sep : Char) (s : List Char) : splitChars sep s ≠ [] := by
  cases s with
  | nil => simp [splitChars]
  | cons c cs =>
    by_cases h : c = sep
    · simp [splitChars, h]
    · cases hs : splitChars sep cs <;> simp [splitChars, h, hs]

theorem splitChars_append (sep : Char) (s t : List Char) :
    splitChars sep (s ++ sep :: t) = splitChars sep s ++ splitChars sep t := by
  induction s with
  | nil => simp [splitChars]
  | cons c cs ih =>
    by_cases h : c = sep
    · simp [splitChars, h, ih]
    · cases hs : splitChars sep cs with
      | nil => exact absurd hs (splitChars_ne_nil sep cs)
      | cons piece pieces => simp [splitChars, h, ih, hs]

theorem splitChars_of_not_mem (sep : Char) (t : List Char) (h : sep ∉ t) :
    splitChars sep t = [t] := by
  induction t with
  | nil => simp [splitChars]
  | cons c cs ih =>
    have hc : c ≠ sep := fun hc => h (hc ▸ List.mem_cons_self c cs)
    have hcs : sep ∉ cs := fun hm => h (List.mem_cons_of_mem c hm)
    simp [splitChars, hc, ih hcs]

theorem joinChars_append_singleton (sep : Char) (xs : List (List Char)) (y : List Char)
    (h : xs ≠ []) : joinChars sep (xs ++ [y]) = joinChars sep xs ++ sep :: y := by
  induction xs with
  | nil => exact absurd rfl h
  | cons x rest ih =>
    cases rest with
    | nil => simp [joinChars]
    | cons z rest2 =>
      have := ih (by simp)
      simp only [List.cons_append, joinChars] at this ⊢
      simp [this]

theorem joinChars_splitChars (sep : Char) (s : List Char) :
    joinChars sep (splitChars sep s) = s := by
  induction s with
  | nil => simp [splitChars, joinChars]
  | cons c cs ih =>
    by_cases h : c = sep
    · cases hs : splitChars sep cs with
      | nil => exact absurd hs (splitChars_ne_nil sep cs)
      | cons piece pieces =>
        rw [hs] at ih
        simp [splitChars, h, hs, joinChars, ih]
    · cases hs : splitChars sep cs with
      | nil => exact absurd hs (splitChars_ne_nil sep cs)
      | cons piece pieces =>
        rw [hs] at ih
        cases pieces with
        | nil =>
          simp only [joinChars] at ih
          simp [splitChars, h, hs, joinChars, ih]
        | cons q qs =>
          simp only [joinChars] at ih
          simp [splitChars, h, hs, joinChars, ih]

theorem stringsSplit_join_append (s id : String) :
    stringsSplit (stringsJoin (stringsSplit s ',' ++ [id]) ',') ',' =
      stringsSplit s ',' ++ stringsSplit id ',' := by
  have hmap : (stringsSplit s ',' ++ [id]).map String.data = splitChars ',' s.data ++ [id.data] := by
    simp [stringsSplit, List.map_map, Function.comp_def]
  simp only [stringsSplit, stringsJoin] at hmap ⊢
  rw [hmap, joinChars_append_singleton _ _ _ (splitChars_ne_nil _ _), joinChars_splitChars,
    splitChars_append, List.map_append]

theorem mem_stringsSplit_join_append (s id x : String)
    (h : x ∈ stringsSplit s ',' ∨ x ∈ stringsSplit id ',') :
    x ∈ stringsSplit (stringsJoin (stringsSplit s ',' ++ [id]) ',') ',' := by
  rw [stringsSplit_join_append]
  exact List.mem_append.mpr h

theorem stringsSplit_of_no_comma (id : String) (h : ',' ∉ id.data) :
    stringsSplit id ',' = [id] := by
  simp [stringsSplit, splitChars_of_not_mem _ _ h]

theorem executeScript_fields (outcome : Option GoError) (name : String)
    (taskConfig : PowerShellTask) (st : ScriptState) :
    (executeScript outcome name taskConfig st).ran = st.ran ++ [taskConfig] ∧
      (executeScript outcome name taskConfig st).ScriptsRun = st.ScriptsRun ∧
      (executeScript outcome name taskConfig st).iniScriptsRun = st.iniScriptsRun ∧
      (executeScript outcome name taskConfig st).exited = st.exited := by
  cases outcome <;> simp [executeScript]

theorem ReadConfig.scriptsRun_fields (st : ScriptState) :
    (ReadConfig.scriptsRun st).ran = st.ran ∧
      (ReadConfig.scriptsRun st).iniScriptsRun = st.iniScriptsRun ∧
      (ReadConfig.scriptsRun st).exited = st.exited ∧
      (∀ v, st.iniScriptsRun = some v → (ReadConfig.scriptsRun st).ScriptsRun = v) := by
  cases h : st.iniScriptsRun <;> simp [ReadConfig.scriptsRun, h]

theorem onceRuns_append_singleton (id : String) (ran : List PowerShellTask)
    (t : PowerShellTask) :
    onceRuns id (ran ++ [t]) =
      onceRuns id ran + (if t.RunConfig = "once" ∧ t.ID = id then 1 else 0) := by
  by_cases h : t.RunConfig = "once" ∧ t.ID = id
  · simp [onceRuns, List.filter_append, List.filter_cons, h]
  · simp [onceRuns, List.filter_append, List.filter_cons, h]

/-- The three ways the loop body ends when `WriteConfig` saves: nothing is run,
a script of another run mode is run, or a run-once script is run and its ID is
appended to `ScriptsRun` and saved. -/
theorem scriptIteration_cases (name : String) (taskConfig : PowerShellTask)
    (calls : ScriptCalls) (st : ScriptState) (hw : calls.writeConfig = WriteOutcome.saved) :
    ((scriptIteration name taskConfig calls st).ran = st.ran ∧
        (scriptIteration name taskConfig calls st).iniScriptsRun = st.iniScriptsRun) ∨
      (taskConfig.RunConfig ≠ "once" ∧
        (scriptIteration name taskConfig calls st).ran = st.ran ++ [taskConfig] ∧
        (scriptIteration name taskConfig calls st).iniScriptsRun = st.iniScriptsRun) ∨
      (taskConfig.RunConfig = "once" ∧ calls.readConfig = none ∧
        taskConfig.ID ∉ stringsSplit (ReadConfig.scriptsRun st).ScriptsRun ',' ∧
        (scriptIteration name taskConfig calls st).ran = st.ran ++ [taskConfig] ∧
        (scriptIteration name taskConfig calls st).ScriptsRun =
          stringsJoin (stringsSplit (ReadConfig.scriptsRun st).ScriptsRun ',' ++
            [taskConfig.ID]) ',' ∧
        (scriptIteration name taskConfig calls st).iniScriptsRun =
          some (scriptIteration name taskConfig calls st).ScriptsRun) := by
  have hr := ReadConfig.scriptsRun_fields st
  cases hread : calls.readConfig with
  | some err => left; simp [scriptIteration, hread]
  | none =>
    by_cases honce : taskConfig.RunConfig = "once"
    · by_cases hmem : taskConfig.ID ∈ stringsSplit (ReadConfig.scriptsRun st).ScriptsRun ','
      · left
        simp [scriptIteration, hread, honce, hmem, hr.1, hr.2.1]
      · right; right
        have he := executeScript_fields calls.execute name taskConfig (ReadConfig.scriptsRun st)
        refine ⟨honce, rfl, hmem, ?_, ?_, ?_⟩ <;>
          simp [scriptIteration, hread, honce, hmem, hw, WriteConfig, he.1, he.2.1, hr.1]
    · right; left
      have he := executeScript_fields calls.execute name taskConfig (ReadConfig.scriptsRun st)
      simp [scriptIteration, hread, honce, he.1, he.2.2.1, hr.1, hr.2.1]

theorem scriptIteration_invariant (id : String) (hid : ',' ∉ id.data) (name : String)
    (taskConfig : PowerShellTask) (calls : ScriptCalls)
    (hw : calls.writeConfig = WriteOutcome.saved) (st : ScriptState)
    (h : onceInvariant id st) :
    onceInvariant id (scriptIteration name taskConfig calls st) := by
  have hr := ReadConfig.scriptsRun_fields st
  rcases scriptIteration_cases name taskConfig calls st hw with
    ⟨hran, hini⟩ | ⟨hmode, hran, hini⟩ | ⟨hmode, _, hnot, hran, hsr, hini⟩
  · simpa [onceInvariant, hran, hini] using h
  · have hcount : onceRuns id (st.ran ++ [taskConfig]) = onceRuns id st.ran := by
      rw [onceRuns_append_singleton]
      simp [hmode]
    simpa [onceInvariant, hran, hini, hcount] using h
  · rcases h with h0 | ⟨h1, v, hv, hmemv⟩
    · by_cases hsame : taskConfig.ID = id
      · right
        refine ⟨?_, _, hini, ?_⟩
        · rw [hran, onceRuns_append_singleton]
          simp [hmode, hsame, h0]
        · rw [hsr]
          apply mem_stringsSplit_join_append
          right
          rw [hsame, stringsSplit_of_no_comma id hid]
          exact List.mem_singleton_self id
      · left
        rw [hran, onceRuns_append_singleton]
        simp [hsame, h0]
    · have hval : (ReadConfig.scriptsRun st).ScriptsRun = v := hr.2.2.2 v hv
      have hne : taskConfig.ID ≠ id := by
        intro hsame
        apply hnot
        rw [hval, hsame]
        exact hmemv
      right
      refine ⟨?_, _, hini, ?_⟩
      · rw [hran, onceRuns_append_singleton]
        simp [hne, h1]
      · rw [hsr]
        apply mem_stringsSplit_join_append
        left
        rw [hval]
        exact hmemv

theorem scriptEvent_invariant (id : String) (hid : ',' ∉ id.data) (e : ScriptEvent)
    (hw : ∀ name taskConfig calls, e = ScriptEvent.script name taskConfig calls →
      calls.writeConfig = WriteOutcome.saved)
    (st : ScriptState) (h : onceInvariant id st) : onceInvariant id (scriptEvent st e) := by
  cases e with
  | restart =>
    have hr := ReadConfig.scriptsRun_fields
      { st with ScriptsRun := "", errData := "", exited := false }
    simpa [scriptEvent, onceInvariant, hr.1, hr.2.1] using h
  | cycle =>
    by_cases hx : st.exited = true
    · simpa [scriptEvent, hx] using h
    · simpa [scriptEvent, hx, onceInvariant] using h
  | script name taskConfig calls =>
    by_cases hx : st.exited = true
    · simpa [scriptEvent, hx] using h
    · simp only [scriptEvent, hx]
      exact scriptIteration_invariant id hid name taskConfig calls
        (hw name taskConfig calls rfl) st h

theorem runScriptEvents_invariant (id : String) (hid : ',' ∉ id.data)
    (events : List ScriptEvent) (hw : writesSaved events) (st : ScriptState)
    (h : onceInvariant id st) : onceInvariant id (runScriptEvents st events) := by
  induction events generalizing st with
  | nil => simpa [runScriptEvents] using h
  | cons e rest ih =>
    have hrest : writesSaved rest := fun n t c hm => hw n t c (List.mem_cons_of_mem e hm)
    have hstep := scriptEvent_invariant id hid e
      (fun n t c he => hw n t c (he ▸ List.mem_cons_self e rest)) st h
    simpa [runScriptEvents] using ih hrest (scriptEvent st e) hstep

/-- C6, counterexample: a run-once script whose ID contains a comma is run in
two consecutive cycles although every configuration write is saved: the stored
value `",a,b"` splits into `""`, `"a"`, `"b"`, none of which is the ID. -/
theorem once_script_with_comma_runs_twice :
    writesSaved [.script "n" (sampleOnce "a,b") callsOk, .cycle,
        .script "n" (sampleOnce "a,b") callsOk] ∧
      onceRuns "a,b"
        (runScriptEvents sampleScriptState
          [.script "n" (sampleOnce "a,b") callsOk, .cycle,
            .script "n" (sampleOnce "a,b") callsOk]).ran = 2 := by
  refine ⟨?_, by decide⟩
  intro name taskConfig calls hm
  simp only [List.mem_cons, List.mem_singleton, List.not_mem_nil, or_false] at hm
  rcases hm with h | h | h
  · cases h; rfl
  · cases h
  · cases h; rfl

/-- C6, amended: for a script ID without a comma, over any sequence of cycles
and restarts in which every configuration write is saved, the run-once script
is executed at most once; it is executed only when its ID is not among the
recorded IDs, and after the iteration that executed it its ID is among the
recorded IDs, in memory and in the INI file. -/
theorem once_script_runs_at_most_once (id : String) (hid : ',' ∉ id.data)
    (events : List ScriptEvent) (hw : writesSaved events) (st : ScriptState)
    (hran : st.ran = []) :
    onceRuns id (runScriptEvents st events).ran ≤ 1 ∧
      ∀ (name : String) (taskConfig : PowerShellTask) (calls : ScriptCalls) (st1 : ScriptState),
        taskConfig.RunConfig = "once" → taskConfig.ID = id →
        calls.writeConfig = WriteOutcome.saved →
        (scriptIteration name taskConfig calls st1).ran ≠ st1.ran →
          id ∉ stringsSplit (ReadConfig.scriptsRun st1).ScriptsRun ',' ∧
          id ∈ stringsSplit (scriptIteration name taskConfig calls st1).ScriptsRun ',' ∧
          (scriptIteration name taskConfig calls st1).iniScriptsRun =
            some (scriptIteration name taskConfig calls st1).ScriptsRun := by
  constructor
  · have h0 : onceInvariant id st := Or.inl (by simp [onceRuns, hran])
    rcases runScriptEvents_invariant id hid events hw st h0 with h | ⟨h, _⟩ <;> omega
  · intro name taskConfig calls st1 honce hsame hsaved hrun
    rcases scriptIteration_cases name taskConfig calls st1 hsaved with
      ⟨hran1, _⟩ | ⟨hmode, _, _⟩ | ⟨_, _, hnot, _, hsr, hini⟩
    · exact absurd hran1 hrun
    · exact absurd honce hmode
    · refine ⟨hsame ▸ hnot, ?_, hini⟩
      rw [hsr]
      apply mem_stringsSplit_join_append
      right
      rw [hsame, stringsSplit_of_no_comma id hid]
      exact List.mem_singleton_self id

/-- Witness of C6 (amended): the script `s1` over a failed first execution, a
new cycle, a restart and a second cycle. -/
theorem once_script_runs_at_most_once_witness :
    onceRuns "s1"
        (runScriptEvents sampleScriptState
          [.script "n" (sampleOnce "s1") callsExecuteFails, .cycle, .restart,
            .script "n" (sampleOnce "s1") callsOk]).ran ≤ 1 :=
  (once_script_runs_at_most_once "s1" (by decide)
    [.script "n" (sampleOnce "s1") callsExecuteFails, .cycle, .restart,
      .script "n" (sampleOnce "s1") callsOk]
    (by
      intro name taskConfig calls hm
      simp only [List.mem_cons, List.mem_singleton, List.not_mem_nil, or_false] at hm
      rcases hm with h | h | h | h
      · cases h; rfl
      · cases h
      · cases h
      · cases h; rfl)
    sampleScriptState rfl).1

/-- C7, counterexample: when `ExecutePowerShellScript` returns an error for a
run-once script, its ID is recorded all the same, in memory and in the INI
file, and the next iteration for the same script does not run it. -/
theorem failed_once_script_is_recorded :
    scriptIteration "n" (sampleOnce "s1") callsExecuteFails sampleScriptState =
        { ScriptsRun := ",s1", iniScriptsRun := some ",s1",
          errData := "n: could not execute powershell script",
          ran := [sampleOnce "s1"], exited := false } ∧
      "s1" ∈ stringsSplit ",s1" ',' ∧
      (scriptIteration "n" (sampleOnce "s1") callsOk
        (scriptIteration "n" (sampleOnce "s1") callsExecuteFails sampleScriptState)).ran =
        [sampleOnce "s1"] := by
  decide

/-- C7, amended: a run-once script whose ID is not yet recorded is handed to
`ExecutePowerShellScript` and its ID is appended to `ScriptsRun` whatever the
outcome of the execution; an execution error is accumulated into `errData`,
and when `WriteConfig` saves, the INI file holds the new value. -/
theorem once_script_recorded_after_attempt (name : String) (taskConfig : PowerShellTask)
    (calls : ScriptCalls) (st : ScriptState) (hread : calls.readConfig = none)
    (honce : taskConfig.RunConfig = "once")
    (hnew : taskConfig.ID ∉ stringsSplit (ReadConfig.scriptsRun st).ScriptsRun ',') :
    (scriptIteration name taskConfig calls st).ran = st.ran ++ [taskConfig] ∧
      (scriptIteration name taskConfig calls st).ScriptsRun =
        stringsJoin (stringsSplit (ReadConfig.scriptsRun st).ScriptsRun ',' ++
          [taskConfig.ID]) ',' ∧
      (calls.writeConfig = WriteOutcome.saved →
        (scriptIteration name taskConfig calls st).iniScriptsRun =
          some (scriptIteration name taskConfig calls st).ScriptsRun) ∧
      (∀ err, calls.execute = some err → calls.writeConfig = WriteOutcome.saved →
        (scriptIteration name taskConfig calls st).errData =
          appendErr (ReadConfig.scriptsRun st).errData name err) := by
  have hr := ReadConfig.scriptsRun_fields st
  have he := executeScript_fields calls.execute name taskConfig (ReadConfig.scriptsRun st)
  refine ⟨?_, ?_, ?_, ?_⟩
  · cases hwc : calls.writeConfig <;>
      simp [scriptIteration, hread, honce, hnew, hwc, WriteConfig, he.1, hr.1]
  · cases hwc : calls.writeConfig <;>
      simp [scriptIteration, hread, honce, hnew, hwc, WriteConfig, he.2.1]
  · intro hwc
    simp [scriptIteration, hread, honce, hnew, hwc, WriteConfig]
  · intro err hex hwc
    simp [scriptIteration, hread, honce, hnew, hwc, WriteConfig, executeScript, hex]

/-- Witness of C7 (amended): the failing script `s1` on a fresh agent. -/
theorem once_script_recorded_after_attempt_witness :
    (scriptIteration "n" (sampleOnce "s1") callsExecuteFails sampleScriptState).ScriptsRun =
      stringsJoin (stringsSplit (ReadConfig.scriptsRun sampleScriptState).ScriptsRun ',' ++
        ["s1"]) ',' :=
  (once_script_recorded_after_attempt "n" (sampleOnce "s1") callsExecuteFails
    sampleScriptState rfl rfl (by decide)).2.1

/-! ## The JSON codec reads back what it writes -/

theorem hexValue_hexDigit (d : Nat) (h : d < 16) : hexValue (hexDigit d) = some d := by
  interval_cases d <;> decide

theorem unicodeChar_toNat (c : Char) (h : c.toNat < 55296) : unicodeChar c.toNat = c := by
  unfold unicodeChar
  rw [if_neg (by omega)]
  exact Char.ofNat_toNat c

theorem jsonScan_unicode_digit (acc : List Char) (value k : Nat) (c : Char) (cs : List Char)
    (d : Nat) (hd : hexValue c = some d) :
    jsonScan (c :: cs) (.inUnicode acc value (k + 2)) =
      jsonScan cs (.inUnicode acc (16 * value + d) (k + 1)) := by
  simp [jsonScan, jsonScanUnicode, hd]

theorem jsonScan_unicode_last (acc : List Char) (value : Nat) (c : Char) (cs : List Char)
    (d : Nat) (hd : hexValue c = some d) :
    jsonScan (c :: cs) (.inUnicode acc value 1) =
      jsonScan cs (.inString (acc ++ [unicodeChar (16 * value + d)])) := by
  simp [jsonScan, jsonScanUnicode, hd]

theorem jsonScan_inString_escapeChar (c : Char) (acc rest : List Char) :
    jsonScan (escapeChar c ++ rest) (.inString acc) = jsonScan rest (.inString (acc ++ [c])) := by
  unfold escapeChar
  by_cases h1 : c = '\x22'
  · subst h1
    simp [jsonScan, jsonScanString, jsonScanEscape]
  rw [if_neg h1]
  by_cases h2 : c = '\x5c'
  · subst h2
    simp [jsonScan, jsonScanString, jsonScanEscape]
  rw [if_neg h2]
  by_cases h3 : c = '\n'
  · subst h3
    simp [jsonScan, jsonScanString, jsonScanEscape]
  rw [if_neg h3]
  by_cases h4 : c = '\r'
  · subst h4
    simp [jsonScan, jsonScanString, jsonScanEscape]
  rw [if_neg h4]
  by_cases h5 : c = '\t'
  · subst h5
    simp [jsonScan, jsonScanString, jsonScanEscape]
  rw [if_neg h5]
  by_cases h6 : unicodeEscaped c = true
  · have hlt : c.toNat < 8234 := by
      simp only [unicodeEscaped, Bool.or_eq_true, decide_eq_true_eq] at h6
      rcases h6 with ((((h | h) | h) | h) | h) | h
      · omega
      · subst h; decide
      · subst h; decide
      · subst h; decide
      · omega
      · omega
    have e1 := hexValue_hexDigit (c.toNat / 4096 % 16) (Nat.mod_lt _ (by decide))
    have e2 := hexValue_hexDigit (c.toNat / 256 % 16) (Nat.mod_lt _ (by decide))
    have e3 := hexValue_hexDigit (c.toNat / 16 % 16) (Nat.mod_lt _ (by decide))
    have e4 := hexValue_hexDigit (c.toNat % 16) (Nat.mod_lt _ (by decide))
    have hval : 16 * (16 * (16 * (16 * 0 + c.toNat / 4096 % 16) + c.toNat / 256 % 16) +
        c.toNat / 16 % 16) + c.toNat % 16 = c.toNat := by omega
    rw [if_pos h6]
    have hstart : jsonScan ('\x5c' :: 'u' :: hexDigit (c.toNat / 4096 % 16) ::
        hexDigit (c.toNat / 256 % 16) :: hexDigit (c.toNat / 16 % 16) ::
        hexDigit (c.toNat % 16) :: rest) (.inString acc) =
        jsonScan (hexDigit (c.toNat / 4096 % 16) ::
        hexDigit (c.toNat / 256 % 16) :: hexDigit (c.toNat / 16 % 16) ::
        hexDigit (c.toNat % 16) :: rest) (.inUnicode acc 0 4) := by
      simp [jsonScan, jsonScanString, jsonScanEscape]
    show jsonScan ('\x5c' :: 'u' :: hexDigit (c.toNat / 4096 % 16) ::
      hexDigit (c.toNat / 256 % 16) :: hexDigit (c.toNat / 16 % 16) ::
      hexDigit (c.toNat % 16) :: rest) (.inString acc) = _
    rw [hstart, jsonScan_unicode_digit _ _ _ _ _ _ e1, jsonScan_unicode_digit _ _ _ _ _ _ e2,
      jsonScan_unicode_digit _ _ _ _ _ _ e3, jsonScan_unicode_last _ _ _ _ _ e4, hval,
      unicodeChar_toNat c (by omega)]
  · have hge : ¬ c.toNat < 32 := by
      intro hlt
      apply h6
      simp [unicodeEscaped, hlt]
    rw [if_neg h6]
    simp [jsonScan, jsonScanString, h1, h2, hge]

theorem jsonScan_inString (s acc rest : List Char) :
    jsonScan (s.flatMap escapeChar ++ '\x22' :: rest) (.inString acc) =
      (jsonScan rest .start).map (JSONToken.str (acc ++ s) :: ·) := by
  induction s generalizing acc with
  | nil => simp [jsonScan, jsonScanString]
  | cons c cs ih =>
    rw [List.flatMap_cons, List.append_assoc, jsonScan_inString_escapeChar, ih,
      List.append_assoc, List.singleton_append]

theorem jsonScan_quote (s rest : List Char) :
    jsonScan (jsonQuote s ++ rest) .start = (jsonScan rest .start).map (JSONToken.str s :: ·) := by
  have h := jsonScan_inString s [] rest
  rw [List.nil_append] at h
  simp [jsonQuote, jsonScan, jsonScanStart, jsonWhite, h]

theorem digitChar_isDigit (d : Nat) (h : d < 10) : (digitChar d).isDigit = true := by
  interval_cases d <;> decide

theorem digitChar_value (d : Nat) (h : d < 10) : (digitChar d).toNat - 48 = d := by
  interval_cases d <;> decide

theorem digitChar_ne_minus (d : Nat) (h : d < 10) : digitChar d ≠ '-' := by
  interval_cases d <;> decide

theorem parseDigits_digitChar (d : Nat) (h : d < 10) (cs : List Char) (acc : Nat) :
    parseDigits (digitChar d :: cs) acc = parseDigits cs (10 * acc + d) := by
  have hz : '0'.toNat = 48 := by decide
  rw [parseDigits, if_pos (digitChar_isDigit d h), hz, digitChar_value d h]

theorem parseDigits_decimalTextAux (fuel : Nat) :
    ∀ (n : Nat) (acc : List Char), n < fuel →
      parseDigits (decimalTextAux fuel n acc) 0 = parseDigits acc n := by
  induction fuel with
  | zero => intro n acc h; omega
  | succ fuel ih =>
    intro n acc h
    unfold decimalTextAux
    by_cases h10 : n < 10
    · rw [if_pos h10, parseDigits_digitChar n h10]
      simp
    · rw [if_neg h10, ih (n / 10) _ (by omega),
        parseDigits_digitChar (n % 10) (Nat.mod_lt _ (by decide))]
      congr 1
      omega

theorem decimalTextAux_head (fuel : Nat) :
    ∀ (n : Nat) (acc : List Char), n < fuel →
      ∃ d cs, d < 10 ∧ decimalTextAux fuel n acc = digitChar d :: cs := by
  induction fuel with
  | zero => intro n acc h; omega
  | succ fuel ih =>
    intro n acc h
    unfold decimalTextAux
    by_cases h10 : n < 10
    · rw [if_pos h10]
      exact ⟨n, acc, h10, rfl⟩
    · rw [if_neg h10]
      exact ih (n / 10) _ (by omega)

theorem parseDigits_decimalText (n : Nat) : parseDigits (decimalText n) 0 = some n := by
  unfold decimalText
  rw [parseDigits_decimalTextAux (n + 1) n [] (by omega)]
  rfl

theorem parseTime_decimalText (n : Nat) : parseTime (decimalText n) = some (n : Int) := by
  obtain ⟨d, cs, hd, hcs⟩ := decimalTextAux_head (n + 1) n [] (by omega)
  have hparse := parseDigits_decimalText n
  unfold decimalText at hparse ⊢
  rw [hcs] at hparse ⊢
  simp [parseTime, digitChar_ne_minus d hd, hparse]

theorem decimalText_ne_nil (n : Nat) : decimalText n ≠ [] := by
  obtain ⟨d, cs, _, hcs⟩ := decimalTextAux_head (n + 1) n [] (by omega)
  unfold decimalText
  rw [hcs]
  simp

theorem parseTime_formatTime (t : Time) : parseTime (formatTime t) = some t := by
  unfold formatTime
  by_cases h : t < 0
  · have hneg : parseTime ('-' :: decimalText t.natAbs) = some (-(t.natAbs : Int)) := by
      rw [parseTime, if_pos rfl, if_neg (decimalText_ne_nil _), parseDigits_decimalText]
      rfl
    rw [if_pos h, hneg, Int.ofNat_natAbs_of_nonpos (le_of_lt h), neg_neg]
  · rw [if_neg h, parseTime_decimalText, Int.natAbs_of_nonneg (not_lt.mp h)]

theorem jsonScan_white (c : Char) (rest : List Char) (h : jsonWhite c = true) :
    jsonScan (c :: rest) .start = jsonScan rest .start := by
  simp [jsonScan, jsonScanStart, h]

theorem jsonScan_spaces (n : Nat) (rest : List Char) :
    jsonScan (List.replicate n ' ' ++ rest) .start = jsonScan rest .start := by
  induction n with
  | zero => rfl
  | succ n ih =>
    rw [List.replicate_succ, List.cons_append, jsonScan_white _ _ (by decide), ih]

theorem jsonScan_indent (depth : Nat) (rest : List Char) :
    jsonScan (jsonIndent depth ++ rest) .start = jsonScan rest .start := by
  unfold jsonIndent
  rw [List.cons_append, jsonScan_white _ _ (by decide), jsonScan_spaces]

theorem jsonScan_lbrace (rest : List Char) :
    jsonScan ('\x7b' :: rest) .start = (jsonScan rest .start).map (JSONToken.lbrace :: ·) := by
  simp [jsonScan, jsonScanStart, jsonWhite]

theorem jsonScan_rbrace (rest : List Char) :
    jsonScan ('\x7d' :: rest) .start = (jsonScan rest .start).map (JSONToken.rbrace :: ·) := by
  simp [jsonScan, jsonScanStart, jsonWhite]

theorem jsonScan_lbracket (rest : List Char) :
    jsonScan ('[' :: rest) .start = (jsonScan rest .start).map (JSONToken.lbracket :: ·) := by
  simp [jsonScan, jsonScanStart, jsonWhite]

theorem jsonScan_rbracket (rest : List Char) :
    jsonScan (']' :: rest) .start = (jsonScan rest .start).map (JSONToken.rbracket :: ·) := by
  simp [jsonScan, jsonScanStart, jsonWhite]

theorem jsonScan_comma (rest : List Char) :
    jsonScan (',' :: rest) .start = (jsonScan rest .start).map (JSONToken.comma :: ·) := by
  simp [jsonScan, jsonScanStart, jsonWhite]

theorem jsonScan_member (key : String) (value rest : List Char) :
    jsonScan (jsonMember key value ++ rest) .start =
      (jsonScan (value ++ rest) .start).map (fun ts => JSONToken.str key.data :: JSONToken.colon :: ts) := by
  unfold jsonMember
  rw [List.append_assoc, jsonScan_quote]
  have h : jsonScan ((':' :: ' ' :: value) ++ rest) .start =
      (jsonScan (value ++ rest) .start).map (JSONToken.colon :: ·) := by
    simp [jsonScan, jsonScanStart, jsonWhite]
  rw [h]
  cases jsonScan (value ++ rest) .start <;> rfl

theorem jsonScan_bool (b : Bool) (rest : List Char) :
    jsonScan (encodeBool b ++ rest) .start = (jsonScan rest .start).map (boolToken b :: ·) := by
  cases b <;> simp [encodeBool, boolToken, jsonScan, jsonScanStart, jsonScanLiteral, jsonWhite]

theorem jsonScan_action (a : DeployAction) (rest : List Char) :
    jsonScan (encodeAction a ++ rest) .start = (jsonScan rest .start).map (actionTokens a ++ ·) := by
  unfold encodeAction
  simp only [List.cons_append, List.append_assoc, List.nil_append, jsonScan_lbrace, jsonScan_indent,
    jsonScan_member, jsonScan_quote, jsonScan_comma, jsonScan_bool, jsonScan_rbrace]
  cases jsonScan rest .start <;> rfl

theorem jsonScan_elements (actions : List DeployAction) (rest : List Char) :
    jsonScan (encodeElements actions ++ rest) .start =
      (jsonScan rest .start).map (elementTokens actions ++ ·) := by
  induction actions with
  | nil => simp [encodeElements, elementTokens]
  | cons a l ih =>
    unfold encodeElements elementTokens
    by_cases hl : l = []
    · simp only [hl, if_true, List.append_nil, List.append_assoc, jsonScan_indent, jsonScan_action]
    · simp only [hl, if_false, List.append_assoc, List.cons_append, jsonScan_indent, jsonScan_action,
        jsonScan_comma, ih]
      cases jsonScan rest .start <;> simp

theorem jsonScan_jsonMarshalIndent (j : JSONActions) :
    jsonScan (jsonMarshalIndent j).data .start = some (documentTokens j) := by
  unfold jsonMarshalIndent encodeArray documentTokens
  by_cases h : j.Actions = []
  · simp only [h, if_true, List.cons_append, List.append_assoc, List.nil_append, jsonScan_lbrace,
      jsonScan_indent, jsonScan_member, jsonScan_lbracket, jsonScan_rbracket, jsonScan_rbrace, elementTokens]
    rfl
  · simp only [h, if_false, List.cons_append, List.append_assoc, List.nil_append, jsonScan_lbrace,
      jsonScan_indent, jsonScan_member, jsonScan_lbracket, jsonScan_rbracket, jsonScan_rbrace, jsonScan_elements]
    simp [jsonScan]

theorem assignMember_bool (cur : DeployAction) (b : Bool) :
    assignMember cur "Failed".data (boolToken b) = some { cur with Failed := b } := by
  cases b <;> rfl

theorem parse_action (a : DeployAction) (rest : List JSONToken) (st : JSONParseState)
    (done : List DeployAction) (cur : DeployAction)
    (hst : st = .elementOrEnd ∨ st = .element) :
    parseActions (actionTokens a ++ rest) st done cur =
      parseActions rest .afterElement (done ++ [a]) DeployAction.zero := by
  have h1 : ∀ c s, assignMember c "AgentId".data (.str s) = some { c with AgentId := String.mk s } :=
    fun _ _ => rfl
  have h2 : ∀ c s, assignMember c "PackageId".data (.str s) =
      some { c with PackageId := String.mk s } := fun _ _ => rfl
  have h3 : ∀ c s, assignMember c "PackageName".data (.str s) =
      some { c with PackageName := String.mk s } := fun _ _ => rfl
  have h4 : ∀ c s, assignMember c "Action".data (.str s) = some { c with Action := String.mk s } :=
    fun _ _ => rfl
  have h5 : ∀ c, assignMember c "When".data (.str (formatTime a.When)) =
      some { c with When := a.When } := by
    intro c
    show (parseTime (formatTime a.When)).map _ = _
    rw [parseTime_formatTime]
    rfl
  rcases hst with h | h <;> subst h <;>
    simp only [actionTokens, List.cons_append, List.nil_append, parseActions, parseToken, h1,
      h2, h3, h4, h5] <;>
    (cases a with
     | mk a1 a2 a3 a4 a5 a6 => cases a6 <;> rfl)

theorem parse_comma_afterElement (rest : List JSONToken) (done : List DeployAction)
    (cur : DeployAction) :
    parseActions (.comma :: rest) .afterElement done cur =
      parseActions rest .element done DeployAction.zero := rfl

theorem parse_rbracket_afterElement (rest : List JSONToken) (done : List DeployAction)
    (cur : DeployAction) :
    parseActions (.rbracket :: rest) .afterElement done cur = some (done, rest) := rfl

theorem parse_elements (l : List DeployAction) :
    ∀ (a : DeployAction) (rest : List JSONToken) (st : JSONParseState) (done : List DeployAction)
      (cur : DeployAction), st = .elementOrEnd ∨ st = .element →
      parseActions (elementTokens (a :: l) ++ .rbracket :: rest) st done cur =
        some (done ++ a :: l, rest) := by
  induction l with
  | nil =>
    intro a rest st done cur hst
    simp only [elementTokens, if_true, List.append_nil]
    rw [parse_action a _ st done cur hst, parse_rbracket_afterElement]
  | cons b l ih =>
    intro a rest st done cur hst
    have hne : (b :: l) ≠ [] := by simp
    rw [elementTokens, if_neg hne, List.append_assoc, parse_action a _ st done cur hst,
      List.cons_append, parse_comma_afterElement,
      ih b rest .element (done ++ [a]) DeployAction.zero (Or.inr rfl)]
    simp

theorem parseDocument_documentTokens (j : JSONActions) :
    parseDocument (documentTokens j) = some j.Actions := by
  cases hj : j.Actions with
  | nil =>
    simp only [documentTokens, hj, elementTokens, List.append_nil, List.cons_append,
      List.nil_append]
    rfl
  | cons a l =>
    have h := parse_elements l a [.rbrace] .elementOrEnd [] DeployAction.zero (Or.inl rfl)
    simp only [documentTokens, hj, List.cons_append, List.nil_append, List.append_assoc]
    simp only [List.nil_append] at h
    have h' : parseActions (elementTokens (a :: l) ++ [JSONToken.rbracket, JSONToken.rbrace])
        .elementOrEnd [] DeployAction.zero = some (a :: l, [JSONToken.rbrace]) := h
    simp [parseDocument, h']

theorem jsonUnmarshal_jsonMarshalIndent (j : JSONActions) :
    jsonUnmarshal (jsonMarshalIndent j) = .ok j := by
  unfold jsonUnmarshal
  rw [jsonScan_jsonMarshalIndent]
  simp only [parseDocument_documentTokens]

theorem jsonMarshalIndent_ne_empty (j : JSONActions) : jsonMarshalIndent j ≠ "" := by
  unfold jsonMarshalIndent
  intro h
  exact absurd (congrArg String.data h) (by simp)

/-! ## The pending-ack file and `SendDeployResult` -/

theorem len_pos_iff (s : String) : 0 < len s ↔ s ≠ "" := by
  cases s with
  | mk data =>
    cases data with
    | nil => simp [len, String.length]
    | cons c cs =>
      simp only [len, String.length, List.length_cons, Nat.zero_lt_succ, true_iff]
      intro h
      exact absurd (congrArg String.data h) (by simp)

theorem sampleEnv_diskHealthy (queue : List DeployAction) (failing : List String) :
    (sampleEnv queue failing).diskHealthy :=
  ⟨rfl, rfl, rfl, rfl, rfl⟩

theorem len_jsonMarshalIndent_pos (j : JSONActions) : 0 < len (jsonMarshalIndent j) :=
  (len_pos_iff _).mpr (jsonMarshalIndent_ne_empty j)

theorem jsonEnv_jsonCodec (create write : Option GoError) : (jsonEnv create write).jsonCodec :=
  ⟨rfl, rfl⟩

theorem holdsQueue_jsonMarshalIndent (L : List DeployAction) :
    holdsQueue (jsonMarshalIndent { Actions := L }) L :=
  Or.inr ⟨jsonMarshalIndent_ne_empty _, jsonUnmarshal_jsonMarshalIndent _⟩

theorem ReadDeploymentNotACK_holdsQueue (env : Env) (disk : String) (L : List DeployAction)
    (hc : env.jsonCodec) (h1 : env.getwd = none) (h2 : env.openFile = none)
    (h3 : env.readAll = none) (hq : holdsQueue disk L) :
    ReadDeploymentNotACK env disk = .ok L := by
  rcases hq with ⟨hd, hL⟩ | ⟨hd, hu⟩
  · subst hd hL
    simp [ReadDeploymentNotACK, h1, h2, h3, len]
  · have hlen : 0 < len disk := (len_pos_iff disk).mpr hd
    simp [ReadDeploymentNotACK, h1, h2, h3, hlen, hc.2, hu]

/-- C8, counterexample: when the write fails (here on a full disk),
`SaveDeploymentsNotACK` returns the error, the file truncated by `os.Create`
is left empty, and `ReadDeploymentNotACK` then returns the empty queue, not
the list that was saved. -/
theorem save_fails_when_write_fails :
    SaveDeploymentsNotACK (jsonEnv none (some "no space left on device"))
        [sampleAction "a"] "" = (some "no space left on device", "") ∧
      ReadDeploymentNotACK (jsonEnv none (some "no space left on device"))
        (SaveDeploymentsNotACK (jsonEnv none (some "no space left on device"))
          [sampleAction "a"] "").2 = .ok [] := by
  constructor <;> rfl

/-- C8, amended: with the JSON codec, for every ordered list `L` and every
previous content of the file.  When the file operations succeed,
`SaveDeploymentsNotACK L` writes the indented JSON of `L` and
`ReadDeploymentNotACK` then succeeds and returns `L`, element by element and
in the same order.  When `Getwd` or `os.Create` fails, `SaveDeploymentsNotACK`
returns the error and leaves the file as it was; when the write fails, it
returns the error and leaves the file empty. -/
theorem save_then_read_roundtrip (env : Env) (L : List DeployAction) (disk : String)
    (hc : env.jsonCodec) :
    (env.diskHealthy →
      SaveDeploymentsNotACK env L disk = (none, jsonMarshalIndent { Actions := L }) ∧
      ReadDeploymentNotACK env (SaveDeploymentsNotACK env L disk).2 = .ok L) ∧
    (∀ err, env.getwd = some err → SaveDeploymentsNotACK env L disk = (some err, disk)) ∧
    (∀ err, env.getwd = none → env.create = some err →
      SaveDeploymentsNotACK env L disk = (some err, disk)) ∧
    (∀ err, env.getwd = none → env.create = none → env.write = some err →
      SaveDeploymentsNotACK env L disk = (some err, "")) := by
  refine ⟨?_, ?_, ?_, ?_⟩
  · intro hd
    obtain ⟨h1, h2, h3, h4, h5⟩ := hd
    have hsave : SaveDeploymentsNotACK env L disk =
        (none, jsonMarshalIndent { Actions := L }) := by
      simp [SaveDeploymentsNotACK, h1, h4, h5, hc.1]
    refine ⟨hsave, ?_⟩
    rw [hsave]
    exact ReadDeploymentNotACK_holdsQueue env _ L hc h1 h2 h3 (holdsQueue_jsonMarshalIndent L)
  · intro err h1
    simp [SaveDeploymentsNotACK, h1]
  · intro err h1 h4
    simp [SaveDeploymentsNotACK, h1, h4]
  · intro err h1 h4 h5
    simp [SaveDeploymentsNotACK, h1, h4, h5, hc.1]

/-- The amended C8 at the queue `[a, b]`, saved over an old content on a
working disk. -/
theorem save_then_read_roundtrip_witness :
    SaveDeploymentsNotACK (jsonEnv none none) [sampleAction "a", sampleAction "b"] "old" =
        (none, jsonMarshalIndent { Actions := [sampleAction "a", sampleAction "b"] }) ∧
      ReadDeploymentNotACK (jsonEnv none none)
        (SaveDeploymentsNotACK (jsonEnv none none)
          [sampleAction "a", sampleAction "b"] "old").2 =
        .ok [sampleAction "a", sampleAction "b"] :=
  (save_then_read_roundtrip (jsonEnv none none) [sampleAction "a", sampleAction "b"] "old"
    (jsonEnv_jsonCodec none none)).1 ⟨rfl, rfl, rfl, rfl, rfl⟩

/-- C9, counterexample: the file holds the valid queue `[a]` and the write
fails (here on a full disk).  `SaveDeploymentNotACK b` returns the error and
the file, truncated by `os.Create`, is left empty: it holds neither `[a, b]`
nor the existing entry `a`. -/
theorem append_loses_queue_when_write_fails :
    holdsQueue (jsonMarshalIndent { Actions := [sampleAction "a"] }) [sampleAction "a"] ∧
      SaveDeploymentNotACK (jsonEnv none (some "no space left on device")) (sampleAction "b")
        (jsonMarshalIndent { Actions := [sampleAction "a"] }) =
        (some "no space left on device", "") := by
  refine ⟨holdsQueue_jsonMarshalIndent _, ?_⟩
  simp [SaveDeploymentNotACK, SaveDeploymentsNotACK, jsonEnv, len_jsonMarshalIndent_pos,
    jsonUnmarshal_jsonMarshalIndent]

/-- C9, amended: with the JSON codec, for every action `a` and every content
of the pending-ack file.  When the file is empty or holds a valid queue `L`
and the file operations succeed, `SaveDeploymentNotACK a` leaves the file
holding `L` followed by `a`.  When the content is not empty and is not valid
JSON, it returns the decoding error and leaves the file unchanged.  When
`Getwd`, the opening or the reading of the file, or `os.Create` fails, it
returns the error and leaves the file unchanged.  When the write fails after
`os.Create` truncated the file, it returns the error and leaves the file
empty: the existing entries are lost. -/
theorem SaveDeploymentNotACK_appends (env : Env) (a : DeployAction) (disk : String)
    (hc : env.jsonCodec) :
    (∀ L, holdsQueue disk L → env.diskHealthy →
      SaveDeploymentNotACK env a disk = (none, jsonMarshalIndent { Actions := L ++ [a] }) ∧
      holdsQueue (SaveDeploymentNotACK env a disk).2 (L ++ [a])) ∧
    (∀ err, disk ≠ "" → jsonUnmarshal disk = .error err → env.getwd = none →
      env.openFile = none → env.readAll = none →
      SaveDeploymentNotACK env a disk = (some err, disk)) ∧
    (∀ err, env.getwd = some err ∨ (env.getwd = none ∧ env.openFile = some err) ∨
        (env.getwd = none ∧ env.openFile = none ∧ env.readAll = some err) →
      SaveDeploymentNotACK env a disk = (some err, disk)) ∧
    (∀ L err, holdsQueue disk L → env.getwd = none → env.openFile = none →
      env.readAll = none → env.create = some err →
      SaveDeploymentNotACK env a disk = (some err, disk)) ∧
    (∀ L err, holdsQueue disk L → env.getwd = none → env.openFile = none →
      env.readAll = none → env.create = none → env.write = some err →
      SaveDeploymentNotACK env a disk = (some err, "")) := by
  have hstep : ∀ L, holdsQueue disk L → env.getwd = none → env.openFile = none →
      env.readAll = none →
      SaveDeploymentNotACK env a disk = SaveDeploymentsNotACK env (L ++ [a]) disk := by
    intro L hq h1 h2 h3
    rcases hq with ⟨hd, hL⟩ | ⟨hd, hu⟩
    · subst hd hL
      simp [SaveDeploymentNotACK, h1, h2, h3, len]
    · have hlen : 0 < len disk := (len_pos_iff disk).mpr hd
      simp [SaveDeploymentNotACK, h1, h2, h3, hlen, hc.2, hu]
  refine ⟨?_, ?_, ?_, ?_, ?_⟩
  · intro L hq hd
    obtain ⟨h1, h2, h3, h4, h5⟩ := hd
    have hsave : SaveDeploymentNotACK env a disk =
        (none, jsonMarshalIndent { Actions := L ++ [a] }) := by
      rw [hstep L hq h1 h2 h3]
      simp [SaveDeploymentsNotACK, h1, h4, h5, hc.1]
    refine ⟨hsave, ?_⟩
    rw [hsave]
    exact holdsQueue_jsonMarshalIndent _
  · intro err hd hu h1 h2 h3
    have hlen : 0 < len disk := (len_pos_iff disk).mpr hd
    simp [SaveDeploymentNotACK, h1, h2, h3, hlen, hc.2, hu]
  · intro err h
    rcases h with h1 | ⟨h1, h2⟩ | ⟨h1, h2, h3⟩
    · simp [SaveDeploymentNotACK, h1]
    · simp [SaveDeploymentNotACK, h1, h2]
    · simp [SaveDeploymentNotACK, h1, h2, h3]
  · intro L err hq h1 h2 h3 h4
    rw [hstep L hq h1 h2 h3]
    simp [SaveDeploymentsNotACK, h1, h4]
  · intro L err hq h1 h2 h3 h4 h5
    rw [hstep L hq h1 h2 h3]
    simp [SaveDeploymentsNotACK, h1, h4, h5, hc.1]

/-- The amended C9 at a file that holds `[a]`, to which `b` is appended on a
working disk. -/
theorem SaveDeploymentNotACK_appends_witness :
    SaveDeploymentNotACK (jsonEnv none none) (sampleAction "b")
        (jsonMarshalIndent { Actions := [sampleAction "a"] }) =
        (none, jsonMarshalIndent { Actions := [sampleAction "a"] ++ [sampleAction "b"] }) ∧
      holdsQueue
        (SaveDeploymentNotACK (jsonEnv none none) (sampleAction "b")
          (jsonMarshalIndent { Actions := [sampleAction "a"] })).2
        ([sampleAction "a"] ++ [sampleAction "b"]) :=
  (SaveDeploymentNotACK_appends (jsonEnv none none) (sampleAction "b")
    (jsonMarshalIndent { Actions := [sampleAction "a"] }) (jsonEnv_jsonCodec none none)).1
    [sampleAction "a"] (holdsQueue_jsonMarshalIndent _) ⟨rfl, rfl, rfl, rfl, rfl⟩

/-- C10: `SendDeployResult` returns nil exactly when the action was marshalled,
the request succeeded and the reply payload is empty; it returns the request's
error when the request fails, and an error whose text is the payload when the
request succeeds with a non-empty payload. -/
theorem SendDeployResult_nil_iff (env : Env) (r : DeployAction) :
    (SendDeployResult env r = none ↔
        ∃ data, env.marshal r = .ok data ∧ env.request "deployresult" data = .ok "") ∧
      (∀ data err, env.marshal r = .ok data →
        env.request "deployresult" data = .error err → SendDeployResult env r = some err) ∧
      (∀ data payload, env.marshal r = .ok data →
        env.request "deployresult" data = .ok payload → payload ≠ "" →
        SendDeployResult env r = some payload) := by
  refine ⟨?_, ?_, ?_⟩
  · constructor
    · intro h
      cases hm : env.marshal r with
      | error err => simp [SendDeployResult, hm] at h
      | ok data =>
        cases hq : env.request "deployresult" data with
        | error err => simp [SendDeployResult, hm, hq] at h
        | ok payload =>
          by_cases hp : 0 < len payload
          · simp [SendDeployResult, hm, hq, hp] at h
          · have : payload = "" := by
              by_contra hne
              exact hp ((len_pos_iff payload).mpr hne)
            exact ⟨data, rfl, this ▸ hq⟩
    · rintro ⟨data, hm, hq⟩
      have : ¬ 0 < len "" := by decide
      simp [SendDeployResult, hm, hq, this]
  · intro data err hm hq
    simp [SendDeployResult, hm, hq]
  · intro data payload hm hq hne
    have hp : 0 < len payload := (len_pos_iff payload).mpr hne
    simp [SendDeployResult, hm, hq, hp]

/-- Witness of C10: a backend that times out on the payload `"p.X"`. -/
theorem SendDeployResult_nil_iff_witness :
    SendDeployResult (sampleEnv [] ["p.X"]) (sampleAction "p.X") = some "timeout" :=
  (SendDeployResult_nil_iff (sampleEnv [] ["p.X"]) (sampleAction "p.X")).2.1 "p.X" "timeout"
    rfl rfl

/-! ## Verification, error text and order of the reconciliation cycle -/

theorem deploymentReports_append (xs ys : List CycleEvent) :
    deploymentReports (xs ++ ys) = deploymentReports xs ++ deploymentReports ys := by
  induction xs with
  | nil => rfl
  | cons e rest ih => cases e <;> simp [deploymentReports, ih]

/-- C12, counterexample: with `pkg.A` and `pkg.B` declared present and
installed and `pkg.C` declared absent and not installed, a second verification
of the same configuration on the same installed state (later, against a
backend that now times out) sends the same three deployment reports again. -/
theorem second_verification_reports_again :
    deploymentReports
        (CheckIfCfgPackagesInstalled (sampleEnv [] []) "agent-1" 1 "package"
          (fun d => d != "pkg.C") sampleResources).events =
        [("pkg.A", "pkg.A", "install"), ("pkg.B", "pkg.B", "install"),
          ("pkg.C", "pkg.C", "uninstall")] ∧
      deploymentReports
        (CheckIfCfgPackagesInstalled (sampleEnv [] ["pkg.A", "pkg.B", "pkg.C"]) "agent-1" 2
          "package" (fun d => d != "pkg.C") sampleResources).events =
        [("pkg.A", "pkg.A", "install"), ("pkg.B", "pkg.B", "install"),
          ("pkg.C", "pkg.C", "uninstall")] := by
  constructor <;> decide

/-- C12, amended: the verification keeps no record of what it reported.  Run
twice on the same configuration and the same installed state, at any two
times and whatever the backend answers, it sends the same deployment reports
in the same order and ends the same way. -/
theorem verification_repeats_reports (env1 env2 : Env) (uuid : String) (now1 now2 : Time)
    (pkg : String) (installed : String → Bool) (resources : List WinGetResource) :
    deploymentReports
        (CheckIfCfgPackagesInstalled env2 uuid now2 pkg installed resources).events =
      deploymentReports
        (CheckIfCfgPackagesInstalled env1 uuid now1 pkg installed resources).events ∧
      (CheckIfCfgPackagesInstalled env2 uuid now2 pkg installed resources).panicked =
        (CheckIfCfgPackagesInstalled env1 uuid now1 pkg installed resources).panicked := by
  induction resources with
  | nil => simp [CheckIfCfgPackagesInstalled]
  | cons r rest ih =>
    by_cases hk : r.Resource = pkg
    · cases hid : assertString (mapIndex r.Settings "id") with
      | none => simp [CheckIfCfgPackagesInstalled, hk, hid]
      | some packageID =>
        cases hens : assertString (mapIndex r.Settings "Ensure") with
        | none => simp [CheckIfCfgPackagesInstalled, hk, hid, hens]
        | some ensure =>
          by_cases hp : ensure = "Present" <;> cases hi : installed packageID <;>
            simp [CheckIfCfgPackagesInstalled, hk, hid, hens, hp, hi, Verification.after,
              deploymentReports, ih.1, ih.2]
    · simp [CheckIfCfgPackagesInstalled, hk, ih.1, ih.2]

/-- C13: the executor's diagnostic output replaces the accumulated script
errors.  With one script `s` whose execution fails and an executor that fails
with the log `boom`, the script loop leaves
`errData = "s: could not execute powershell script"`, and the text reported to
the backend is `", boom"`: the entry of the failed script is gone. -/
theorem executor_failure_drops_script_errors :
    (ApplyConfiguration.applyStage (sampleEnv [] []) "agent-1" 1 7 "package" "script"
        (fun _ => true) id (fun _ => callsExecuteFails) executorFails
        [sampleScript "s" "1", samplePackage "pkg.B" "Present"] sampleScriptState).scripts.errData =
        "s: could not execute powershell script" ∧
      (ApplyConfiguration.applyStage (sampleEnv [] []) "agent-1" 1 7 "package" "script"
        (fun _ => true) id (fun _ => callsExecuteFails) executorFails
        [sampleScript "s" "1", samplePackage "pkg.B" "Present"] sampleScriptState).events =
        [.executorRun (some "exit status 1"), .profileReport 7 "agent-1" false ", boom",
          .verify "pkg.B" true, .deploymentReport "pkg.B" "pkg.B" "install" none] ∧
      stringsContains ", boom" "s: could not execute powershell script" = false := by
  refine ⟨?_, ?_, ?_⟩ <;> decide

/-- C14: a package resource without `id` is a fault, not a skip.
`RemovePackagesFromCfg` with a non-empty exclusion list panics on it, and so
does `CheckIfCfgPackagesInstalled` (also on a package without `Ensure`), before
the remaining resources are processed; only `RemovePowershellScriptsFromCfg`
skips a script resource that lacks its keys and goes on. -/
theorem package_without_id_is_a_fault :
    RemovePackagesFromCfg "package" [packageWithoutId, samplePackage "pkg.B" "Present"]
        ["pkg.B"] = none ∧
      CheckIfCfgPackagesInstalled (sampleEnv [] []) "agent-1" 1 "package" (fun _ => true)
        [packageWithoutId, samplePackage "pkg.B" "Present"] =
        { events := [], panicked := true } ∧
      CheckIfCfgPackagesInstalled (sampleEnv [] []) "agent-1" 1 "package" (fun _ => true)
        [packageWithoutEnsure, samplePackage "pkg.B" "Present"] =
        { events := [], panicked := true } ∧
      RemovePowershellScriptsFromCfg "script"
        [sampleOther, sampleScript "s" "1", samplePackage "pkg.B" "Present"] =
        some ([("s", { ID := "1", Script := "exit 1", RunConfig := "once" })],
          [samplePackage "pkg.B" "Present"]) := by
  refine ⟨?_, ?_, ?_, ?_⟩ <;> decide

theorem Verification.after_isVerification (events : List CycleEvent) (rest : Verification)
    (h1 : ∀ e ∈ events, e.isVerification = true)
    (h2 : ∀ e ∈ rest.events, e.isVerification = true) :
    ∀ e ∈ (Verification.after events rest).events, e.isVerification = true := by
  intro e he
  simp only [Verification.after, List.mem_append] at he
  rcases he with he | he
  · exact h1 e he
  · exact h2 e he

theorem CheckIfCfgPackagesInstalled_events (env : Env) (uuid : String) (now : Time)
    (pkg : String) (installed : String → Bool) (resources : List WinGetResource) :
    ∀ e ∈ (CheckIfCfgPackagesInstalled env uuid now pkg installed resources).events,
      e.isVerification = true := by
  induction resources with
  | nil => simp [CheckIfCfgPackagesInstalled]
  | cons r rest ih =>
    by_cases hk : r.Resource = pkg
    · cases hid : assertString (mapIndex r.Settings "id") with
      | none => simp [CheckIfCfgPackagesInstalled, hk, hid]
      | some packageID =>
        cases hens : assertString (mapIndex r.Settings "Ensure") with
        | none => simp [CheckIfCfgPackagesInstalled, hk, hid, hens]
        | some ensure =>
          by_cases hp : ensure = "Present" <;> cases hi : installed packageID <;>
            simp only [CheckIfCfgPackagesInstalled, hk, hid, hens, hp, hi,
              if_true, if_false, Bool.not_true, Bool.not_false, Bool.false_eq_true] <;>
            exact Verification.after_isVerification _ _
              (by simp [CycleEvent.isVerification]) ih
    · simpa [CheckIfCfgPackagesInstalled, hk] using ih

/-- C15, counterexample: the profile outcome report is sent before the
packages are verified.  On a configuration with the package `pkg.B` the
events are: executor run, profile report, then the verification of `pkg.B`
and its deployment report. -/
theorem profile_report_sent_before_verification :
    (ApplyConfiguration.applyStage (sampleEnv [] []) "agent-1" 1 7 "package" "script"
        (fun _ => true) id (fun _ => callsOk) executorOk
        [samplePackage "pkg.B" "Present"] sampleScriptState).events =
      [.executorRun none, .profileReport 7 "agent-1" true "",
        .verify "pkg.B" true, .deploymentReport "pkg.B" "pkg.B" "install" none] := by
  decide

/-- C15, amended: within one `ApplyConfiguration` the order is apply, report
outcome, verify: whenever anything is observed at all, the executor run comes
first, the profile outcome report second, and every event after it belongs to
the per-package verification. -/
theorem apply_then_report_then_verify (env : Env) (uuid : String) (now : Time)
    (profileID : Int) (pkg powershell : String) (installed : String → Bool)
    (rangeOrder : List (String × PowerShellTask) → List (String × PowerShellTask))
    (scriptCalls : String → ScriptCalls) (executor : ExecutorCalls)
    (resources : List WinGetResource) (st : ScriptState) :
    (ApplyConfiguration.applyStage env uuid now profileID pkg powershell installed
        rangeOrder scriptCalls executor resources st).events = [] ∨
      ∃ success tail,
        (ApplyConfiguration.applyStage env uuid now profileID pkg powershell installed
          rangeOrder scriptCalls executor resources st).events =
          .executorRun executor.run ::
            .profileReport profileID uuid success
              (ApplyConfiguration.applyStage env uuid now profileID pkg powershell installed
                rangeOrder scriptCalls executor resources st).errData :: tail ∧
        ∀ e ∈ tail, e.isVerification = true := by
  unfold ApplyConfiguration.applyStage
  cases hrem : RemovePowershellScriptsFromCfg powershell resources with
  | none => left; rfl
  | some pair =>
    obtain ⟨scripts, resources1⟩ := pair
    by_cases hex : (scriptLoop scriptCalls (rangeOrder scripts)
        { st with errData := "" }).exited = true
    · left; simp [hex]
    · cases hw : executor.writeConfigFile with
      | some err => left; simp [hex, hw]
      | none =>
        right
        simp only [hex, hw, if_false, Bool.false_eq_true, List.cons_append, List.nil_append]
        exact ⟨_, _, rfl,
          CheckIfCfgPackagesInstalled_events env uuid now pkg installed resources1⟩

/-! ## The report job -/

theorem Run.andThen_returned (a : Agent) (trace : List AgentEvent) (next : Agent → Run) :
    Run.andThen { agent := a, trace := trace, ending := .returned } next =
      { agent := (next a).agent, trace := trace ++ (next a).trace,
        ending := (next a).ending } := rfl

theorem removeJob_fst (jobs : List Job) (id : Nat) :
    (removeJob jobs id).1 = jobs.filter fun j => j.id != id := by
  unfold removeJob
  by_cases h : jobs.any (fun j => j.id == id) = true
  · rw [if_pos h]
  · rw [if_neg h]
    symm
    apply List.filter_eq_self.mpr
    intro j hj
    simp only [bne_iff_ne, ne_eq]
    intro hid
    exact h (List.any_eq_true.mpr ⟨j, hj, by simpa using hid⟩)

theorem timeDuration_minutes (minutes : Int) (h0 : 0 ≤ minutes) (h1 : minutes ≤ 153722867) :
    timeDuration minutes = minutes * 60000000000 := by
  unfold timeDuration
  omega

theorem RescheduleReportRunTask_rescheduled (a : Agent) (id : Nat)
    (hjob : a.ReportJob = some id) :
    (RescheduleReportRunTask none a).ending = .returned ∧
      reportRescheduled a (RescheduleReportRunTask none a).agent
        (scheduledMinutes a.Config.ExecuteTaskEveryXMinutes) ∧
      (RescheduleReportRunTask none a).agent.ini = a.ini ∧
      (RescheduleReportRunTask none a).agent.Config.DefaultFrequency =
        a.Config.DefaultFrequency ∧
      (RescheduleReportRunTask none a).agent.Config.ExecuteTaskEveryXMinutes =
        scheduledMinutes a.Config.ExecuteTaskEveryXMinutes := by
  have hf := removeJob_fst a.jobs id
  by_cases h0 : a.Config.ExecuteTaskEveryXMinutes = 0
  · simp [RescheduleReportRunTask, hjob, Run.andThen, startReportJob, h0,
      reportRescheduled, scheduledMinutes, hf]
  · simp [RescheduleReportRunTask, hjob, Run.andThen, startReportJob, h0,
      reportRescheduled, scheduledMinutes, hf]

theorem GetRemoteConfig_keeps_jobs (outcome : RemoteConfigOutcome) (a : Agent) :
    (GetRemoteConfig outcome a).agent.ReportJob = a.ReportJob ∧
      (GetRemoteConfig outcome a).agent.nextJobID = a.nextJobID ∧
      (GetRemoteConfig outcome a).agent.jobs = a.jobs := by
  unfold GetRemoteConfig
  split
  · exact ⟨rfl, rfl, rfl⟩
  · exact ⟨rfl, rfl, rfl⟩
  · split <;> exact ⟨rfl, rfl, rfl⟩

theorem ReportTask_send_failed (calls : ReportCalls) (a : Agent) (id : Nat)
    (hjob : a.ReportJob = some id) (hreg : calls.regular) (err : GoError)
    (hs : calls.sendReport = some err) :
    (ReportTask calls a).ending = .returned ∧
      (ReportTask calls a).agent.Config.ExecuteTaskEveryXMinutes = SCHEDULETIME_5MIN ∧
      (ReportTask calls a).agent.ini.ExecuteTaskEveryXMinutes = SCHEDULETIME_5MIN ∧
      reportRescheduled a (ReportTask calls a).agent SCHEDULETIME_5MIN ∧
      AgentEvent.getRemoteConfig ∉ (ReportTask calls a).trace := by
  obtain ⟨hgen, hw, hn⟩ := hreg
  have hres := RescheduleReportRunTask_rescheduled
    { a with
      Config := { a.Config with ExecuteTaskEveryXMinutes := SCHEDULETIME_5MIN }
      ini := ({ a.Config with ExecuteTaskEveryXMinutes := SCHEDULETIME_5MIN } :
        Config).WriteConfig a.ini } id hjob
  have h5 : scheduledMinutes SCHEDULETIME_5MIN = SCHEDULETIME_5MIN := by decide
  simp only [h5] at hres
  obtain ⟨h1, h2, h3, _, h5'⟩ := hres
  have hrun : ReportTask calls a =
      Run.andThen
        { agent :=
            { a with
              Config := { a.Config with ExecuteTaskEveryXMinutes := SCHEDULETIME_5MIN }
              ini := ({ a.Config with ExecuteTaskEveryXMinutes := SCHEDULETIME_5MIN } :
                Config).WriteConfig a.ini },
          trace := [.runReport .report, .sendReport (some err), .writeConfig],
          ending := .returned }
        (RescheduleReportRunTask none) := by
    simp [ReportTask, hgen, hs, hw, hn, RunReport, ReportOutcome.generated]
  rw [hrun, Run.andThen_returned]
  refine ⟨h1, h5', ?_, h2, ?_⟩
  · rw [h3]; rfl
  · simp [RescheduleReportRunTask, hjob, Run.andThen, startReportJob]

theorem ReportTask_send_ok (calls : ReportCalls) (a : Agent) (id : Nat)
    (hjob : a.ReportJob = some id) (hreg : calls.regular) (hs : calls.sendReport = none)
    (hremote : (GetRemoteConfig calls.getRemoteConfig a).ending = .returned) :
    (ReportTask calls a).ending = .returned ∧
      (∃ rest, (ReportTask calls a).trace =
        .runReport .report :: .sendReport none :: .getRemoteConfig :: rest) ∧
      (ReportTask calls a).agent.Config.DefaultFrequency =
        (GetRemoteConfig calls.getRemoteConfig a).agent.Config.DefaultFrequency ∧
      (ReportTask calls a).agent.ini.ExecuteTaskEveryXMinutes =
        (ReportTask calls a).agent.Config.DefaultFrequency ∧
      reportRescheduled a (ReportTask calls a).agent
        (scheduledMinutes (ReportTask calls a).agent.Config.DefaultFrequency) := by
  obtain ⟨hgen, hw, hn⟩ := hreg
  obtain ⟨hk1, hk2, hk3⟩ := GetRemoteConfig_keeps_jobs calls.getRemoteConfig a
  have hjob2 : (GetRemoteConfig calls.getRemoteConfig a).agent.ReportJob = some id := by
    rw [hk1]; exact hjob
  have htrace : ∃ t, (GetRemoteConfig calls.getRemoteConfig a).trace = .getRemoteConfig :: t := by
    unfold GetRemoteConfig
    split
    · exact ⟨[], rfl⟩
    · exact ⟨[], rfl⟩
    · split
      · exact ⟨[.writeConfig], rfl⟩
      · exact ⟨[], rfl⟩
  obtain ⟨t, ht⟩ := htrace
  generalize hg : GetRemoteConfig calls.getRemoteConfig a = g at hremote hjob2 ht hk1 hk2 hk3
  obtain ⟨a2, tr, en⟩ := g
  simp only at hremote hjob2 ht hk1 hk2 hk3
  subst hremote
  subst ht
  have hres := RescheduleReportRunTask_rescheduled
    { a2 with
      Config := { a2.Config with ExecuteTaskEveryXMinutes := a2.Config.DefaultFrequency }
      ini := ({ a2.Config with ExecuteTaskEveryXMinutes := a2.Config.DefaultFrequency } :
        Config).WriteConfig a2.ini } id hjob2
  obtain ⟨h1, h2, h3, h4, _⟩ := hres
  have hrun : ReportTask calls a =
      Run.andThen
        { agent :=
            { a2 with
              Config := { a2.Config with ExecuteTaskEveryXMinutes := a2.Config.DefaultFrequency }
              ini := ({ a2.Config with ExecuteTaskEveryXMinutes := a2.Config.DefaultFrequency } :
                Config).WriteConfig a2.ini },
          trace := [.runReport .report, .sendReport none, .getRemoteConfig] ++ t ++
            [.writeConfig],
          ending := .returned }
        (RescheduleReportRunTask none) := by
    simp [ReportTask, hgen, hs, hw, hn, RunReport, ReportOutcome.generated, hg, Run.andThen]
  rw [hrun, Run.andThen_returned]
  refine ⟨h1, ⟨_, rfl⟩, ?_, ?_, ?_⟩
  · rw [h4]
  · rw [h3, h4]; rfl
  · rw [h4]
    obtain ⟨old, ho1, ho2, ho3, ho4⟩ := h2
    refine ⟨old, ?_, ?_, ?_, ?_⟩
    · rw [← hk1]; exact ho1
    · rw [← hk2]; exact ho2
    · rw [← hk2]; exact ho3
    · rw [← hk2, ← hk3]; exact ho4

/-- C11, counterexample: when the backend provides a default frequency of 0,
a `ReportTask` whose report is sent reschedules the report job every 5
minutes, not every 0 minutes, while the INI file records an interval of 0.
And with a default frequency of 307445735 minutes the duration handed to the
scheduler has wrapped around to about 26 seconds. -/
theorem ReportTask_zero_frequency_schedules_five :
    (ReportTask reportSentZeroFrequency sampleAgent).ending = .returned ∧
      (ReportTask reportSentZeroFrequency sampleAgent).agent.Config.DefaultFrequency = 0 ∧
      (ReportTask reportSentZeroFrequency sampleAgent).agent.ini.ExecuteTaskEveryXMinutes = 0 ∧
      (ReportTask reportSentZeroFrequency sampleAgent).agent.ReportJob = some 3 ∧
      (ReportTask reportSentZeroFrequency sampleAgent).agent.jobs =
        [{ id := 1, kind := .pendingACK, minutes := 5 },
         { id := 2, kind := .configure, minutes := 30 },
         { id := 3, kind := .report, minutes := 5 }] ∧
      (ReportTask reportSentHugeFrequency sampleAgent).agent.Config.DefaultFrequency =
        307445735 ∧
      (ReportTask reportSentHugeFrequency sampleAgent).agent.jobs =
        [{ id := 1, kind := .pendingACK, minutes := 5 },
         { id := 2, kind := .configure, minutes := 30 },
         { id := 3, kind := .report, minutes := 307445735, duration := 26290448384 }] := by
  refine ⟨?_, ?_, ?_, ?_, ?_, ?_, ?_⟩ <;> decide

/-- C11, amended: for a `ReportTask` run of an agent holding a report job, in
which a report is generated, the configuration is saved and the scheduler
accepts the job.  If sending fails, the interval is set to 5 minutes, written
to the INI file, and the report job is rescheduled with it (the old report job
leaves the scheduler, a new one enters it, the other jobs stay), without a
remote configuration request.  If sending succeeds, the remote configuration
is requested right after the send, the default frequency is written as the
interval, and the report job is rescheduled with the default frequency, or
with 5 minutes when the default frequency is 0.  Hence after two failures in
a row the job is the one rescheduled with 5 minutes, and after a following
success the one rescheduled with the default frequency (5 minutes when it is
0).  The duration of a job scheduled with `m` minutes is `m` minutes when
`0 < m ≤ 153722867`; beyond, the `int64` number of nanoseconds wraps. -/
theorem ReportTask_two_speed (a : Agent) (id : Nat) (hjob : a.ReportJob = some id) :
    (∀ (calls : ReportCalls) (err : GoError), calls.regular → calls.sendReport = some err →
        (ReportTask calls a).ending = .returned ∧
        (ReportTask calls a).agent.Config.ExecuteTaskEveryXMinutes = SCHEDULETIME_5MIN ∧
        (ReportTask calls a).agent.ini.ExecuteTaskEveryXMinutes = SCHEDULETIME_5MIN ∧
        reportRescheduled a (ReportTask calls a).agent SCHEDULETIME_5MIN ∧
        AgentEvent.getRemoteConfig ∉ (ReportTask calls a).trace) ∧
      (∀ calls : ReportCalls, calls.regular → calls.sendReport = none →
        (GetRemoteConfig calls.getRemoteConfig a).ending = .returned →
        (ReportTask calls a).ending = .returned ∧
        (∃ rest, (ReportTask calls a).trace =
          .runReport .report :: .sendReport none :: .getRemoteConfig :: rest) ∧
        (ReportTask calls a).agent.Config.DefaultFrequency =
          (GetRemoteConfig calls.getRemoteConfig a).agent.Config.DefaultFrequency ∧
        (ReportTask calls a).agent.ini.ExecuteTaskEveryXMinutes =
          (ReportTask calls a).agent.Config.DefaultFrequency ∧
        reportRescheduled a (ReportTask calls a).agent
          (scheduledMinutes (ReportTask calls a).agent.Config.DefaultFrequency)) ∧
      (∀ (c1 c2 c3 : ReportCalls) (e1 e2 : GoError), c1.regular → c2.regular → c3.regular →
        c1.sendReport = some e1 → c2.sendReport = some e2 → c3.sendReport = none →
        (GetRemoteConfig c3.getRemoteConfig
          (ReportTask c2 (ReportTask c1 a).agent).agent).ending = .returned →
        reportRescheduled (ReportTask c1 a).agent
          (ReportTask c2 (ReportTask c1 a).agent).agent SCHEDULETIME_5MIN ∧
        reportRescheduled (ReportTask c2 (ReportTask c1 a).agent).agent
          (ReportTask c3 (ReportTask c2 (ReportTask c1 a).agent).agent).agent
          (scheduledMinutes
            (ReportTask c3
              (ReportTask c2 (ReportTask c1 a).agent).agent).agent.Config.DefaultFrequency)) ∧
      (∀ minutes : Int, 0 < minutes → minutes ≤ 153722867 →
        scheduledMinutes minutes = minutes ∧
        timeDuration (scheduledMinutes minutes) = minutes * 60000000000) := by
  refine ⟨?_, ?_, ?_, ?_⟩
  · intro calls err hreg hs
    exact ReportTask_send_failed calls a id hjob hreg err hs
  · intro calls hreg hs hremote
    exact ReportTask_send_ok calls a id hjob hreg hs hremote
  · intro c1 c2 c3 e1 e2 h1 h2 h3 hs1 hs2 hs3 hremote
    obtain ⟨_, _, hj1, _, _⟩ := (ReportTask_send_failed c1 a id hjob h1 e1 hs1).2.2.2.1
    have r2 := ReportTask_send_failed c2 (ReportTask c1 a).agent _ hj1 h2 e2 hs2
    obtain ⟨_, _, hj2, _, _⟩ := r2.2.2.2.1
    refine ⟨r2.2.2.2.1, ?_⟩
    exact (ReportTask_send_ok c3 (ReportTask c2 (ReportTask c1 a).agent).agent _ hj2 h3 hs3
      hremote).2.2.2.2
  · intro minutes h0 h1
    have hne : minutes ≠ 0 := by omega
    have hsm : scheduledMinutes minutes = minutes := by simp [scheduledMinutes, hne]
    exact ⟨hsm, by rw [hsm]; exact timeDuration_minutes minutes (by omega) h1⟩

/-- Witness of C11 (amended): two failed sends and then a successful one on
the sample agent, whose default frequency is 60 minutes. -/
theorem ReportTask_two_speed_witness :
    reportRescheduled (ReportTask reportNotSent sampleAgent).agent
        (ReportTask reportNotSent (ReportTask reportNotSent sampleAgent).agent).agent
        SCHEDULETIME_5MIN ∧
      reportRescheduled
        (ReportTask reportNotSent (ReportTask reportNotSent sampleAgent).agent).agent
        (ReportTask reportSent
          (ReportTask reportNotSent (ReportTask reportNotSent sampleAgent).agent).agent).agent
        (scheduledMinutes
          (ReportTask reportSent
            (ReportTask reportNotSent
              (ReportTask reportNotSent sampleAgent).agent).agent).agent.Config.DefaultFrequency) :=
  (ReportTask_two_speed sampleAgent 0 rfl).2.2.1 reportNotSent reportNotSent reportSent
    "timeout" "timeout" ⟨rfl, rfl, rfl⟩ ⟨rfl, rfl, rfl⟩ ⟨rfl, rfl, rfl⟩ rfl rfl rfl rfl

/-! ## The durable command handlers -/

/-- C16: two of the six subjects of the durable consumer are routed to no
handler.  For the agent `u-1`, a message on `agent.update.updater.u-1` or on
`agent.rollback.updater.u-1`, both in the consumer's filter set, passes the
four comparisons of `JetStreamAgentHandler` without entering a handler and is
never acknowledged; a message on `agent.disable.u-1` enters exactly the
disable handler, which acknowledges it last. -/
theorem updater_subjects_reach_no_handler :
    "agent.update.updater.u-1" ∈ FilterSubjects sampleAgent.Config.UUID ∧
      "agent.rollback.updater.u-1" ∈ FilterSubjects sampleAgent.Config.UUID ∧
      JetStreamAgentHandler dispatchOk "agent.update.updater.u-1" sampleAgent =
        { agent := sampleAgent, trace := [], ending := .returned } ∧
      JetStreamAgentHandler dispatchOk "agent.rollback.updater.u-1" sampleAgent =
        { agent := sampleAgent, trace := [], ending := .returned } ∧
      (JetStreamAgentHandler dispatchOk "agent.disable.u-1" sampleAgent).trace =
        [.handler "DisableAgentHandler", .removeJob 0 none, .writeConfig, .ack] := by
  refine ⟨?_, ?_, ?_, ?_, ?_⟩ <;> decide

/-- C17: the certificate handler generates a report and does not send it.
When every step succeeds the handler saves the key and the certificate,
acknowledges the message and calls `RunReport`; `SendReport` is called on no
path of the handler. -/
theorem certificate_report_is_not_sent :
    (AgentCertificateHandler certificateOk sampleAgent).trace =
        [.savePrivateKey, .saveCertificate, .ack, .runReport .report] ∧
      ∀ (calls : CertificateCalls) (a : Agent) (err : Option GoError),
        AgentEvent.sendReport err ∉ (AgentCertificateHandler calls a).trace := by
  constructor
  · decide
  · intro calls a err
    unfold AgentCertificateHandler
    repeat' split
    all_goals simp

/-- C18, counterexample: when `WriteConfig` cannot save the INI file,
`log.Fatalf` ends the process inside the enable handler: the message of a
disabled agent is not acknowledged and `Enabled` stays false in the file. -/
theorem enable_save_failure_is_not_acknowledged :
    disabledAgent.ini.Enabled = false ∧
      (EnableAgentHandler configSaveFatal disabledAgent).trace = [] ∧
      (EnableAgentHandler configSaveFatal disabledAgent).ending = .fatal ∧
      (EnableAgentHandler configSaveFatal disabledAgent).agent.ini.Enabled = false := by
  refine ⟨?_, ?_, ?_, ?_⟩ <;> decide

/-- C18, amended: when the configuration is read with `Enabled` false and
`WriteConfig` saves, the enable handler sets `Enabled` in memory and in the
INI file, starts one report goroutine and leaves the jobs as they are; when
it is read with `Enabled` true, the handler starts no report, leaves the INI
file and the jobs unchanged and the in-memory configuration as read (unchanged
when it was in step with the file).  On every path on which the handler
returns, read and load errors included, the message is acknowledged exactly
once, as the last step; on the other paths `log.Fatalf` has ended the process
and the message is not acknowledged. -/
theorem EnableAgentHandler_enables_and_acknowledges (calls : ConfigCalls) (a : Agent) :
    (∀ cwd sftp, calls.readConfig = .ok cwd sftp → a.ini.Enabled = false →
        calls.writeConfig = .saved →
        (EnableAgentHandler calls a).agent.Config.Enabled = true ∧
        (EnableAgentHandler calls a).agent.ini.Enabled = true ∧
        (EnableAgentHandler calls a).trace.count .goReport = 1 ∧
        (EnableAgentHandler calls a).agent.jobs = a.jobs) ∧
      (∀ cwd sftp, calls.readConfig = .ok cwd sftp → a.ini.Enabled = true →
        (EnableAgentHandler calls a).agent = a.ReadConfig calls.readConfig ∧
        (EnableAgentHandler calls a).agent.ini = a.ini ∧
        (EnableAgentHandler calls a).agent.jobs = a.jobs ∧
        (EnableAgentHandler calls a).trace = [.ack] ∧
        ((a.ReadConfig calls.readConfig).Config = a.Config →
          (EnableAgentHandler calls a).agent = a)) ∧
      ((EnableAgentHandler calls a).ending = .returned →
        (EnableAgentHandler calls a).trace.count .ack = 1 ∧
        (EnableAgentHandler calls a).trace.getLast? = some .ack) ∧
      ((EnableAgentHandler calls a).ending ≠ .returned →
        (EnableAgentHandler calls a).ending = .fatal ∧
        (EnableAgentHandler calls a).trace.count .ack = 0) := by
  refine ⟨?_, ?_, ?_, ?_⟩
  · intro cwd sftp hr he hw
    simp [EnableAgentHandler, hr, hw, Agent.ReadConfig, ReadConfig.values, he,
      Config.WriteConfig]
  · intro cwd sftp hr he
    have hval : (ReadConfig.values cwd sftp a.ini a.Config).Enabled = true := by
      simp [ReadConfig.values, he]
    refine ⟨?_, ?_, ?_, ?_, ?_⟩
    · simp [EnableAgentHandler, hr, Agent.ReadConfig, hval]
    · simp [EnableAgentHandler, hr, Agent.ReadConfig, hval]
    · simp [EnableAgentHandler, hr, Agent.ReadConfig, hval]
    · simp [EnableAgentHandler, hr, Agent.ReadConfig, hval]
    · intro hsame
      simp only [hr, Agent.ReadConfig] at hsame
      have hen : a.Config.Enabled = true := by rw [← hsame]; exact hval
      simp [EnableAgentHandler, hr, Agent.ReadConfig, hsame, hen]
  · intro hret
    cases hr : calls.readConfig with
    | fatal => simp [EnableAgentHandler, hr] at hret
    | error err left => simp [EnableAgentHandler, hr]
    | ok cwd sftp =>
      by_cases he : (ReadConfig.values cwd sftp a.ini a.Config).Enabled = true
      · simp [EnableAgentHandler, hr, Agent.ReadConfig, he]
      · cases hw : calls.writeConfig with
        | fatal => simp [EnableAgentHandler, hr, Agent.ReadConfig, he, hw] at hret
        | loadError err => simp [EnableAgentHandler, hr, Agent.ReadConfig, he, hw]
        | saved => simp [EnableAgentHandler, hr, Agent.ReadConfig, he, hw]
  · intro hne
    cases hr : calls.readConfig with
    | fatal => simp [EnableAgentHandler, hr]
    | error err left => simp [EnableAgentHandler, hr] at hne
    | ok cwd sftp =>
      by_cases he : (ReadConfig.values cwd sftp a.ini a.Config).Enabled = true
      · simp [EnableAgentHandler, hr, Agent.ReadConfig, he] at hne
      · cases hw : calls.writeConfig with
        | fatal => simp [EnableAgentHandler, hr, Agent.ReadConfig, he, hw]
        | loadError err => simp [EnableAgentHandler, hr, Agent.ReadConfig, he, hw] at hne
        | saved => simp [EnableAgentHandler, hr, Agent.ReadConfig, he, hw] at hne

/-- Witness of C18 (amended): the disabled sample agent is enabled. -/
theorem EnableAgentHandler_enables_and_acknowledges_witness :
    (EnableAgentHandler configOk disabledAgent).agent.Config.Enabled = true ∧
      (EnableAgentHandler configOk disabledAgent).agent.ini.Enabled = true ∧
      (EnableAgentHandler configOk disabledAgent).trace.count .goReport = 1 ∧
      (EnableAgentHandler configOk disabledAgent).agent.jobs = disabledAgent.jobs :=
  (EnableAgentHandler_enables_and_acknowledges configOk disabledAgent).1 "/opt/agent" true
    rfl rfl rfl

/-- C19: the disable handler dereferences a nil report job.  For an enabled
agent that holds no report job (as `Start` leaves it when the first
`RunReport` returned nil), the handler reads `Enabled = true` and panics at
`a.ReportJob.ID()`: `Enabled` stays true in the INI file and the message is not
acknowledged. -/
theorem disable_without_report_job_panics :
    agentWithoutReportJob.ini.Enabled = true ∧
      DisableAgentHandler configOk agentWithoutReportJob =
        { agent := agentWithoutReportJob, trace := [], ending := .panicked } := by
  constructor <;> decide

/-- C20, counterexample: after the sample agent has processed a disable
command, `Enabled` is false in the INI file, the report job is gone and the
profile-reconciliation job is still in the scheduler. -/
theorem configure_job_survives_disable :
    (DisableAgentHandler configOk sampleAgent).ending = .returned ∧
      (DisableAgentHandler configOk sampleAgent).agent.ini.Enabled = false ∧
      (DisableAgentHandler configOk sampleAgent).agent.jobs =
        [{ id := 1, kind := .pendingACK, minutes := 5 },
         { id := 2, kind := .configure, minutes := 30 }] ∧
      (DisableAgentHandler configOk sampleAgent).agent.WingetConfigureJob = some 2 := by
  refine ⟨?_, ?_, ?_, ?_⟩ <;> decide

theorem removeJob_keeps_others (jobs : List Job) (id : Nat) (j : Job) (hj : j ∈ jobs)
    (hne : j.id ≠ id) : j ∈ (removeJob jobs id).1 := by
  unfold removeJob
  split
  · exact List.mem_filter.mpr ⟨hj, by simpa using hne⟩
  · exact hj

/-- C20, amended: the disable handler removes no job other than the report
job.  Every scheduled job whose identifier is not the report job's, the
profile-reconciliation job included, is still scheduled after the handler,
whatever the outcomes of reading and writing the configuration, and the
agent's reference to the reconciliation job is unchanged. -/
theorem DisableAgentHandler_keeps_other_jobs (calls : ConfigCalls) (a : Agent) (j : Job)
    (hj : j ∈ a.jobs) (hne : a.ReportJob ≠ some j.id) :
    j ∈ (DisableAgentHandler calls a).agent.jobs ∧
      (DisableAgentHandler calls a).agent.WingetConfigureJob = a.WingetConfigureJob := by
  cases hr : calls.readConfig with
  | fatal => simp [DisableAgentHandler, hr, Agent.ReadConfig, hj]
  | error err left => simp [DisableAgentHandler, hr, Agent.ReadConfig, hj]
  | ok cwd sftp =>
    by_cases he : (ReadConfig.values cwd sftp a.ini a.Config).Enabled = true
    · cases hjob : a.ReportJob with
      | none => simp [DisableAgentHandler, hr, Agent.ReadConfig, he, hjob, hj]
      | some id =>
        have hid : j.id ≠ id := by
          intro h
          exact hne (by rw [hjob, h])
        have hkeep := removeJob_keeps_others a.jobs id j hj hid
        cases hw : calls.writeConfig <;>
          simp [DisableAgentHandler, hr, Agent.ReadConfig, he, hjob, hw, hkeep]
    · simp [DisableAgentHandler, hr, Agent.ReadConfig, he, hj]

/-- Witness of C20 (amended): the reconciliation job of the sample agent. -/
theorem DisableAgentHandler_keeps_other_jobs_witness :
    ({ id := 2, kind := .configure, minutes := 30 } : Job) ∈
        (DisableAgentHandler configOk sampleAgent).agent.jobs ∧
      (DisableAgentHandler configOk sampleAgent).agent.WingetConfigureJob =
        sampleAgent.WingetConfigureJob :=
  DisableAgentHandler_keeps_other_jobs configOk sampleAgent
    { id := 2, kind := .configure, minutes := 30 } (by decide) (by decide)

/-! ## Bounds and termination of the sweep loop -/

theorem slicesDeleteChecked_eq {α : Type} (s : List α) (i j : Nat) (h : i ≤ j ∧ j ≤ s.length) :
    slicesDeleteChecked s i j = some (slicesDelete s i j) := by
  simp [slicesDeleteChecked, h]

theorem PendingACKTask.checkedLoop_eq (env : Env) (m : Nat) :
    ∀ (i : Nat) (st : SweepState) (n : Nat), st.actions.length - i ≤ m → st.j ≤ i →
      ∃ k, PendingACKTask.checkedLoop env i st n = some (PendingACKTask.loop env i st, k) ∧
        k ≤ n + (st.actions.length - i) := by
  induction m with
  | zero =>
    intro i st n hm _
    have hlt : ¬ i < st.actions.length := by omega
    refine ⟨n, ?_, by omega⟩
    rw [PendingACKTask.checkedLoop, PendingACKTask.loop]
    simp [hlt]
  | succ m ih =>
    intro i st n hm hj
    by_cases hlt : i < st.actions.length
    · have hget : st.actions[i]? = some (st.actions.get ⟨i, hlt⟩) := by
        simp [List.getElem?_eq_getElem hlt]
      cases hs : SendDeployResult env (st.actions.get ⟨i, hlt⟩) with
      | some err =>
        obtain ⟨k, hk, hle⟩ := ih (i + 1)
          { st with j := st.j + 1, sent := st.sent ++ [st.actions.get ⟨i, hlt⟩] } (n + 1)
          (by simp only; omega) (by simp only; omega)
        refine ⟨k, ?_, by simp only at hle; omega⟩
        rw [PendingACKTask.checkedLoop, PendingACKTask.loop_failed env i st hlt err hs]
        simp only [hlt, if_true, hget, hs]
        exact hk
      | none =>
        have hb : st.j ≤ st.j + 1 ∧ st.j + 1 ≤ st.actions.length := by omega
        have hlen : (slicesDelete st.actions st.j (st.j + 1)).length = st.actions.length - 1 := by
          simp only [slicesDelete, List.length_append, List.length_take, List.length_drop]
          omega
        obtain ⟨k, hk, hle⟩ := ih (i + 1)
          { st with actions := slicesDelete st.actions st.j (st.j + 1),
                    sent := st.sent ++ [st.actions.get ⟨i, hlt⟩] } (n + 1)
          (by simp only [hlen]; omega) (by simp only; omega)
        refine ⟨k, ?_, by simp only [hlen] at hle; omega⟩
        rw [PendingACKTask.checkedLoop, PendingACKTask.loop_acked env i st hlt hs]
        simp only [hlt, if_true, hget, hs, hb, and_self]
        exact hk
    · refine ⟨n, ?_, by omega⟩
      rw [PendingACKTask.checkedLoop, PendingACKTask.loop]
      simp [hlt]

/-- C27: for every queue `L` and every behaviour of the backend, the sweep
loop of `PendingACKTask` never indexes outside the current slice, neither at
`actions[i]` nor at `slices.Delete(actions, j, j+1)`: the loop with every index
operation checked ends without a panic in the state the loop computes, after
at most `len(L)` iterations. -/
theorem PendingACKTask_loop_in_bounds (env : Env) (L : List DeployAction) :
    ∃ iterations,
      PendingACKTask.checkedLoop env 0 { actions := L, j := 0, sent := [] } 0 =
        some (PendingACKTask.loop env 0 { actions := L, j := 0, sent := [] }, iterations) ∧
      iterations ≤ L.length := by
  obtain ⟨k, hk, hle⟩ := PendingACKTask.checkedLoop_eq env L.length 0
    { actions := L, j := 0, sent := [] } 0 (by simp) (by simp)
  exact ⟨k, hk, by simpa using hle⟩

/-! ## The verification pass over a whole configuration -/

theorem deploymentReports_after (events : List CycleEvent) (rest : Verification) :
    deploymentReports (Verification.after events rest).events =
      deploymentReports events ++ deploymentReports rest.events := by
  simp [Verification.after, deploymentReports_append]

theorem CheckIfCfgPackagesInstalled_reports (env : Env) (uuid : String) (now : Time)
    (pkg : String) (installed : String → Bool) (resources : List WinGetResource)
    (hwf : packagesWellFormed pkg resources) :
    (CheckIfCfgPackagesInstalled env uuid now pkg installed resources).panicked = false ∧
      deploymentReports
          (CheckIfCfgPackagesInstalled env uuid now pkg installed resources).events =
        resources.filterMap (expectedReport pkg installed) := by
  induction resources with
  | nil => simp [CheckIfCfgPackagesInstalled, deploymentReports]
  | cons r rest ih =>
    have hrest : packagesWellFormed pkg rest :=
      packagesWellFormed_of_subset pkg rest (r :: rest) (fun x hx => List.mem_cons_of_mem r hx) hwf
    obtain ⟨ihp, ihr⟩ := ih hrest
    by_cases hk : r.Resource = pkg
    · obtain ⟨⟨id, hid⟩, ⟨ensure, hen⟩⟩ := hwf r (List.mem_cons_self r rest) hk
      have hid1 : assertString (mapIndex r.Settings "id") = some id := hid
      have hen1 : assertString (mapIndex r.Settings "Ensure") = some ensure := hen
      by_cases hp : ensure = "Present" <;> cases hi : installed id <;>
        simp [CheckIfCfgPackagesInstalled, expectedReport, hk, hid, hen, hid1, hen1, hp, hi,
          Verification.after, deploymentReports, deploymentReports_append, ihp, ihr,
          List.filterMap_cons]
    · simp [CheckIfCfgPackagesInstalled, expectedReport, hk, ihp, ihr, List.filterMap_cons]

/-- C21: the characterisation of `CheckIfCfgPackagesInstalled` fails for a
configuration with a package resource that has no string `id`.  With every
package verified installed, the pass over `pkg.A`, a package without `id` and
`pkg.B` reports `pkg.A` and then panics: `pkg.B`, a package resource with
`Ensure` `"Present"` that is installed, gets no `install` report. -/
theorem verification_stops_at_package_without_id :
    CheckIfCfgPackagesInstalled (sampleEnv [] []) "agent-1" 1 "package" (fun _ => true)
        [samplePackage "pkg.A" "Present", packageWithoutId, samplePackage "pkg.B" "Present"] =
        { events := [.verify "pkg.A" true, .deploymentReport "pkg.A" "pkg.A" "install" none],
          panicked := true } ∧
      expectedReport "package" (fun _ => true) (samplePackage "pkg.B" "Present") =
        some ("pkg.B", "pkg.B", "install") := by
  refine ⟨?_, ?_⟩ <;> decide

/-! ## Extraction of the script resources -/

theorem mem_mapSet (m : List (String × PowerShellTask)) (k : String) (v : PowerShellTask)
    (e : String × PowerShellTask) :
    e ∈ mapSet m k v ↔ e = (k, v) ∨ (e ∈ m ∧ e.1 ≠ k) := by
  unfold mapSet
  by_cases hany : m.any (fun x => x.1 == k) = true
  · rw [if_pos hany]
    obtain ⟨x, hx, hxk⟩ := List.any_eq_true.mp hany
    have hxk1 : x.1 = k := by simpa using hxk
    constructor
    · intro h
      obtain ⟨y, hy, hye⟩ := List.mem_map.mp h
      by_cases hyk : y.1 = k
      · rw [if_pos hyk] at hye
        exact Or.inl hye.symm
      · rw [if_neg hyk] at hye
        subst hye
        exact Or.inr ⟨hy, hyk⟩
    · intro h
      rcases h with h | ⟨hm, hne⟩
      · exact List.mem_map.mpr ⟨x, hx, by rw [if_pos hxk1, h]⟩
      · exact List.mem_map.mpr ⟨e, hm, by rw [if_neg hne]⟩
  · rw [if_neg hany]
    have hno : ∀ x ∈ m, x.1 ≠ k := by
      intro x hx hxk
      exact hany (List.any_eq_true.mpr ⟨x, hx, by simpa using hxk⟩)
    constructor
    · intro h
      rcases List.mem_append.mp h with h | h
      · exact Or.inr ⟨h, hno e h⟩
      · exact Or.inl (by simpa using h)
    · intro h
      rcases h with h | ⟨hm, _⟩
      · exact List.mem_append.mpr (Or.inr (by simp [h]))
      · exact List.mem_append.mpr (Or.inl hm)

theorem mapSet_keys_nodup (m : List (String × PowerShellTask)) (k : String) (v : PowerShellTask)
    (h : (m.map Prod.fst).Nodup) : ((mapSet m k v).map Prod.fst).Nodup := by
  unfold mapSet
  by_cases hany : m.any (fun x => x.1 == k) = true
  · rw [if_pos hany]
    have hkeys : (m.map fun e => if e.1 = k then (k, v) else e).map Prod.fst = m.map Prod.fst := by
      rw [List.map_map]
      apply List.map_congr_left
      intro x _
      by_cases hx : x.1 = k <;> simp [hx]
    rw [hkeys]
    exact h
  · rw [if_neg hany]
    have hno : k ∉ m.map Prod.fst := by
      intro hk
      obtain ⟨x, hx, hxk⟩ := List.mem_map.mp hk
      exact hany (List.any_eq_true.mpr ⟨x, hx, by simpa using hxk⟩)
    rw [List.map_append, List.nodup_append]
    refine ⟨h, by simp, ?_⟩
    intro a ha hb
    have : a = k := by simpa using hb
    exact hno (this ▸ ha)

theorem setting_cases (r : WinGetResource) (key : String)
    (h : mapIndex r.Settings key = none ∨ settingString r key ≠ none) :
    (mapIndex r.Settings key = none ∧ settingString r key = none) ∨
      ∃ s, mapIndex r.Settings key = some (.str s) ∧ settingString r key = some s := by
  unfold settingString at *
  cases hm : mapIndex r.Settings key with
  | none => exact Or.inl ⟨rfl, by simp [assertString]⟩
  | some v =>
    cases v with
    | str s => exact Or.inr ⟨s, rfl, by simp [assertString]⟩
    | other =>
      rcases h with h | h
      · rw [hm] at h
        cases h
      · rw [hm] at h
        exact absurd (by simp [assertString]) h

theorem addScript_eq (scripts : List (String × PowerShellTask)) (r : WinGetResource)
    (h : ∀ key ∈ ["Script", "Name", "ID", "ScriptRun"],
      mapIndex r.Settings key = none ∨ settingString r key ≠ none) :
    addScript scripts r =
      some (match scriptTask r with
        | some (n, t) => mapSet scripts n t
        | none => scripts) := by
  rcases setting_cases r "Script" (h _ (by simp)) with ⟨m1, s1⟩ | ⟨v1, m1, s1⟩ <;>
  rcases setting_cases r "Name" (h _ (by simp)) with ⟨m2, s2⟩ | ⟨v2, m2, s2⟩ <;>
  rcases setting_cases r "ID" (h _ (by simp)) with ⟨m3, s3⟩ | ⟨v3, m3, s3⟩ <;>
  rcases setting_cases r "ScriptRun" (h _ (by simp)) with ⟨m4, s4⟩ | ⟨v4, m4, s4⟩ <;>
  simp [addScript, scriptTask, assertString, m1, m2, m3, m4, s1, s2, s3, s4]

theorem scriptsWellFormed_tail (ps : String) (r : WinGetResource) (rest : List WinGetResource)
    (h : scriptsWellFormed ps (r :: rest)) : scriptsWellFormed ps rest :=
  fun x hx hk => h x (List.mem_cons_of_mem r hx) hk

theorem RemovePowershellScriptsFromCfg.loop_spec (ps : String) (resources : List WinGetResource) :
    ∀ (scripts : List (String × PowerShellTask)) (valid : List WinGetResource),
      scriptsWellFormed ps resources → (scripts.map Prod.fst).Nodup →
      ∃ out, RemovePowershellScriptsFromCfg.loop ps resources scripts valid =
          some (out, valid ++ resources.filter (fun r => decide (r.Resource ≠ ps))) ∧
        (out.map Prod.fst).Nodup ∧
        (∀ e ∈ scripts, ∃ t, (e.1, t) ∈ out) ∧
        (∀ r ∈ resources, r.Resource = ps → ∀ n t, scriptTask r = some (n, t) →
          ∃ t1, (n, t1) ∈ out) ∧
        (∀ e ∈ out, e ∈ scripts ∨ ∃ r ∈ resources, r.Resource = ps ∧ scriptTask r = some e) := by
  induction resources with
  | nil =>
    intro scripts valid _ hnd
    exact ⟨scripts, by simp [RemovePowershellScriptsFromCfg.loop], hnd,
      fun e he => ⟨e.2, he⟩, by simp, fun e he => Or.inl he⟩
  | cons r rest ih =>
    intro scripts valid hwf hnd
    have hrest := scriptsWellFormed_tail ps r rest hwf
    by_cases hk : r.Resource = ps
    · have hadd := addScript_eq scripts r (hwf r (List.mem_cons_self r rest) hk)
      cases hst : scriptTask r with
      | none =>
        rw [hst] at hadd
        obtain ⟨out, hout, hnd1, hkeep, hall, hfrom⟩ := ih scripts valid hrest hnd
        refine ⟨out, ?_, hnd1, hkeep, ?_, ?_⟩
        · simp only [RemovePowershellScriptsFromCfg.loop, hk, if_true, hadd]
          simpa [hk] using hout
        · intro x hx hxk n t hxt
          rcases List.mem_cons.mp hx with hxr | hxr
          · rw [hxr, hst] at hxt
            cases hxt
          · exact hall x hxr hxk n t hxt
        · intro e he
          rcases hfrom e he with h | ⟨x, hx, hxk, hxt⟩
          · exact Or.inl h
          · exact Or.inr ⟨x, List.mem_cons_of_mem r hx, hxk, hxt⟩
      | some nt =>
        obtain ⟨n0, t0⟩ := nt
        rw [hst] at hadd
        obtain ⟨out, hout, hnd1, hkeep, hall, hfrom⟩ :=
          ih (mapSet scripts n0 t0) valid hrest (mapSet_keys_nodup scripts n0 t0 hnd)
        refine ⟨out, ?_, hnd1, ?_, ?_, ?_⟩
        · simp only [RemovePowershellScriptsFromCfg.loop, hk, if_true, hadd]
          simpa [hk] using hout
        · intro e he
          by_cases hek : e.1 = n0
          · rw [hek]
            exact hkeep (n0, t0) ((mem_mapSet scripts n0 t0 _).mpr (Or.inl rfl))
          · exact hkeep e ((mem_mapSet scripts n0 t0 e).mpr (Or.inr ⟨he, hek⟩))
        · intro x hx hxk n t hxt
          rcases List.mem_cons.mp hx with hxr | hxr
          · rw [hxr, hst] at hxt
            cases hxt
            exact hkeep (n0, t0) ((mem_mapSet scripts n0 t0 _).mpr (Or.inl rfl))
          · exact hall x hxr hxk n t hxt
        · intro e he
          rcases hfrom e he with h | ⟨x, hx, hxk, hxt⟩
          · rcases (mem_mapSet scripts n0 t0 e).mp h with h1 | ⟨h1, _⟩
            · exact Or.inr ⟨r, List.mem_cons_self r rest, hk, by rw [hst, h1]⟩
            · exact Or.inl h1
          · exact Or.inr ⟨x, List.mem_cons_of_mem r hx, hxk, hxt⟩
    · obtain ⟨out, hout, hnd1, hkeep, hall, hfrom⟩ := ih scripts (valid ++ [r]) hrest hnd
      refine ⟨out, ?_, hnd1, hkeep, ?_, ?_⟩
      · simp only [RemovePowershellScriptsFromCfg.loop, hk, if_false]
        simpa [hk] using hout
      · intro x hx hxk n t hxt
        rcases List.mem_cons.mp hx with hxr | hxr
        · exact absurd (hxr ▸ hxk) hk
        · exact hall x hxr hxk n t hxt
      · intro e he
        rcases hfrom e he with h | ⟨x, hx, hxk, hxt⟩
        · exact Or.inl h
        · exact Or.inr ⟨x, List.mem_cons_of_mem r hx, hxk, hxt⟩

/-- C24, counterexample: two script resources that both have `Script`, `Name`
and `ID` settings and share the name `s` yield one task, the one of the second
resource; the script with ID `1` is not handed on for execution. -/
theorem scripts_sharing_a_name_yield_one_task :
    RemovePowershellScriptsFromCfg "script"
        [sampleScript "s" "1", samplePackage "pkg.B" "Present", sampleScript "s" "2"] =
      some ([("s", { ID := "2", Script := "exit 1", RunConfig := "once" })],
        [samplePackage "pkg.B" "Present"]) ∧
      scriptTask (sampleScript "s" "1") =
        some ("s", { ID := "1", Script := "exit 1", RunConfig := "once" }) := by
  refine ⟨?_, ?_⟩ <;> decide

/-- C24, amended: for a configuration whose script resources carry only string
`Script`, `Name`, `ID` and `ScriptRun` settings, `RemovePowershellScriptsFromCfg`
returns without a panic; the new resource list is the old one without the
script resources, in the original order; the returned map has one task per
name; every script resource with `Script`, `Name` and `ID` settings has a task
under its name; and every returned task is the task of a script resource of
the configuration (run mode `"once"` when `ScriptRun` is absent). -/
theorem RemovePowershellScriptsFromCfg_extracts (ps : String) (resources : List WinGetResource)
    (hwf : scriptsWellFormed ps resources) :
    ∃ scripts, RemovePowershellScriptsFromCfg ps resources =
        some (scripts, resources.filter (fun r => decide (r.Resource ≠ ps))) ∧
      (scripts.map Prod.fst).Nodup ∧
      (∀ r ∈ resources, r.Resource = ps → ∀ n t, scriptTask r = some (n, t) →
        ∃ t1, (n, t1) ∈ scripts) ∧
      (∀ e ∈ scripts, ∃ r ∈ resources, r.Resource = ps ∧ scriptTask r = some e) := by
  obtain ⟨out, hout, hnd, _, hall, hfrom⟩ :=
    RemovePowershellScriptsFromCfg.loop_spec ps resources [] [] hwf (by simp)
  refine ⟨out, by simpa [RemovePowershellScriptsFromCfg] using hout, hnd, hall, ?_⟩
  intro e he
  rcases hfrom e he with h | h
  · cases h
  · exact h

/-- The amended C24 at a configuration with two scripts of different names, a
script resource without settings and a package. -/
theorem RemovePowershellScriptsFromCfg_extracts_witness :
    scriptsWellFormed "script"
        [sampleScript "s" "1", sampleOther, samplePackage "pkg.B" "Present",
          sampleScript "t" "2"] ∧
      ∃ scripts, RemovePowershellScriptsFromCfg "script"
          [sampleScript "s" "1", sampleOther, samplePackage "pkg.B" "Present",
            sampleScript "t" "2"] =
          some (scripts,
            [sampleScript "s" "1", sampleOther, samplePackage "pkg.B" "Present",
              sampleScript "t" "2"].filter (fun r => decide (r.Resource ≠ "script"))) ∧
        (scripts.map Prod.fst).Nodup ∧
        (∀ r ∈ [sampleScript "s" "1", sampleOther, samplePackage "pkg.B" "Present",
            sampleScript "t" "2"], r.Resource = "script" → ∀ n t, scriptTask r = some (n, t) →
          ∃ t1, (n, t1) ∈ scripts) ∧
        (∀ e ∈ scripts, ∃ r ∈ [sampleScript "s" "1", sampleOther,
            samplePackage "pkg.B" "Present", sampleScript "t" "2"],
          r.Resource = "script" ∧ scriptTask r = some e) :=
  ⟨by decide, RemovePowershellScriptsFromCfg_extracts "script" _ (by decide)⟩

/-! ## Deploy results of failed package operations -/

/-- C30, counterexample: when the update operation fails with the package
manager's "no updates found" code, the update handler only logs: no deploy
result is sent and the queue file is untouched. -/
theorem update_without_updates_sends_nothing :
    noUpdatesManager.UpdatePackage (sampleAction "p.X").PackageId =
        some "exit status 0x8a15002b" ∧
      UpdatePackageSubscribe (sampleEnv [] []) noUpdatesManager "msg" "" =
        { effects := [], disk := "" } := by
  refine ⟨?_, ?_⟩ <;> decide

/-- C30, amended: for a decoded action whose package-manager operation returns
an error, the install handler sends first a deploy result for the action with
`Failed = true`; the update handler sends nothing when the error text contains
`0x8a15002b` ("no updates found") and otherwise sends one deploy result for
the action with `Failed = true`; the uninstall handler sends one deploy result
for the action. -/
theorem failed_operation_deploy_result (env : Env) (c : Collaborators) (msgData disk : String)
    (action : DeployAction) (perr : GoError)
    (hmsg : c.unmarshalAction msgData = .ok action) :
    (c.InstallPackage action.PackageId = some perr →
      ∃ rest, (InstallPackageSubscribe env c msgData disk).effects =
        .sendDeployResult { action with Failed := true }
          (SendDeployResult env { action with Failed := true }) :: rest) ∧
    (c.UpdatePackage action.PackageId = some perr →
      (UpdatePackageSubscribe env c msgData disk).effects =
        if stringsContains perr (stringsToLower "0x8A15002B") then []
        else [.sendDeployResult { action with Failed := true }
          (SendDeployResult env { action with Failed := true })]) ∧
    (c.UninstallPackage action.PackageId = some perr →
      ∃ sent, (UninstallPackageSubscribe env c msgData disk).effects =
          [.sendDeployResult sent (SendDeployResult env sent)] ∧
        sent.AgentId = action.AgentId ∧ sent.PackageId = action.PackageId ∧
        sent.PackageName = action.PackageName ∧ sent.Action = action.Action ∧
        sent.When = action.When) := by
  refine ⟨?_, ?_, ?_⟩
  · intro h
    simp only [InstallPackageSubscribe, hmsg, h]
    cases hs : SendDeployResult env { action with Failed := true } with
    | none => exact ⟨[], rfl⟩
    | some err => exact ⟨_, rfl⟩
  · intro h
    simp only [UpdatePackageSubscribe, hmsg, h]
    split <;> rfl
  · intro h
    simp only [UninstallPackageSubscribe, hmsg, h]
    exact ⟨_, rfl, rfl, rfl, rfl, rfl, rfl⟩

/-- The amended C30 at the action for package `p.X`, with a package manager
whose three operations fail with `exit status 1` and a backend that answers. -/
theorem failed_operation_deploy_result_witness :
    failingManager.unmarshalAction "msg" = .ok (sampleAction "p.X") ∧
    ((failingManager.InstallPackage (sampleAction "p.X").PackageId = some "exit status 1" →
      ∃ rest, (InstallPackageSubscribe (sampleEnv [] []) failingManager "msg" "").effects =
        .sendDeployResult { sampleAction "p.X" with Failed := true }
          (SendDeployResult (sampleEnv [] []) { sampleAction "p.X" with Failed := true }) ::
            rest) ∧
    (failingManager.UpdatePackage (sampleAction "p.X").PackageId = some "exit status 1" →
      (UpdatePackageSubscribe (sampleEnv [] []) failingManager "msg" "").effects =
        if stringsContains "exit status 1" (stringsToLower "0x8A15002B") then []
        else [.sendDeployResult { sampleAction "p.X" with Failed := true }
          (SendDeployResult (sampleEnv [] []) { sampleAction "p.X" with Failed := true })]) ∧
    (failingManager.UninstallPackage (sampleAction "p.X").PackageId = some "exit status 1" →
      ∃ sent, (UninstallPackageSubscribe (sampleEnv [] []) failingManager "msg" "").effects =
          [.sendDeployResult sent (SendDeployResult (sampleEnv [] []) sent)] ∧
        sent.AgentId = (sampleAction "p.X").AgentId ∧
        sent.PackageId = (sampleAction "p.X").PackageId ∧
        sent.PackageName = (sampleAction "p.X").PackageName ∧
        sent.Action = (sampleAction "p.X").Action ∧
        sent.When = (sampleAction "p.X").When)) :=
  ⟨rfl, failed_operation_deploy_result (sampleEnv [] []) failingManager "msg" ""
    (sampleAction "p.X") "exit status 1" rfl⟩

/-! ## The PowerShell prerequisite -/

theorem upgradePowerShell_requires_missing_binary (env : Env) (uuid : String) (now : Time)
    (semverCompare : String → String → Int) (calls : PrerequisiteCalls) (out : String)
    (h : calls.missingAfterQuery = false) :
    ApplyConfiguration.upgradePowerShell env uuid now semverCompare calls out =
      { events := [], err := none } := by
  unfold ApplyConfiguration.upgradePowerShell
  simp [h]

/-- C25: with PowerShell 7 installed (`pwsh.exe` exists at both checks) and a
reported version `7.4.0`, lower than `7.4.6`, the prerequisite stage only
queries the version and goes on to apply the configuration: the package
manager is not asked to upgrade `Microsoft.PowerShell`. -/
theorem old_powershell_is_not_upgraded :
    plainSemverCompare ("v" ++ stringsTrimSpace "7.4.0\r\n") "v7.4.6" < 0 ∧
      ApplyConfiguration.prerequisites (sampleEnv [] []) "agent-1" 1 plainSemverCompare
          oldPowerShell =
        { events := [.queryVersion], err := none } ∧
      upgradeRequested
        (ApplyConfiguration.prerequisites (sampleEnv [] []) "agent-1" 1 plainSemverCompare
          oldPowerShell).events = false := by
  refine ⟨?_, ?_, ?_⟩ <;> decide

/-! ## The reconciliation cycle -/

/-- C23: a failed profile request is not a no-op.  When `Request` returns an
error (here a timeout), `GetWingetConfigureProfiles` and
`GetUnixConfigureProfiles` log it and go on to read `msg.Data` of the nil
reply: the cycle ends in a panic.  With an empty profile list both return
normally after the request alone. -/
theorem failed_profile_request_panics :
    GetWingetConfigureProfiles (profileCalls (.error "nats: timeout") []) =
        { events := [.request "wingetcfg.profiles" "agent-1"], ending := .panicked } ∧
      GetUnixConfigureProfiles (profileCalls (.error "nats: timeout") []) playbookOk "agent-1" =
        { events := [.request "ansiblecfg.profiles" "agent-1"], ending := .panicked } ∧
      GetWingetConfigureProfiles (profileCalls (.ok "[]") []) =
        { events := [.request "wingetcfg.profiles" "agent-1"], ending := .returned } ∧
      GetUnixConfigureProfiles (profileCalls (.ok "[]") []) playbookOk "agent-1" =
        { events := [.request "ansiblecfg.profiles" "agent-1"], ending := .returned } := by
  refine ⟨?_, ?_, ?_, ?_⟩ <;> decide

theorem GetUnixConfigureProfiles.loop_bare (calls : ProfileCalls) (pc : PlaybookCalls)
    (uuid : String) (profiles : List ProfileConfig) :
    GetUnixConfigureProfiles.loop calls pc uuid (profiles.map ProfileConfig.bare) =
      GetUnixConfigureProfiles.loop calls pc uuid profiles := by
  induction profiles with
  | nil => rfl
  | cons p rest ih =>
    simp only [List.map_cons, GetUnixConfigureProfiles.loop, ih, ProfileConfig.bare]

theorem Darwin.ApplyConfiguration_playbook (pc : PlaybookCalls) (uuid : String)
    (profileID : Int) (cfg username : String) (hdec : pc.unmarshal cfg = none)
    (hfile : pc.fileWritten) (huser : pc.loggedInUser = .ok username) :
    ReconcileEvent.executePlaybook ("---\n\n" ++ stringsReplaceAll cfg "some_user" username) ∈
      (Darwin.ApplyConfiguration pc uuid profileID cfg).events := by
  obtain ⟨h1, h2, h3, h4, h5⟩ := hfile
  simp only [Darwin.ApplyConfiguration, hdec, h1, h2, h3, h4, h5, huser]
  cases hx : pc.execute ("---\n\n" ++ stringsReplaceAll cfg "some_user" username) with
  | mk e results =>
    cases e <;> simp

theorem GetUnixConfigureProfiles.loop_playbook (calls : ProfileCalls) (pc : PlaybookCalls)
    (uuid : String) (profiles : List ProfileConfig) (p : ProfileConfig) (cfg username : String)
    (hp : p ∈ profiles) (hcfg : calls.marshalAnsible p.AnsibleConfig = .ok cfg)
    (hdec : pc.unmarshal cfg = none) (hfile : pc.fileWritten)
    (huser : pc.loggedInUser = .ok username) :
    ReconcileEvent.executePlaybook ("---\n\n" ++ stringsReplaceAll cfg "some_user" username) ∈
      GetUnixConfigureProfiles.loop calls pc uuid profiles := by
  induction profiles with
  | nil => cases hp
  | cons q rest ih =>
    rcases List.mem_cons.mp hp with h | h
    · subst h
      simp only [GetUnixConfigureProfiles.loop, hcfg]
      exact List.mem_append_left _
        (Darwin.ApplyConfiguration_playbook pc uuid p.ProfileID cfg username hdec hfile huser)
    · have hrest := ih h
      simp only [GetUnixConfigureProfiles.loop]
      cases calls.marshalAnsible q.AnsibleConfig with
      | error e => exact hrest
      | ok c => exact List.mem_append_right _ hrest

/-- C26, counterexample: on macOS a profile that installs `pkg.A` and names
`pkg.A` among its exclusions and its deployments is applied as received: the
playbook handed to `ansible-playbook` still installs `pkg.A`. -/
theorem darwin_playbook_keeps_excluded_package :
    GetUnixConfigureProfiles (profileCalls (.ok "reply") [sampleProfile]) playbookOk "agent-1" =
        { events := [.request "ansiblecfg.profiles" "agent-1", .installCollection,
            .executePlaybook "---\n\n- homebrew: name=pkg.A state=present user=alice\n",
            .profileReport 7 "agent-1" true ""],
          ending := .returned } ∧
      "pkg.A" ∈ sampleProfile.Exclusions ∧ "pkg.A" ∈ sampleProfile.Deployments ∧
      stringsContains "---\n\n- homebrew: name=pkg.A state=present user=alice\n" "pkg.A" =
        true := by
  refine ⟨?_, ?_, ?_, ?_⟩ <;> decide

/-- C26, amended: on macOS, for every profile returned by the backend whose
playbooks can be marshalled and written to the playbook file, the playbook
handed to the executor by the reconciliation cycle is the header `---`
followed by the YAML of the profile's playbooks with `some_user` replaced by
the logged in user; the cycle does not consult the profile's exclusions and
deployments: it makes the same steps when they are emptied. -/
theorem darwin_playbook_is_profile_as_received (calls : ProfileCalls) (pc : PlaybookCalls)
    (uuid msgData : String) (p : ProfileConfig) (cfg username : String)
    (hreq : calls.request "ansiblecfg.profiles" (profileRequestData calls) = .ok msgData)
    (hp : p ∈ calls.unmarshalProfiles msgData)
    (hcfg : calls.marshalAnsible p.AnsibleConfig = .ok cfg)
    (hdec : pc.unmarshal cfg = none) (hfile : pc.fileWritten)
    (huser : pc.loggedInUser = .ok username) :
    ReconcileEvent.executePlaybook ("---\n\n" ++ stringsReplaceAll cfg "some_user" username) ∈
        (GetUnixConfigureProfiles calls pc uuid).events ∧
      GetUnixConfigureProfiles
          { calls with
            unmarshalProfiles := fun d => (calls.unmarshalProfiles d).map ProfileConfig.bare }
          pc uuid =
        GetUnixConfigureProfiles calls pc uuid := by
  constructor
  · have h := GetUnixConfigureProfiles.loop_playbook calls pc uuid
      (calls.unmarshalProfiles msgData) p cfg username hp hcfg hdec hfile huser
    simp only [GetUnixConfigureProfiles, hreq]
    exact List.mem_cons_of_mem _ (List.mem_append_right _ h)
  · have hloop : ∀ profiles,
        GetUnixConfigureProfiles.loop
          { calls with
            unmarshalProfiles := fun d => (calls.unmarshalProfiles d).map ProfileConfig.bare }
          pc uuid profiles = GetUnixConfigureProfiles.loop calls pc uuid profiles := by
      intro profiles
      induction profiles with
      | nil => rfl
      | cons q rest ih => simp only [GetUnixConfigureProfiles.loop, ih]
    have hdata : profileRequestData
        { calls with
          unmarshalProfiles := fun d => (calls.unmarshalProfiles d).map ProfileConfig.bare } =
        profileRequestData calls := rfl
    simp only [GetUnixConfigureProfiles, hdata, hreq, hloop, List.length_map,
      GetUnixConfigureProfiles.loop_bare]

/-- The amended C26 at the profile that excludes `pkg.A`. -/
theorem darwin_playbook_is_profile_as_received_witness :
    ReconcileEvent.executePlaybook
          ("---\n\n" ++ stringsReplaceAll
            "- homebrew: name=pkg.A state=present user=some_user\n" "some_user" "alice") ∈
        (GetUnixConfigureProfiles (profileCalls (.ok "reply") [sampleProfile]) playbookOk
          "agent-1").events ∧
      GetUnixConfigureProfiles
          { profileCalls (.ok "reply") [sampleProfile] with
            unmarshalProfiles := fun d =>
              ((profileCalls (.ok "reply") [sampleProfile]).unmarshalProfiles d).map
                ProfileConfig.bare }
          playbookOk "agent-1" =
        GetUnixConfigureProfiles (profileCalls (.ok "reply") [sampleProfile]) playbookOk
          "agent-1" :=
  darwin_playbook_is_profile_as_received (profileCalls (.ok "reply") [sampleProfile])
    playbookOk "agent-1" "reply" sampleProfile
    "- homebrew: name=pkg.A state=present user=some_user\n" "alice"
    rfl (by decide) rfl rfl ⟨rfl, rfl, rfl, rfl, rfl⟩ rfl

/-! ## The settings message -/

/-- C28: a settings message with an invalid port is not rejected atomically.
On a message whose SFTP port is `70000`, the callback returns without saving,
but the in-memory `Debug`, `SFTPDisabled` and `RemoteAssistanceDisabled` have
already taken the values of the message; on a message with a valid SFTP port
and a VNC proxy port that is not a number, the in-memory `SFTPPort` has been
changed as well.  The persisted configuration is untouched in both cases. -/
theorem invalid_port_settings_change_memory :
    portRejected "70000" = true ∧ portRejected "vnc" = true ∧
      AgentSettingsSubscribe (settingsCalls settingsBadSFTPPort) sampleAgent =
        { agent :=
            { sampleAgent with
              Config :=
                { sampleAgent.Config with
                  Debug := true, SFTPDisabled := true, RemoteAssistanceDisabled := true } },
          trace := [], ending := .returned } ∧
      (sampleAgent.Config.Debug, sampleAgent.Config.SFTPDisabled,
        sampleAgent.Config.RemoteAssistanceDisabled, sampleAgent.Config.SFTPPort) =
        (false, false, false, "2022") ∧
      AgentSettingsSubscribe (settingsCalls settingsBadVNCPort) sampleAgent =
        { agent := { sampleAgent with Config := { sampleAgent.Config with SFTPPort := "2222" } },
          trace := [], ending := .returned } := by
  refine ⟨?_, ?_, ?_, ?_, ?_⟩ <;> decide

/-! ## The jobs scheduled by `Start` and by the reconnect task -/

/-- C22: `Start` connects to the message bus, the agent is enabled, and the
first report cannot be generated (`RunReport` returns nil): `Start` returns
with an empty scheduler, neither the report job nor the pending-ack job nor
the reconciliation job is scheduled.  With a first report that is generated and
sent the three jobs are scheduled. -/
theorem Start_without_first_report_schedules_nothing :
    (Start startReportFails (freshAgent true)).ending = .returned ∧
      (Start startReportFails (freshAgent true)).trace =
        [.writeConfig, .connect none, .subscribe, .runReport .failed] ∧
      (Start startReportFails (freshAgent true)).agent.Config.Enabled = true ∧
      (Start startReportFails (freshAgent true)).agent.jobs = [] ∧
      retryAndReconcileScheduled (Start startReportFails (freshAgent true)).agent = false ∧
      (Start startOk (freshAgent true)).agent.jobs =
        [{ id := 0, kind := .report, minutes := 60 },
         { id := 1, kind := .pendingACK, minutes := 5 },
         { id := 2, kind := .configure, minutes := 30 }] := by
  refine ⟨?_, ?_, ?_, ?_, ?_, ?_⟩ <;> decide

/-- C29: a report job is scheduled while `Enabled` is false.  A disabled agent
whose `Start` cannot reach the message bus gets the reconnect job; when its
task connects, it starts the report job whatever `Enabled` is.  And an enabled
agent that is started, disabled and then sent a new configuration has its
report job scheduled again by `NewConfigSubscribe`, while still disabled. -/
theorem report_job_scheduled_while_disabled :
    (Start startNotConnected (freshAgent false)).agent.jobs =
        [{ id := 0, kind := .natsConnect, minutes := 5 }] ∧
      (startNATSConnectJob.task reconnectOk
          (Start startNotConnected (freshAgent false)).agent).agent.Config.Enabled = false ∧
      (startNATSConnectJob.task reconnectOk
          (Start startNotConnected (freshAgent false)).agent).agent.jobs =
        [{ id := 1, kind := .report, minutes := 5 },
         { id := 2, kind := .pendingACK, minutes := 5 },
         { id := 3, kind := .configure, minutes := 30 }] ∧
      (((Start startOk (freshAgent true)).andThen (DisableAgentHandler configOk)).andThen
          (NewConfigSubscribe newConfigTwoHours)).ending = .returned ∧
      (((Start startOk (freshAgent true)).andThen (DisableAgentHandler configOk)).andThen
          (NewConfigSubscribe newConfigTwoHours)).agent.Config.Enabled = false ∧
      (((Start startOk (freshAgent true)).andThen (DisableAgentHandler configOk)).andThen
          (NewConfigSubscribe newConfigTwoHours)).agent.jobs =
        [{ id := 1, kind := .pendingACK, minutes := 5 },
         { id := 2, kind := .configure, minutes := 30 },
         { id := 3, kind := .report, minutes := 120 }] := by
  refine ⟨?_, ?_, ?_, ?_, ?_, ?_⟩ <;> decide

/-! ## The exclude notifications of `ApplyConfiguration` -/

theorem ApplyConfiguration.prepare_notifies (env : Env) (uuid : String) (now : Time)
    (semverCompare : String → String → Int) (calls : PrerequisiteCalls) (pkg : String)
    (installed : String → Bool) (resources : List WinGetResource)
    (exclusions deployments : List String)
    (hpre : (ApplyConfiguration.prerequisites env uuid now semverCompare calls).err = none)
    (hwf : packagesWellFormed pkg resources)
    (hm : ∀ id ∈ deployments, ∃ data, env.marshal (excludeRecord uuid id) = .ok data) :
    ∃ out, ApplyConfiguration.prepare env uuid now semverCompare calls pkg installed resources
        exclusions deployments =
        { events := (ApplyConfiguration.prerequisites env uuid now semverCompare calls).events,
          excludeRequests := SendWinGetCfgExcludedPackage env uuid
            (deployments.filter fun d => !installed d),
          outcome := .filtered out } ∧
      List.Forall₂
        (fun id req => req.1 = "wingetcfg.exclude" ∧
          env.marshal (excludeRecord uuid id) = .ok req.2)
        (deployments.filter fun d => !installed d)
        (SendWinGetCfgExcludedPackage env uuid (deployments.filter fun d => !installed d)) := by
  have hdel := GetExplicitelyDeletedPackages_eq_filter installed deployments
  obtain ⟨r1, h1, hwf1⟩ := RemovePackagesFromCfg_wellFormed pkg resources
    (deployments.filter fun d => !installed d) hwf
  obtain ⟨r2, h2, _⟩ := RemovePackagesFromCfg_wellFormed pkg r1 exclusions hwf1
  refine ⟨r2, ?_, ?_⟩
  · simp only [ApplyConfiguration.prepare, hpre, hdel, h1, h2]
  · apply SendWinGetCfgExcludedPackage_one_each
    intro id hid
    exact hm id (List.mem_filter.mp hid).1

/-- C5: for the deployments `["pkg.A"]` with `pkg.A` removed by hand,
`GetExplicitelyDeletedPackages` returns `["pkg.A"]`; on a host whose
prerequisites are met, `ApplyConfiguration` of a profile whose first resource
is a package without `id` panics in `RemovePackagesFromCfg`, before
`SendWinGetCfgExcludedPackage`: no exclude notification is sent for `pkg.A`.
On the configuration of the specification's scenario the notification for
`pkg.A` is sent and `pkg.A` is dropped from the resources. -/
theorem deleted_package_not_notified_after_fault :
    GetExplicitelyDeletedPackages (fun d => d != "pkg.A") ["pkg.A"] = ["pkg.A"] ∧
      ApplyConfiguration.prepare (sampleEnv [] []) "agent-1" 1 plainSemverCompare
          currentPowerShell "package" (fun d => d != "pkg.A")
          [packageWithoutId, samplePackage "pkg.A" "Present"] [] ["pkg.A"] =
        { events := [.queryVersion], excludeRequests := [], outcome := .panicked } ∧
      ApplyConfiguration.prepare (sampleEnv [] []) "agent-1" 1 plainSemverCompare
          currentPowerShell "package" (fun d => d != "pkg.A")
          [samplePackage "pkg.A" "Present", samplePackage "pkg.B" "Present"] [] ["pkg.A"] =
        { events := [.queryVersion], excludeRequests := [("wingetcfg.exclude", "pkg.A")],
          outcome := .filtered [samplePackage "pkg.B" "Present"] } := by
  refine ⟨?_, ?_, ?_⟩ <;> decide

end ScnorionAgent
